import Mathlib

/-!
# erajaya-test: product service with a cache-aside layer

A shallow embedding of the Go sources

* `internal/usecase/product_usecase.go`         (the read/write orchestrator),
* `internal/repository/redis_repository.go`     (the cache gateway),
* `internal/repository/postgres_repository.go`  (the store gateway),
* `internal/delivery/http/product_handler.go`   (the HTTP handlers),
* `shared/response/json.go`                     (responses, `StandardPagination`),
* `shared/utils/validator.go`                   (`ParseValidationErrors`),
* `shared/constant/constant.go`, `internal/models/...` (data model),

together with theorems about them.  The libraries the sources call
(`net/url`, go-querystring, `strconv`, go-redis and a Redis server, GORM and
a PostgreSQL database, `encoding/json`) are modelled after their documented
behaviour or taken as parameters.

Conventions of the embedding.

* A Go `string` is a sequence of bytes: `GoString := List UInt8`.
* A Go `error` is `Option GoError`, `none` being `nil`.
* A Go slice is a `List`; the nil slice and the empty slice are both `[]`.
* A Go pointer that may be nil is an `Option`.
* Go `int` and `int64` are `Int`; where the source does arithmetic that can
  overflow the result is wrapped to 64 bits explicitly (`wrapInt64`).
* Interfaces (`ProductRepository`, `RedisRepository`) and the go-redis client
  are records of state-passing functions over a state type: a method with
  result type `ρ` becomes a function `... → ω → ρ × ω`.
-/

set_option autoImplicit false

namespace Erajaya

/-! ## Go base types -/

/-- A Go string: a finite sequence of bytes. -/
abbrev GoString := List UInt8

/-- The bytes of a string literal (its UTF-8 encoding, as the Go compiler
stores it). -/
def str (s : String) : GoString := s.data.flatMap String.utf8EncodeChar

/-- A Go `error` value.  The named constructors are the package-level error
variables the program compares against by identity; `other` stands for every
further error value, carrying the text its `Error()` method reports. -/
inductive GoError where
  /-- The value `constant.ErrValidation`. -/
  | ErrValidation
  /-- The value `constant.ErrInternal`. -/
  | ErrInternal
  /-- The value `constant.ErrNotFound`. -/
  | ErrNotFound
  /-- The value `gorm.ErrRecordNotFound`. -/
  | gormErrRecordNotFound
  /-- The value `redis.Nil`, the reply of a `GET` on an absent key. -/
  | redisNil
  /-- Any other error, with its message. -/
  | other (text : GoString)
  deriving DecidableEq, Repr

/-- The method `Error()` of an error value. -/
def GoError.Error : GoError → GoString
  | .ErrValidation => str "validation error"
  | .ErrInternal => str "internal server error"
  | .ErrNotFound => str "record not found"
  | .gormErrRecordNotFound => str "record not found"
  | .redisNil => str "redis: nil"
  | .other text => text

/-- A `time.Time` instant, counted in nanoseconds from the zero `time.Time`. -/
structure Time where
  nanos : Int
  deriving DecidableEq, Repr

/-- The zero value of `time.Time`. -/
def Time.zero : Time := ⟨0⟩

/-- A `time.Duration` is a number of nanoseconds. -/
abbrev Duration := Int

/-- The constant `time.Minute`. -/
def time.Minute : Duration := 60 * 1000000000

/-- Conversion to a 64-bit two's complement integer (Go `int`, `int64`). -/
def wrapInt64 (x : Int) : Int := (x + 2 ^ 63) % 2 ^ 64 - 2 ^ 63

/-! ## Decimal rendering (`%d`, `strconv.Itoa`) -/

/-- The ASCII digit of a number below ten. -/
def digitByte (d : Nat) : UInt8 := (48 + d).toUInt8

/-- Decimal digits of `n`, most significant first; `fuel` bounds the number
of digits. -/
def decimalDigits : Nat → Nat → GoString
  | 0, _ => []
  | fuel + 1, n =>
    if n < 10 then [digitByte n]
    else decimalDigits fuel (n / 10) ++ [digitByte (n % 10)]

/-- Decimal rendering of a natural number. -/
def formatNat (n : Nat) : GoString := decimalDigits (n + 1) n

/-- Decimal rendering of an integer as `%d` prints it: a minus sign for a
negative number, then the digits of the absolute value. -/
def formatInt : Int → GoString
  | .ofNat n => formatNat n
  | .negSucc n => 45 :: formatNat (n + 1)

/-- The number a sequence of decimal digits stands for. -/
def digitsValue (s : GoString) : Nat :=
  s.foldl (fun acc b => acc * 10 + (b.toNat - 48)) 0

/-! ## Data model (`internal/models`) -/

namespace entity

/-- The struct `entity.Product`. -/
structure Product where
  ID : Int
  Name : GoString
  Price : Option Int
  Description : GoString
  Quantity : Option Int
  CreatedAt : Time
  CreatedBy : GoString
  UpdatedAt : Time
  UpdatedBy : GoString
  DeletedAt : Time
  DeletedBy : GoString
  deriving DecidableEq, Repr

/-- The struct `entity.FetchResult`: the `{products, total}` envelope. -/
structure FetchResult where
  Products : List Product
  Total : Int
  deriving DecidableEq, Repr

end entity

namespace request

/-- The struct `request.Product`. -/
structure Product where
  Name : GoString
  Price : Option Int
  Description : GoString
  Quantity : Option Int
  CreatedBy : GoString
  deriving DecidableEq, Repr

/-- The struct `request.ProductFilter`.  The Go field `Sort` is named `Sort_`
here, `Sort` being reserved in Lean. -/
structure ProductFilter where
  Search : GoString
  Sort_ : GoString
  Page : Int
  Limit : Int
  deriving DecidableEq, Repr

end request

namespace constant

/-- The variable `constant.RedisKeyProductDetail`. -/
def RedisKeyProductDetail : GoString := str "products:detail"

/-- The variable `constant.RedisKeyProductList`. -/
def RedisKeyProductList : GoString := str "products:list"

end constant

/-! ## Pagination (`shared/response/json.go`) -/

namespace response

/-- The struct `response.StdPagination`. -/
structure StdPagination where
  NextPage : Bool
  PrevPage : Bool
  Limit : Int
  Page : Int
  Total : Int
  deriving DecidableEq, Repr

/-- The zero value `response.StdPagination{}`. -/
def StdPagination.zero : StdPagination :=
  { NextPage := false, PrevPage := false, Limit := 0, Page := 0, Total := 0 }

/-- The function `response.StandardPagination`.  `page * limit` is a product of
Go `int`s and wraps; `int(total)` is the identity on a 64-bit platform. -/
def StandardPagination (page limit : Int) (total : Int) : StdPagination :=
  { Page := page
    Limit := limit
    Total := total
    NextPage := decide (wrapInt64 (page * limit) < total)
    PrevPage := decide (page > 1) }

end response

/-! ## Cache keys: `net/url` and `go-querystring`

The list key is built with two library functions, `query.Values` of
`github.com/google/go-querystring` and `url.Values.Encode` of `net/url`.  They
are modelled here after their documented behaviour. -/

namespace url

/-- The function `shouldEscape` of `net/url` in the mode `encodeQueryComponent`:
letters, digits and `-`, `_`, `.`, `~` are kept, every other byte is escaped. -/
def shouldEscape (c : UInt8) : Bool :=
  if (97 ≤ c ∧ c ≤ 122) ∨ (65 ≤ c ∧ c ≤ 90) ∨ (48 ≤ c ∧ c ≤ 57) then false
  else if c = 45 ∨ c = 95 ∨ c = 46 ∨ c = 126 then false
  else true

/-- The table `upperhex` of `net/url`, indexed by a number below sixteen. -/
def upperhex (d : Nat) : UInt8 :=
  if d < 10 then (48 + d).toUInt8 else (55 + d).toUInt8

/-- The bytes `url.QueryEscape` writes for one byte of its argument: the byte
itself when it needs no escape, `+` for a space, `%XX` otherwise. -/
def escapeByte (c : UInt8) : GoString :=
  if shouldEscape c then
    if c = 32 then [43]
    else [37, upperhex (c.toNat / 16), upperhex (c.toNat % 16)]
  else [c]

/-- The function `url.QueryEscape`. -/
def QueryEscape (s : GoString) : GoString := s.flatMap escapeByte

/-- The type `url.Values`, a map from a key to its values, as an association
list. -/
abbrev Values := List (GoString × List GoString)

/-- Bytewise lexicographic order of Go strings, the order of `slices.Sort`. -/
def stringLE : GoString → GoString → Bool
  | [], _ => true
  | _ :: _, [] => false
  | a :: as, b :: bs => if a < b then true else if b < a then false else stringLE as bs

/-- Insertion of a binding into a list of bindings sorted by key. -/
def insertByKey (kv : GoString × List GoString) : Values → Values
  | [] => [kv]
  | x :: xs => if stringLE kv.1 x.1 then kv :: x :: xs else x :: insertByKey kv xs

/-- The bindings of a `url.Values` sorted by key. -/
def sortByKey : Values → Values
  | [] => []
  | kv :: rest => insertByKey kv (sortByKey rest)

/-- The pieces `key=value` that `Encode` writes for one key, both sides
escaped. -/
def encodeBinding (kv : GoString × List GoString) : List GoString :=
  kv.2.map (fun v => QueryEscape kv.1 ++ str "=" ++ QueryEscape v)

/-- Joins strings with `&` between them. -/
def joinAmp : List GoString → GoString
  | [] => []
  | [x] => x
  | x :: y :: rest => x ++ str "&" ++ joinAmp (y :: rest)

/-- The method `url.Values.Encode`: the bindings in key order, URL-escaped,
as `k1=v1&k2=v2...`. -/
def Values.Encode (v : Values) : GoString :=
  joinAmp ((sortByKey v).flatMap encodeBinding)

end url

namespace query

/-- The function `query.Values` on a `request.ProductFilter`.  The struct has
no `url` tags, so each field is added under its Go field name and no field is
omitted; an `int` is rendered in decimal. -/
def Values (filter : request.ProductFilter) : url.Values :=
  [ (str "Search", [filter.Search]),
    (str "Sort", [filter.Sort_]),
    (str "Page", [formatInt filter.Page]),
    (str "Limit", [formatInt filter.Limit]) ]

end query

/-! ## Interfaces and library handles -/

namespace interfaces

/-- The interface `interfaces.ProductRepository`, over a state `ω`. -/
structure ProductRepository (ω : Type) where
  Create : entity.Product → ω → Option GoError × ω
  GetByID : Int → ω → (Option entity.Product × Option GoError) × ω
  Fetch : request.ProductFilter → ω → (List entity.Product × Int × Option GoError) × ω

end interfaces

namespace repository

/-- The interface `repository.RedisRepository`, over a state `ω`.  The value
passed to `Set` is the serialised payload. -/
structure RedisRepository (ω : Type) where
  Set : GoString → GoString → Duration → ω → Option GoError × ω
  Get : GoString → ω → (GoString × Option GoError) × ω
  Delete : GoString → ω → Option GoError × ω

end repository

/-- The functions of `encoding/json` the orchestrator uses, at the types it
uses them at.  `Marshal` returns its bytes and its error; `Unmarshal` either
fills the target or reports an error. -/
structure EncodingJSON where
  MarshalProduct : Option entity.Product → GoString × Option GoError
  UnmarshalProduct : GoString → Except GoError entity.Product
  MarshalFetchResult : entity.FetchResult → GoString × Option GoError
  UnmarshalFetchResult : GoString → Except GoError entity.FetchResult

/-! ## The go-redis client -/

namespace redis

/-- What a `*redis.ScanIterator` shows to its user: the values for which
`Next` returns true, in order, and the error `Err` reports once `Next` has
returned false (`none` when the cursor reached its end). -/
structure ScanIterator where
  vals : List GoString
  err : Option GoError
  deriving DecidableEq, Repr

/-- The methods of `*redis.Client` that the cache gateway calls, over a client
and server state `κ`.  `Scan cursor pattern count` stands for
`Scan(ctx, cursor, pattern, count).Iterator()`. -/
structure Client (κ : Type) where
  Set : GoString → GoString → Duration → κ → Option GoError × κ
  Get : GoString → κ → (GoString × Option GoError) × κ
  Del : List GoString → κ → Option GoError × κ
  Scan : Nat → GoString → Int → κ → ScanIterator × κ

end redis

/-! ## The cache gateway (`internal/repository/redis_repository.go`) -/

namespace repository

/-- The struct `redisRepository`. -/
structure redisRepository (κ : Type) where
  client : redis.Client κ

/-- The constant `batchSize` of `deleteByPatternInternal`. -/
def batchSize : Nat := 100

/-- The method `redisRepository.Set`. -/
def redisRepository.Set {κ : Type} (r : redisRepository κ) (key value : GoString)
    (expiration : Duration) (w : κ) : Option GoError × κ :=
  r.client.Set key value expiration w

/-- The method `redisRepository.Get`. -/
def redisRepository.Get {κ : Type} (r : redisRepository κ) (key : GoString) (w : κ) :
    (GoString × Option GoError) × κ :=
  r.client.Get key w

/-- The loop `for iter.Next(ctx) { ... }` of `deleteByPatternInternal`, run on
the values the iterator still has to yield, with the current batch `keys`.
The result is `error err` when the body returned `err`, and `ok keys` with the
batch left over when the loop ran to its end. -/
def redisRepository.scanLoop {κ : Type} (r : redisRepository κ) :
    List GoString → List GoString → κ → Except GoError (List GoString) × κ
  | [], keys, w => (.ok keys, w)
  | val :: rest, keys, w =>
    let keys := keys ++ [val]
    if keys.length ≥ batchSize then
      match r.client.Del keys w with
      | (some err, w) => (.error err, w)
      | (none, w) => scanLoop r rest [] w
    else
      scanLoop r rest keys w

/-- The method `redisRepository.deleteByPatternInternal`. -/
def redisRepository.deleteByPatternInternal {κ : Type} (r : redisRepository κ)
    (pattern : GoString) (w : κ) : Option GoError × κ :=
  let (iter, w) := r.client.Scan 0 pattern 0 w
  match r.scanLoop iter.vals [] w with
  | (.error err, w) => (some err, w)
  | (.ok keys, w) =>
    match iter.err with
    | some err => (some err, w)
    | none =>
      if keys.length > 0 then
        match r.client.Del keys w with
        | (some err, w) => (some err, w)
        | (none, w) => (none, w)
      else
        (none, w)

/-- The call `strings.Contains(s, "*")`. -/
def containsStar (s : GoString) : Bool := s.contains 42

/-- The method `redisRepository.Delete`. -/
def redisRepository.Delete {κ : Type} (r : redisRepository κ) (keyOrPattern : GoString)
    (w : κ) : Option GoError × κ :=
  if containsStar keyOrPattern then
    r.deleteByPatternInternal keyOrPattern w
  else
    r.client.Del [keyOrPattern] w

/-- The function `NewRedisRepository`: the struct seen through the interface
`RedisRepository`. -/
def NewRedisRepository {κ : Type} (client : redis.Client κ) : RedisRepository κ :=
  let r : redisRepository κ := { client := client }
  { Set := r.Set, Get := r.Get, Delete := r.Delete }

end repository

/-! ## The orchestrator (`internal/usecase/product_usecase.go`) -/

namespace usecase

/-- The struct `productUsecase`. -/
structure productUsecase (ω : Type) where
  repo : interfaces.ProductRepository ω
  redisRepo : repository.RedisRepository ω

/-- The function `NewProductUsecase`. -/
def NewProductUsecase {ω : Type} (repo : interfaces.ProductRepository ω)
    (redisRepo : repository.RedisRepository ω) : productUsecase ω :=
  { repo := repo, redisRepo := redisRepo }

/-- The struct literal `&entity.Product{...}` of `CreateProduct`.  `createdAt`
and `updatedAt` are the two readings of `time.Now()`; the fields the literal
does not set keep their zero values. -/
def newProduct (createdAt updatedAt : Time) (req : request.Product) : entity.Product :=
  { ID := 0
    Name := req.Name
    Price := req.Price
    Description := req.Description
    Quantity := req.Quantity
    CreatedBy := req.CreatedBy
    CreatedAt := createdAt
    UpdatedAt := updatedAt
    UpdatedBy := []
    DeletedAt := Time.zero
    DeletedBy := [] }

/-- The method `productUsecase.CreateProduct`; `createdAt` and `updatedAt` are
the two readings of `time.Now()`. -/
def productUsecase.CreateProduct {ω : Type} (u : productUsecase ω)
    (createdAt updatedAt : Time) (req : request.Product) (w : ω) : Option GoError × ω :=
  let product := newProduct createdAt updatedAt req
  match u.repo.Create product w with
  | (some err, w) => (some err, w)
  | (none, w) =>
    let (_, w) := u.redisRepo.Delete (str "products*") w
    (none, w)

/-- The key `fmt.Sprintf("%s:%d", constant.RedisKeyProductDetail, id)`. -/
def detailKey (id : Int) : GoString :=
  constant.RedisKeyProductDetail ++ str ":" ++ formatInt id

/-- The key `fmt.Sprintf("%s:%s", constant.RedisKeyProductList, queryString)`
with `queryString` the encoded `query.Values(filter)`. -/
def listKey (filter : request.ProductFilter) : GoString :=
  let query := query.Values filter
  let queryString := url.Values.Encode query
  constant.RedisKeyProductList ++ str ":" ++ queryString

/-- The method `productUsecase.GetProductByID`.  `hit` is the product of the
early return: present when `Get` gave no error and the payload unmarshalled. -/
def productUsecase.GetProductByID {ω : Type} (u : productUsecase ω) (json : EncodingJSON)
    (id : Int) (w : ω) : (Option entity.Product × Option GoError) × ω :=
  let key := detailKey id
  let ((val, err), w) := u.redisRepo.Get key w
  let hit : Option entity.Product :=
    if err = none then
      match json.UnmarshalProduct val with
      | .ok product => some product
      | .error _ => none
    else none
  match hit with
  | some product => ((some product, none), w)
  | none =>
    match u.repo.GetByID id w with
    | ((_, some err), w) => ((none, some err), w)
    | ((product, none), w) =>
      let (data, _) := json.MarshalProduct product
      let (_, w) := u.redisRepo.Set key data (5 * time.Minute) w
      ((product, none), w)

/-- The method `productUsecase.ListProducts`.  `hit` is the envelope of the
early return: present when `Get` gave no error and the payload unmarshalled. -/
def productUsecase.ListProducts {ω : Type} (u : productUsecase ω) (json : EncodingJSON)
    (filter : request.ProductFilter) (w : ω) :
    (List entity.Product × response.StdPagination × Option GoError) × ω :=
  let key := listKey filter
  let ((val, err), w) := u.redisRepo.Get key w
  let hit : Option entity.FetchResult :=
    if err = none then
      match json.UnmarshalFetchResult val with
      | .ok result => some result
      | .error _ => none
    else none
  match hit with
  | some result =>
    let pagination := response.StandardPagination filter.Page filter.Limit result.Total
    ((result.Products, pagination, none), w)
  | none =>
    match u.repo.Fetch filter w with
    | ((_, _, some err), w) => (([], response.StdPagination.zero, some err), w)
    | ((products, total, none), w) =>
      let pagination := response.StandardPagination filter.Page filter.Limit total
      if products.length > 0 then
        let result : entity.FetchResult := { Products := products, Total := total }
        let (data, _) := json.MarshalFetchResult result
        let (_, w) := u.redisRepo.Set key data (5 * time.Minute) w
        ((products, pagination, none), w)
      else
        ((products, pagination, none), w)

end usecase

/-! ## Recording the calls made through an interface

To state which calls an operation issues, an interface value is wrapped so
that every call is appended to a log kept next to the state, the way the
generated mocks of the test suites record calls.  The wrapper forwards every
call unchanged. -/

namespace trace

/-- A call made by the orchestrator through one of its two interfaces. -/
inductive Call where
  | repoCreate (product : entity.Product)
  | repoGetByID (id : Int)
  | repoFetch (filter : request.ProductFilter)
  | redisSet (key value : GoString) (expiration : Duration)
  | redisGet (key : GoString)
  | redisDelete (keyOrPattern : GoString)
  deriving DecidableEq, Repr

/-- A store gateway that logs the calls it receives. -/
def recordRepo {ω : Type} (r : interfaces.ProductRepository ω) :
    interfaces.ProductRepository (ω × List Call) :=
  { Create := fun product w =>
      let (res, s) := r.Create product w.1
      (res, (s, w.2 ++ [Call.repoCreate product]))
    GetByID := fun id w =>
      let (res, s) := r.GetByID id w.1
      (res, (s, w.2 ++ [Call.repoGetByID id]))
    Fetch := fun filter w =>
      let (res, s) := r.Fetch filter w.1
      (res, (s, w.2 ++ [Call.repoFetch filter])) }

/-- A cache gateway that logs the calls it receives. -/
def recordRedis {ω : Type} (r : repository.RedisRepository ω) :
    repository.RedisRepository (ω × List Call) :=
  { Set := fun key value expiration w =>
      let (res, s) := r.Set key value expiration w.1
      (res, (s, w.2 ++ [Call.redisSet key value expiration]))
    Get := fun key w =>
      let (res, s) := r.Get key w.1
      (res, (s, w.2 ++ [Call.redisGet key]))
    Delete := fun keyOrPattern w =>
      let (res, s) := r.Delete keyOrPattern w.1
      (res, (s, w.2 ++ [Call.redisDelete keyOrPattern])) }

/-- An orchestrator whose two gateways log their calls into one log. -/
def record {ω : Type} (u : usecase.productUsecase ω) : usecase.productUsecase (ω × List Call) :=
  usecase.NewProductUsecase (recordRepo u.repo) (recordRedis u.redisRepo)

/-- A command sent through the go-redis client, with the reply it got. -/
inductive Cmd where
  | Set (key value : GoString) (expiration : Duration) (reply : Option GoError)
  | Get (key : GoString) (reply : GoString × Option GoError)
  | Del (keys : List GoString) (reply : Option GoError)
  | Scan (cursor : Nat) (pattern : GoString) (count : Int) (reply : redis.ScanIterator)
  deriving DecidableEq, Repr

/-- A go-redis client that logs the commands it receives and their replies. -/
def recordClient {κ : Type} (c : redis.Client κ) : redis.Client (κ × List Cmd) :=
  { Set := fun key value expiration w =>
      let (res, s) := c.Set key value expiration w.1
      (res, (s, w.2 ++ [Cmd.Set key value expiration res]))
    Get := fun key w =>
      let (res, s) := c.Get key w.1
      (res, (s, w.2 ++ [Cmd.Get key res]))
    Del := fun keys w =>
      let (res, s) := c.Del keys w.1
      (res, (s, w.2 ++ [Cmd.Del keys res]))
    Scan := fun cursor pattern count w =>
      let (res, s) := c.Scan cursor pattern count w.1
      (res, (s, w.2 ++ [Cmd.Scan cursor pattern count res])) }

/-- The key batches of the `Del` commands of a log, in order. -/
def delBatches : List Cmd → List (List GoString)
  | [] => []
  | Cmd.Del keys _ :: rest => keys :: delBatches rest
  | _ :: rest => delBatches rest

/-- A `Del` of a batch that was answered without error, as it appears in the
log. -/
def okDel (batch : List GoString) : Cmd := Cmd.Del batch none

/-- Whether a command of the log is a `Del` that got an error reply. -/
def Cmd.isFailedDel : Cmd → Bool
  | .Del _ (some _) => true
  | _ => false

end trace

/-! ## Bounded-batch deletion -/

namespace repository

/-- The batches the scan loop hands to `Del` and the batch it leaves over,
computed from the scanned values alone (the loop with every `Del`
succeeding). -/
def batchesOf : List GoString → List GoString → List (List GoString) × List GoString
  | [], keys => ([], keys)
  | val :: rest, keys =>
    if (keys ++ [val]).length ≥ batchSize then
      ((keys ++ [val]) :: (batchesOf rest []).1, (batchesOf rest []).2)
    else
      batchesOf rest (keys ++ [val])

end repository

/-! ## An in-memory Redis

The server behind the go-redis client is not part of the repository.  To state
what invalidation does to later reads, the commands the gateway uses are given
their documented meaning on a finite key-value table.  Every command first
consumes one entry of a fault schedule: when the entry is an error the command
fails with it and leaves the table unchanged (a connection or server
failure); when the entry is `none`, or the schedule is exhausted, the command
is carried out.  Expiry is not modelled: an entry stays until it is deleted or
overwritten. -/

namespace redis

/-- One item of a `[...]` class of a glob pattern. -/
inductive ClassItem where
  | single (c : UInt8)
  | range (lo hi : UInt8)
  deriving DecidableEq, Repr

/-- One element of a parsed glob pattern. -/
inductive GlobTok where
  /-- The wildcard `*`: any sequence of bytes. -/
  | star
  /-- The wildcard `?`: any one byte. -/
  | any
  /-- A literal byte. -/
  | lit (c : UInt8)
  /-- A class `[...]`, negated when it starts with `^`. -/
  | cls (negated : Bool) (items : List ClassItem)
  deriving DecidableEq, Repr

/-- Parses a glob pattern of the `MATCH` option.  The first argument is the
class being read, if any.  A backslash makes the next byte literal, and a class
that is not closed ends with the pattern. -/
def parseGlob : Option (Bool × List ClassItem) → GoString → List GlobTok
  | none, [] => []
  | none, 42 :: p => GlobTok.star :: parseGlob none p
  | none, 63 :: p => GlobTok.any :: parseGlob none p
  | none, 91 :: 94 :: p => parseGlob (some (true, [])) p
  | none, 91 :: p => parseGlob (some (false, [])) p
  | none, 92 :: c :: p => GlobTok.lit c :: parseGlob none p
  | none, c :: p => GlobTok.lit c :: parseGlob none p
  | some (neg, items), [] => [GlobTok.cls neg items]
  | some (neg, items), 92 :: c :: p => parseGlob (some (neg, items ++ [ClassItem.single c])) p
  | some (neg, items), 93 :: p => GlobTok.cls neg items :: parseGlob none p
  | some (neg, items), lo :: 45 :: hi :: p =>
    parseGlob (some (neg, items ++ [ClassItem.range lo hi])) p
  | some (neg, items), c :: p => parseGlob (some (neg, items ++ [ClassItem.single c])) p

/-- Whether a byte belongs to a class item; the bounds of a range may come in
either order. -/
def ClassItem.has (c : UInt8) : ClassItem → Bool
  | .single x => x = c
  | .range lo hi => (lo ≤ c ∧ c ≤ hi) ∨ (hi ≤ c ∧ c ≤ lo)

/-- Whether a function accepts some suffix of a string. -/
def anySuffix (f : GoString → Bool) : GoString → Bool
  | [] => f []
  | c :: s => f (c :: s) || anySuffix f s

/-- Whether a string matches a parsed glob pattern. -/
def matchToks : List GlobTok → GoString → Bool
  | [] => fun s => s.isEmpty
  | GlobTok.star :: ts => fun s => anySuffix (matchToks ts) s
  | GlobTok.any :: ts => fun s =>
    match s with
    | [] => false
    | _ :: s => matchToks ts s
  | GlobTok.lit x :: ts => fun s =>
    match s with
    | [] => false
    | c :: s => x = c && matchToks ts s
  | GlobTok.cls neg items :: ts => fun s =>
    match s with
    | [] => false
    | c :: s => (items.any (ClassItem.has c) != neg) && matchToks ts s

/-- Whether a key matches a glob pattern. -/
def globMatch (pattern key : GoString) : Bool :=
  matchToks (parseGlob none pattern) key

/-- An entry of the table. -/
structure Entry where
  key : GoString
  value : GoString
  expiration : Duration
  deriving DecidableEq, Repr

/-- The state of the in-memory server: its table and the fault schedule of
the commands to come. -/
structure Server where
  entries : List Entry
  faults : List (Option GoError)
  deriving DecidableEq, Repr

/-- Consumes the next entry of the fault schedule. -/
def Server.nextFault (s : Server) : Option GoError × Server :=
  match s.faults with
  | [] => (none, s)
  | f :: rest => (f, { s with faults := rest })

/-- The value stored under a key, if any. -/
def Server.lookup (s : Server) (key : GoString) : Option GoString :=
  (s.entries.find? (fun e => e.key = key)).map Entry.value

/-- The command `SET key value` with an expiry. -/
def Server.Set (key value : GoString) (expiration : Duration) (s : Server) :
    Option GoError × Server :=
  match s.nextFault with
  | (some err, s) => (some err, s)
  | (none, s) =>
    (none, { s with entries :=
      { key := key, value := value, expiration := expiration } ::
        s.entries.filter (fun e => e.key ≠ key) })

/-- The command `GET key`: the value, or the error `redis.Nil` when the key
is absent. -/
def Server.Get (key : GoString) (s : Server) : (GoString × Option GoError) × Server :=
  match s.nextFault with
  | (some err, s) => (([], some err), s)
  | (none, s) =>
    match s.lookup key with
    | some value => ((value, none), s)
    | none => (([], some GoError.redisNil), s)

/-- The command `DEL key...`. -/
def Server.Del (keys : List GoString) (s : Server) : Option GoError × Server :=
  match s.nextFault with
  | (some err, s) => (some err, s)
  | (none, s) => (none, { s with entries := s.entries.filter (fun e => e.key ∉ keys) })

/-- A full `SCAN` iteration with `MATCH pattern`: every key of the table that
matches, or a failure that yields no key. -/
def Server.Scan (_cursor : Nat) (pattern : GoString) (_count : Int) (s : Server) :
    ScanIterator × Server :=
  match s.nextFault with
  | (some err, s) => ({ vals := [], err := some err }, s)
  | (none, s) =>
    ({ vals := (s.entries.map Entry.key).filter (globMatch pattern), err := none }, s)

/-- The go-redis client talking to the in-memory server. -/
def memoryClient : Client Server :=
  { Set := Server.Set, Get := Server.Get, Del := Server.Del, Scan := Server.Scan }

end redis

/-! ## Fixtures -/

namespace fixture

/-- The keys `products:0`, ..., `products:(count-1)` of the gateway's test
suite. -/
def generateKeys (count : Nat) : List GoString :=
  (List.range count).map (fun i => str "products:" ++ formatNat i)

/-- A server holding the given keys, each with the value `x`, and no fault
scheduled. -/
def serverWith (keys : List GoString) : redis.Server :=
  { entries := keys.map (fun k => { key := k, value := str "x", expiration := 0 })
    faults := [] }

end fixture

/-! ## Wiring (`app/routes.go`) -/

namespace app

/-- A store gateway acting on the store half of a state made of a store and a
cache. -/
def onStore {σ κ : Type} (r : interfaces.ProductRepository σ) :
    interfaces.ProductRepository (σ × κ) :=
  { Create := fun product w => ((r.Create product w.1).1, ((r.Create product w.1).2, w.2))
    GetByID := fun id w => ((r.GetByID id w.1).1, ((r.GetByID id w.1).2, w.2))
    Fetch := fun filter w => ((r.Fetch filter w.1).1, ((r.Fetch filter w.1).2, w.2)) }

/-- A cache gateway acting on the cache half of a state made of a store and a
cache. -/
def onCache {σ κ : Type} (r : repository.RedisRepository κ) :
    repository.RedisRepository (σ × κ) :=
  { Set := fun key value expiration w =>
      ((r.Set key value expiration w.2).1, (w.1, (r.Set key value expiration w.2).2))
    Get := fun key w => ((r.Get key w.2).1, (w.1, (r.Get key w.2).2))
    Delete := fun keyOrPattern w =>
      ((r.Delete keyOrPattern w.2).1, (w.1, (r.Delete keyOrPattern w.2).2)) }

/-- The orchestrator as `InitRoutes` builds it: a store gateway, and the redis
repository over a go-redis client. -/
def productUsecase {σ κ : Type} (store : interfaces.ProductRepository σ)
    (client : redis.Client κ) : usecase.productUsecase (σ × κ) :=
  usecase.NewProductUsecase (onStore store)
    (onCache (repository.NewRedisRepository client))

end app

namespace fixture

/-- A product with the given identifier and name, every other field zero. -/
def product (id : Int) (name : GoString) : entity.Product :=
  { ID := id, Name := name, Price := none, Description := [], Quantity := none,
    CreatedAt := Time.zero, CreatedBy := [], UpdatedAt := Time.zero, UpdatedBy := [],
    DeletedAt := Time.zero, DeletedBy := [] }

/-- A store gateway over a table of rows: `Create` appends the row with the
next identifier, `GetByID` finds a row or reports `constant.ErrNotFound`, and
`Fetch` returns every row with the count of rows. -/
def tableStore : interfaces.ProductRepository (List entity.Product) :=
  { Create := fun p rows => (none, rows ++ [{ p with ID := rows.length + 1 }])
    GetByID := fun id rows =>
      match rows.find? (fun p => p.ID = id) with
      | some p => ((some p, none), rows)
      | none => ((none, some GoError.ErrNotFound), rows)
    Fetch := fun _ rows => ((rows, rows.length, none), rows) }

/-- A store gateway whose every call fails with the given error. -/
def failingStore (err : GoError) : interfaces.ProductRepository Unit :=
  { Create := fun _ w => (some err, w)
    GetByID := fun _ w => ((none, some err), w)
    Fetch := fun _ w => (([], 0, some err), w) }

/-- A cache gateway whose every call fails with the given error. -/
def failingCache (err : GoError) : repository.RedisRepository Unit :=
  { Set := fun _ _ _ w => (some err, w)
    Get := fun _ w => (([], some err), w)
    Delete := fun _ w => (some err, w) }

/-- A stand-in for `encoding/json` on the payloads of the fixtures: a product
is written as `product#` and its identifier, an envelope as `list#` and its
total; reading accepts `product#1` and `list#1` and rejects everything else. -/
def json : EncodingJSON :=
  { MarshalProduct := fun p =>
      match p with
      | some p => (str "product#" ++ formatInt p.ID, none)
      | none => (str "null", none)
    UnmarshalProduct := fun s =>
      if s = str "product#1" then .ok (product 1 (str "LG TV"))
      else .error (GoError.other (str "invalid character"))
    MarshalFetchResult := fun r => (str "list#" ++ formatInt r.Total, none)
    UnmarshalFetchResult := fun s =>
      if s = str "list#1" then .ok { Products := [product 1 (str "LG TV")], Total := 1 }
      else .error (GoError.other (str "invalid character")) }

/-- The request of the test suites: a product named `LG TV`. -/
def createRequest : request.Product :=
  { Name := str "LG TV", Price := some 5000000, Description := str "Desc",
    Quantity := some 10, CreatedBy := str "arya" }

/-- The filter of the test suites: search `LG`, newest first, page 1 of 10. -/
def filter : request.ProductFilter :=
  { Search := str "LG", Sort_ := str "newest", Page := 1, Limit := 10 }

end fixture

namespace fixture

/-- A state in which the store holds one row, the cache holds the list of
that row under the list key of `fixture.filter`, and the next command sent to
the cache server fails (the connection drops). -/
def staleWorld : List entity.Product × redis.Server :=
  ([product 1 (str "LG TV")],
   { entries := [{ key := usecase.listKey filter, value := str "list#1", expiration := 0 }]
     faults := [some (GoError.other (str "connection refused"))] })

/-- The orchestrator over the table store and the in-memory cache. -/
def service : usecase.productUsecase (List entity.Product × redis.Server) :=
  app.productUsecase tableStore redis.memoryClient

end fixture

namespace fixture

/-- The in-memory client with a scan that breaks: the iterator yields the
first `count` matching keys and then reports `err`. -/
def brokenScanClient (count : Nat) (err : GoError) : redis.Client redis.Server :=
  { redis.memoryClient with
    Scan := fun cursor pattern n s =>
      ({ vals := (redis.Server.Scan cursor pattern n s).1.vals.take count, err := some err },
       (redis.Server.Scan cursor pattern n s).2) }

end fixture

/-! ## GORM and the store gateway (`internal/repository/postgres_repository.go`)

The gateway talks to the database through `*gorm.DB`.  A chain of `Model`,
`Where`, `Order`, `Offset` and `Limit` collects a statement, and a finisher
(`Count`, `Find`, `First`, `Create`) runs it.  The statement is modelled by
what the chain has collected, the database by what the finishers return. -/

namespace gorm

/-- A condition added with `Where`: SQL text with `?` placeholders and the
arguments bound to them. -/
structure Condition where
  query : GoString
  args : List GoString
  deriving DecidableEq, Repr

/-- What a chain has collected when a finisher runs: the table of the model,
the conditions of `Where`, the values given to `Order`, and the numbers given
to `Offset` and `Limit`, if any. -/
structure Statement where
  table : GoString
  conds : List Condition
  orders : List GoString
  offset : Option Int
  limit : Option Int
  deriving DecidableEq, Repr

/-- The chain start `db.Model(&entity.Product{})`: the table is the one
`entity.Product.TableName()` names. -/
def Model (table : GoString) : Statement :=
  { table := table, conds := [], orders := [], offset := none, limit := none }

/-- The chain method `Where(query, args...)`. -/
def Statement.Where (s : Statement) (query : GoString) (args : List GoString) : Statement :=
  { s with conds := s.conds ++ [{ query := query, args := args }] }

/-- The chain method `Order(value)`. -/
def Statement.Order (s : Statement) (value : GoString) : Statement :=
  { s with orders := s.orders ++ [value] }

/-- The chain method `Offset(offset)`. -/
def Statement.Offset (s : Statement) (offset : Int) : Statement :=
  { s with offset := some offset }

/-- The chain method `Limit(limit)`. -/
def Statement.Limit (s : Statement) (limit : Int) : Statement :=
  { s with limit := some limit }

/-- The finishers of `*gorm.DB` the gateway calls, over a database state `σ`,
each with the value it leaves in its destination and the `Error` of the
result.  `First id` stands for `First(&product, id)`, `Count s` for
`s.Count(&total)` and `Find s` for `s.Find(&products)`. -/
structure DB (σ : Type) where
  Create : entity.Product → σ → Option GoError × σ
  First : Int → σ → (entity.Product × Option GoError) × σ
  Count : Statement → σ → (Int × Option GoError) × σ
  Find : Statement → σ → (List entity.Product × Option GoError) × σ

end gorm

namespace entity

/-- The method `Product.TableName`. -/
def Product.TableName : GoString := str "products"

end entity

namespace repository

/-- The struct `productRepository`. -/
structure productRepository (σ : Type) where
  db : gorm.DB σ

/-- The method `productRepository.Create`. -/
def productRepository.Create {σ : Type} (r : productRepository σ) (product : entity.Product)
    (w : σ) : Option GoError × σ :=
  r.db.Create product w

/-- The method `productRepository.GetByID`. -/
def productRepository.GetByID {σ : Type} (r : productRepository σ) (id : Int) (w : σ) :
    (Option entity.Product × Option GoError) × σ :=
  match r.db.First id w with
  | ((_, some err), w) =>
    if err = GoError.gormErrRecordNotFound then
      ((none, some GoError.ErrNotFound), w)
    else
      ((none, some err), w)
  | ((product, none), w) => ((some product, none), w)

/-- The argument of `query.Order` that the `switch filter.Sort` of `Fetch`
selects. -/
def orderClause (sort : GoString) : GoString :=
  if sort = str "newest" then str "created_at DESC"
  else if sort = str "cheapest" then str "price ASC"
  else if sort = str "expensive" then str "price DESC"
  else if sort = str "name asc" then str "name ASC"
  else if sort = str "name desc" then str "name DESC"
  else str "created_at DESC"

/-- The query `Fetch` counts with (lines 44 to 49): the model, and the search
condition when the search string is not empty. -/
def countQuery (filter : request.ProductFilter) : gorm.Statement :=
  let query := gorm.Model entity.Product.TableName
  if filter.Search ≠ [] then
    let search := str "%" ++ filter.Search ++ str "%"
    query.Where (str "name ILIKE ? OR description ILIKE ?") [search, search]
  else query

/-- The query `Fetch` reads the rows with (lines 55 to 71): the counted query
with the order, the offset and the limit added.  The offset is computed in Go
`int` arithmetic, which wraps. -/
def rowsQuery (filter : request.ProductFilter) : gorm.Statement :=
  let query := (countQuery filter).Order (orderClause filter.Sort_)
  let offset := wrapInt64 (wrapInt64 (filter.Page - 1) * filter.Limit)
  (query.Offset offset).Limit filter.Limit

/-- The method `productRepository.Fetch`. -/
def productRepository.Fetch {σ : Type} (r : productRepository σ)
    (filter : request.ProductFilter) (w : σ) :
    (List entity.Product × Int × Option GoError) × σ :=
  match r.db.Count (countQuery filter) w with
  | ((_, some err), w) => (([], 0, some err), w)
  | ((total, none), w) =>
    match r.db.Find (rowsQuery filter) w with
    | ((_, some err), w) => (([], 0, some err), w)
    | ((products, none), w) => ((products, total, none), w)

/-- The function `NewProductRepository`: the struct seen through the
interface `ProductRepository`. -/
def NewProductRepository {σ : Type} (db : gorm.DB σ) : interfaces.ProductRepository σ :=
  let r : productRepository σ := { db := db }
  { Create := r.Create, GetByID := r.GetByID, Fetch := r.Fetch }

end repository

namespace trace

/-- A finisher run on the database. -/
inductive Query where
  | Create (product : entity.Product)
  | First (id : Int)
  | Count (statement : gorm.Statement)
  | Find (statement : gorm.Statement)
  deriving DecidableEq, Repr

/-- A database handle that logs the finishers run on it. -/
def recordDB {σ : Type} (db : gorm.DB σ) : gorm.DB (σ × List Query) :=
  { Create := fun product w =>
      ((db.Create product w.1).1, ((db.Create product w.1).2, w.2 ++ [Query.Create product]))
    First := fun id w =>
      ((db.First id w.1).1, ((db.First id w.1).2, w.2 ++ [Query.First id]))
    Count := fun statement w =>
      ((db.Count statement w.1).1, ((db.Count statement w.1).2, w.2 ++ [Query.Count statement]))
    Find := fun statement w =>
      ((db.Find statement w.1).1, ((db.Find statement w.1).2, w.2 ++ [Query.Find statement])) }

end trace

namespace fixture

/-- A database over a table of rows that ignores conditions and ordering:
`Count` gives the number of rows, `Find` the rows from the offset on, at most
as many as the limit, `First` the row with the id or
`gorm.ErrRecordNotFound`. -/
def tableDB : gorm.DB (List entity.Product) :=
  { Create := fun p rows => (none, rows ++ [{ p with ID := rows.length + 1 }])
    First := fun id rows =>
      match rows.find? (fun p => p.ID = id) with
      | some p => ((p, none), rows)
      | none => ((product 0 [], some GoError.gormErrRecordNotFound), rows)
    Count := fun _ rows => ((rows.length, none), rows)
    Find := fun s rows =>
      (((rows.drop (s.offset.getD 0).toNat).take
          (match s.limit with | some n => n.toNat | none => rows.length), none), rows) }

/-- A database whose `Count` fails with the given error when `failCount` is
set, and whose `Find` fails with it otherwise; the other finishers are those
of `tableDB`. -/
def brokenDB (failCount : Bool) (err : GoError) : gorm.DB (List entity.Product) :=
  { tableDB with
    Count := fun s rows => if failCount then ((0, some err), rows) else tableDB.Count s rows
    Find := fun _ rows => (([], some err), rows) }

end fixture

namespace fixture

/-- A filter whose page and limit are valid Go `int`s, both at least 1, and
whose offset `(page - 1) * limit` is `2 ^ 63`, one more than the largest
`int`. -/
def farPageFilter : request.ProductFilter :=
  { Search := [], Sort_ := [], Page := 4611686018427387905, Limit := 2 }

end fixture

/-! ## Parsing integers (`strconv`)

`strconv.ParseInt` and `strconv.Atoi` are library functions; they are
modelled from the library's source, for base 10 and 64 bits, which is how the
handlers call them.  The result is the value and the `Err` of the `*NumError`,
if any. -/

namespace strconv

/-- The errors a `*strconv.NumError` wraps: `ErrSyntax` and `ErrRange`. -/
inductive NumError where
  | ErrSyntax
  | ErrRange
  deriving DecidableEq, Repr

/-- The largest `uint64`. -/
def maxUint64 : Nat := 18446744073709551615

/-- The loop of `ParseUint` over the bytes of the string, for base 10: `n` is
the number read so far.  A byte that is no decimal digit is a syntax error
with value 0; when the number leaves the range of `uint64` the loop stops with
the largest `uint64` and a range error, without looking at the bytes that
follow. -/
def parseUintLoop : GoString → Nat → Nat × Option NumError
  | [], n => (n, none)
  | c :: rest, n =>
    if 48 ≤ c ∧ c ≤ 57 then
      let d := c.toNat - 48
      if n ≥ maxUint64 / 10 + 1 then (maxUint64, some NumError.ErrRange)
      else
        let n1 := n * 10 + d
        if n1 > maxUint64 then (maxUint64, some NumError.ErrRange)
        else parseUintLoop rest n1
    else (0, some NumError.ErrSyntax)

/-- The function `strconv.ParseUint(s, 10, 64)`. -/
def ParseUint (s : GoString) : Nat × Option NumError :=
  if s = [] then (0, some NumError.ErrSyntax) else parseUintLoop s 0

/-- The function `strconv.ParseInt(s, 10, 64)`: an optional sign, then
`ParseUint`.  A syntax error gives 0; a number out of range gives the nearest
`int64` and a range error. -/
def ParseInt (s : GoString) : Int × Option NumError :=
  match s with
  | [] => (0, some NumError.ErrSyntax)
  | c :: rest =>
    let neg : Bool := c = 45
    let s := if c = 43 ∨ c = 45 then rest else c :: rest
    match ParseUint s with
    | (_, some NumError.ErrSyntax) => (0, some NumError.ErrSyntax)
    | (un, _) =>
      let cutoff : Nat := 9223372036854775808
      if neg = false ∧ un ≥ cutoff then ((cutoff : Int) - 1, some NumError.ErrRange)
      else if neg = true ∧ un > cutoff then (-(cutoff : Int), some NumError.ErrRange)
      else
        let n := wrapInt64 un
        (if neg then wrapInt64 (-n) else n, none)

/-- The loop of the fast path of `Atoi`: `ch -= '0'` is byte arithmetic, and a
result above 9 is a syntax error (`none`). -/
def atoiLoop : GoString → Int → Option Int
  | [], n => some n
  | ch :: rest, n =>
    let ch := (ch.toNat + 256 - 48) % 256
    if ch > 9 then none else atoiLoop rest (n * 10 + ch)

/-- The function `strconv.Atoi` on a 64-bit platform: a fast path for strings
of 1 to 18 bytes, and `ParseInt(s, 10, 0)` for the others. -/
def Atoi (s : GoString) : Int × Option NumError :=
  if 0 < s.length ∧ s.length < 19 then
    match s with
    | [] => (0, some NumError.ErrSyntax)
    | c :: rest =>
      if (c = 45 ∨ c = 43) ∧ rest.length < 1 then (0, some NumError.ErrSyntax)
      else
        match atoiLoop (if c = 45 ∨ c = 43 then rest else c :: rest) 0 with
        | none => (0, some NumError.ErrSyntax)
        | some n => (if c = 45 then -n else n, none)
  else ParseInt s

end strconv

/-! ## Responses (`shared/response/json.go`, `shared/utils/validator.go`) -/

namespace validator

/-- What `utils.ParseValidationErrors` reads from a `validator.FieldError`. -/
structure FieldError where
  Field : GoString
  Tag : GoString
  Param : GoString
  deriving DecidableEq, Repr

/-- The type `validator.ValidationErrors`. -/
abbrev ValidationErrors := List FieldError

end validator

namespace utils

/-- The struct `utils.ValidationError`. -/
structure ValidationError where
  Parameter : GoString
  deriving DecidableEq, Repr

/-- The function `utils.ParseValidationErrors`; `ve` is the outcome of the
type assertion `err.(validator.ValidationErrors)`. -/
def ParseValidationErrors (ve : Option validator.ValidationErrors) : List ValidationError :=
  match ve with
  | some ve =>
    ve.map (fun fe =>
      let field := fe.Field
      let tag := fe.Tag
      let message :=
        if tag = str "required" then field ++ str " is required"
        else if tag = str "min" then field ++ str " must be at least " ++ fe.Param
        else if tag = str "max" then field ++ str " must be at most " ++ fe.Param
        else if tag = str "email" then field ++ str " must be a valid email"
        else field ++ str " failed validation on tag '" ++ tag ++ str "'"
      { Parameter := message })
  | none => []

end utils

namespace response

/-- The values the handlers put into the field `Data` (of type `any`): the
create request, the product of a lookup (a pointer), or the map with the keys
`data` and `metadata` of a list. -/
inductive Payload where
  | request (req : request.Product)
  | product (product : Option entity.Product)
  | list (data : List entity.Product) (metadata : StdPagination)
  deriving DecidableEq, Repr

/-- The values `ErrorResponse` puts into the field `Error` (of type `any`): the
text of an error, or a list of validation errors. -/
inductive ErrorValue where
  | text (message : GoString)
  | validation (errors : List utils.ValidationError)
  deriving DecidableEq, Repr

/-- The struct `response.ApiResponse`.  Every field but `HTTPCode` is written
to the JSON body. -/
structure ApiResponse where
  Message : GoString
  Data : Option Payload
  Error : Option ErrorValue
  Code : GoString
  Metadata : Option Payload
  HTTPCode : Option Int
  deriving DecidableEq, Repr

/-- The constant `response.InsertSuccess`. -/
def InsertSuccess : GoString := str "data successfully inserted"

/-- The constant `response.GetSuccess`. -/
def GetSuccess : GoString := str "data successfully retrieved"

/-- The constant `response.BadRequest`. -/
def BadRequest : GoString := str "your data validation is incorrect please check again"

/-- The constant `response.NotFound`. -/
def NotFound : GoString := str "data not found"

/-- The constant `response.MethodNotAllowed`. -/
def MethodNotAllowed : GoString := str "method not allowed"

/-- The constant `response.RequestTimeout`. -/
def RequestTimeout : GoString :=
  str "the request has exceeded the time limit please try again"

/-- The constant `response.TooManyRequests`. -/
def TooManyRequests : GoString := str "too many requests please try again in a moment"

/-- The constant `response.InternalError`. -/
def InternalError : GoString := str "internal server error"

/-- The struct `response.StdResponse`.  Its logger is not modelled;
`asValidationErrors` is the type assertion `err.(validator.ValidationErrors)`
that `utils.ParseValidationErrors` applies to an error. -/
structure StdResponse where
  asValidationErrors : GoError → Option validator.ValidationErrors

/-- The method `StdResponse.SuccessResponse`. -/
def StdResponse.SuccessResponse (_s : StdResponse) (message : GoString) (data : Payload)
    (code : GoString) : ApiResponse :=
  if message = InsertSuccess then
    { Message := message, Data := some data, Error := none, Code := code, Metadata := none,
      HTTPCode := some 201 }
  else
    { Message := message, Data := some data, Error := none, Code := code, Metadata := none,
      HTTPCode := some 200 }

/-- The method `StdResponse.ErrorResponse`, for a non-nil error (every call
site passes one). -/
def StdResponse.ErrorResponse (s : StdResponse) (message : GoString) (err : GoError)
    (code : GoString) : ApiResponse :=
  if message = BadRequest then
    let validationErrors := utils.ParseValidationErrors (s.asValidationErrors err)
    let formattedError :=
      if validationErrors.length > 0 then ErrorValue.validation validationErrors
      else ErrorValue.validation [{ Parameter := err.Error }]
    { Message := message, Data := none, Error := some formattedError, Code := code,
      Metadata := none, HTTPCode := some 400 }
  else if message = NotFound then
    { Message := message, Data := none, Error := some (ErrorValue.text err.Error), Code := code,
      Metadata := none, HTTPCode := some 404 }
  else if message = MethodNotAllowed then
    { Message := message, Data := none, Error := some (ErrorValue.text err.Error), Code := code,
      Metadata := none, HTTPCode := some 405 }
  else if message = RequestTimeout then
    { Message := message, Data := none, Error := some (ErrorValue.text err.Error), Code := code,
      Metadata := none, HTTPCode := some 408 }
  else if message = TooManyRequests then
    { Message := message, Data := none, Error := some (ErrorValue.text err.Error), Code := code,
      Metadata := none, HTTPCode := some 429 }
  else
    { Message := message, Data := none, Error := some (ErrorValue.text err.Error), Code := code,
      Metadata := none, HTTPCode := some 500 }

end response

namespace echo

/-- What a handler reads from its `echo.Context`: the outcome of `Bind` (the
request as bound, and the error), the validator behind `Validate`, the query
parameters and the path parameters (an absent parameter is the empty
string). -/
structure Context where
  Bind : request.Product × Option GoError
  Validate : request.Product → Option GoError
  QueryParam : GoString → GoString
  Param : GoString → GoString

/-- What `Context.JSON(code, i)` sends: the status code and the value whose
JSON encoding is the body. -/
structure Reply where
  code : Int
  body : response.ApiResponse
  deriving DecidableEq, Repr

end echo

namespace response

/-- The method `StdResponse.StandardResponse`: the HTTP code is taken out of
the response (`setEmptyHTTPCode`) and the rest is sent as the body.  The log
entry it writes is not modelled.  Every response built by `SuccessResponse` or
`ErrorResponse` holds a code. -/
def StdResponse.StandardResponse (_s : StdResponse) (response : ApiResponse) : echo.Reply :=
  { code := response.HTTPCode.getD 0, body := { response with HTTPCode := none } }

end response

/-! ## The handlers (`internal/delivery/http/product_handler.go`) -/

namespace interfaces

/-- The interface `interfaces.ProductUsecase`, over a state `ω`. -/
structure ProductUsecase (ω : Type) where
  CreateProduct : request.Product → ω → Option GoError × ω
  GetProductByID : Int → ω → (Option entity.Product × Option GoError) × ω
  ListProducts : request.ProductFilter → ω →
    (List entity.Product × response.StdPagination × Option GoError) × ω

end interfaces

namespace usecase

/-- The orchestrator seen through the interface `interfaces.ProductUsecase`,
as `NewProductUsecase` returns it; `json` is the codec and `createdAt`,
`updatedAt` are the readings of the clock of a `CreateProduct`. -/
def productUsecase.asInterface {ω : Type} (u : productUsecase ω) (json : EncodingJSON)
    (createdAt updatedAt : Time) : interfaces.ProductUsecase ω :=
  { CreateProduct := u.CreateProduct createdAt updatedAt
    GetProductByID := u.GetProductByID json
    ListProducts := u.ListProducts json }

end usecase

namespace http

/-- The struct `ProductHandler`. -/
structure ProductHandler (ω : Type) where
  usecase : interfaces.ProductUsecase ω
  response : response.StdResponse

/-- The function `NewHandler`. -/
def NewHandler {ω : Type} (productUsecase : interfaces.ProductUsecase ω)
    (standardResponse : response.StdResponse) : ProductHandler ω :=
  { usecase := productUsecase, response := standardResponse }

/-- The method `ProductHandler.CreateProduct`. -/
def ProductHandler.CreateProduct {ω : Type} (h : ProductHandler ω) (c : echo.Context) (w : ω) :
    echo.Reply × ω :=
  match c.Bind with
  | (_, some err) =>
    (h.response.StandardResponse
      (h.response.ErrorResponse response.BadRequest err (str "PRD-ERA-410")), w)
  | (req, none) =>
    match c.Validate req with
    | some err =>
      (h.response.StandardResponse
        (h.response.ErrorResponse response.BadRequest err (str "PRD-ERA-400")), w)
    | none =>
      match h.usecase.CreateProduct req w with
      | (some err, w) =>
        (h.response.StandardResponse
          (h.response.ErrorResponse response.InternalError err (str "PRD-ERA-500")), w)
      | (none, w) =>
        (h.response.StandardResponse
          (h.response.SuccessResponse response.InsertSuccess (response.Payload.request req)
            (str "PRD-ERA-201")), w)

/-- The filter `ListProducts` builds from the query parameters (lines 69 to
86): the errors of `Atoi` are dropped, and a page or limit that is not
positive is replaced by 1 or 10. -/
def listFilter (c : echo.Context) : request.ProductFilter :=
  let search := c.QueryParam (str "search")
  let sort := c.QueryParam (str "sort")
  let (page, _) := strconv.Atoi (c.QueryParam (str "page"))
  let (limit, _) := strconv.Atoi (c.QueryParam (str "limit"))
  let filter : request.ProductFilter :=
    { Search := search, Sort_ := sort, Page := page, Limit := limit }
  let filter := if filter.Page ≤ 0 then { filter with Page := 1 } else filter
  let filter := if filter.Limit ≤ 0 then { filter with Limit := 10 } else filter
  filter

/-- The method `ProductHandler.ListProducts`. -/
def ProductHandler.ListProducts {ω : Type} (h : ProductHandler ω) (c : echo.Context) (w : ω) :
    echo.Reply × ω :=
  let filter := listFilter c
  match h.usecase.ListProducts filter w with
  | ((_, _, some err), w) =>
    (h.response.StandardResponse
      (h.response.ErrorResponse response.InternalError err (str "PRD-ERA-500")), w)
  | ((products, metadata, none), w) =>
    (h.response.StandardResponse
      (h.response.SuccessResponse response.GetSuccess (response.Payload.list products metadata)
        (str "PRD-ERA-200")), w)

/-- The method `ProductHandler.GetProductByID`. -/
def ProductHandler.GetProductByID {ω : Type} (h : ProductHandler ω) (c : echo.Context) (w : ω) :
    echo.Reply × ω :=
  let (id, _) := strconv.ParseInt (c.Param (str "id"))
  match h.usecase.GetProductByID id w with
  | ((_, some err), w) =>
    if err = GoError.ErrNotFound then
      (h.response.StandardResponse
        (h.response.ErrorResponse response.NotFound err (str "PRD-ERA-404")), w)
    else
      (h.response.StandardResponse
        (h.response.ErrorResponse response.InternalError err (str "PRD-ERA-500")), w)
  | ((product, none), w) =>
    (h.response.StandardResponse
      (h.response.SuccessResponse response.GetSuccess (response.Payload.product product)
        (str "PRD-ERA-200")), w)

end http

namespace trace

/-- A call made by a handler through the interface `ProductUsecase`. -/
inductive UsecaseCall where
  | CreateProduct (req : request.Product)
  | GetProductByID (id : Int)
  | ListProducts (filter : request.ProductFilter)
  deriving DecidableEq, Repr

/-- An orchestrator that logs the calls it receives. -/
def recordUsecase {ω : Type} (u : interfaces.ProductUsecase ω) :
    interfaces.ProductUsecase (ω × List UsecaseCall) :=
  { CreateProduct := fun req w =>
      ((u.CreateProduct req w.1).1,
        ((u.CreateProduct req w.1).2, w.2 ++ [UsecaseCall.CreateProduct req]))
    GetProductByID := fun id w =>
      ((u.GetProductByID id w.1).1,
        ((u.GetProductByID id w.1).2, w.2 ++ [UsecaseCall.GetProductByID id]))
    ListProducts := fun filter w =>
      ((u.ListProducts filter w.1).1,
        ((u.ListProducts filter w.1).2, w.2 ++ [UsecaseCall.ListProducts filter])) }

end trace

namespace fixture

/-- A response builder whose errors are never validation errors. -/
def stdResponse : response.StdResponse := { asValidationErrors := fun _ => none }

/-- A request context: the body binds to the request of the test suites and
passes validation, and the query and path parameters are those given as
lists of names and values. -/
def context (queryParams params : List (GoString × GoString)) : echo.Context :=
  { Bind := (createRequest, none)
    Validate := fun _ => none
    QueryParam := fun name => ((queryParams.find? (fun kv => kv.1 = name)).map Prod.snd).getD []
    Param := fun name => ((params.find? (fun kv => kv.1 = name)).map Prod.snd).getD [] }

/-- An orchestrator that finds no product, builds nothing and lists
nothing. -/
def emptyUsecase : interfaces.ProductUsecase Unit :=
  { CreateProduct := fun _ w => (none, w)
    GetProductByID := fun _ w => ((none, some GoError.ErrNotFound), w)
    ListProducts := fun filter w =>
      (([], response.StandardPagination filter.Page filter.Limit 0, none), w) }

end fixture

namespace fixture

/-- The orchestrator over a store whose every call fails with the given error
and the in-memory cache, seen through its interface. -/
def failingService (err : GoError) : interfaces.ProductUsecase (Unit × redis.Server) :=
  (app.productUsecase (failingStore err) redis.memoryClient).asInterface json Time.zero Time.zero

end fixture

namespace fixture

end fixture

/-! ## The search condition in the database (PostgreSQL)

The condition `name ILIKE ? OR description ILIKE ?` is evaluated by the
database, not by the program.  To say which rows a search selects, the
database is modelled after the documented behaviour of PostgreSQL and of the
clauses GORM builds: in a `LIKE` pattern `%` stands for any sequence of
characters, `_` for any one character, and a backslash makes the next
character literal; `ILIKE` compares without regard to case.  Strings are
compared as bytes and case folding is that of ASCII letters. -/

namespace postgres

/-- The lower-case form of an ASCII letter; other bytes are left as they
are. -/
def lower (c : UInt8) : UInt8 := if 65 ≤ c ∧ c ≤ 90 then c + 32 else c

/-- One element of a `LIKE` pattern. -/
inductive LikeTok where
  /-- The wildcard `%`: any sequence of bytes. -/
  | anySeq
  /-- The wildcard `_`: any one byte. -/
  | anyOne
  /-- A literal byte. -/
  | lit (c : UInt8)
  deriving DecidableEq, Repr

/-- Parses a `LIKE` pattern; a backslash makes the next byte literal. -/
def parseLike : GoString → List LikeTok
  | [] => []
  | 37 :: p => LikeTok.anySeq :: parseLike p
  | 95 :: p => LikeTok.anyOne :: parseLike p
  | 92 :: c :: p => LikeTok.lit c :: parseLike p
  | c :: p => LikeTok.lit c :: parseLike p

/-- Whether a string matches a parsed `LIKE` pattern. -/
def matchLike : List LikeTok → GoString → Bool
  | [] => fun s => s.isEmpty
  | LikeTok.anySeq :: ts => fun s => redis.anySuffix (matchLike ts) s
  | LikeTok.anyOne :: ts => fun s =>
    match s with
    | [] => false
    | _ :: s => matchLike ts s
  | LikeTok.lit x :: ts => fun s =>
    match s with
    | [] => false
    | c :: s => x = c && matchLike ts s

/-- The operator `text ILIKE pattern`. -/
def ilike (text pattern : GoString) : Bool :=
  matchLike (parseLike (pattern.map lower)) (text.map lower)

/-- Whether the database can evaluate a condition: the one condition the
gateway uses, with its two arguments. -/
def condKnown (cond : gorm.Condition) : Bool :=
  cond.query = str "name ILIKE ? OR description ILIKE ?" ∧ cond.args.length = 2

/-- Whether a row satisfies the condition `name ILIKE ? OR description ILIKE ?`
with the given arguments. -/
def condHolds (p : entity.Product) (cond : gorm.Condition) : Bool :=
  match cond.args with
  | [a, b] => ilike p.Name a || ilike p.Description b
  | _ => false

/-- The rows of a table that satisfy every condition of a statement. -/
def selectRows (s : gorm.Statement) (rows : List entity.Product) : List entity.Product :=
  rows.filter (fun p => s.conds.all (condHolds p))

/-- The order of two prices: a missing price comes last. -/
def priceLE : Option Int → Option Int → Bool
  | some a, some b => a ≤ b
  | _, none => true
  | none, some _ => false

/-- Whether row `a` may come before row `b` under an `ORDER BY` clause. -/
def rowLE (clause : GoString) (a b : entity.Product) : Bool :=
  if clause = str "created_at DESC" then b.CreatedAt.nanos ≤ a.CreatedAt.nanos
  else if clause = str "price ASC" then priceLE a.Price b.Price
  else if clause = str "price DESC" then priceLE b.Price a.Price
  else if clause = str "name ASC" then url.stringLE a.Name b.Name
  else if clause = str "name DESC" then url.stringLE b.Name a.Name
  else true

/-- Inserts a row into rows sorted under a clause. -/
def insertRow (clause : GoString) (p : entity.Product) : List entity.Product → List entity.Product
  | [] => [p]
  | q :: rest => if rowLE clause p q then p :: q :: rest else q :: insertRow clause p rest

/-- The rows sorted under a clause. -/
def sortRows (clause : GoString) (rows : List entity.Product) : List entity.Product :=
  rows.foldr (insertRow clause) []

/-- The rows sorted under the `ORDER BY` clauses of a statement, the first
clause being the most significant. -/
def orderRows (orders : List GoString) (rows : List entity.Product) : List entity.Product :=
  orders.foldr sortRows rows

/-- The part of the rows a statement's `OFFSET` and `LIMIT` select.  GORM
writes `OFFSET` only for a positive offset and `LIMIT` only for a limit that
is not negative. -/
def page (s : gorm.Statement) (rows : List entity.Product) : List entity.Product :=
  let rest :=
    match s.offset with
    | some n => if n > 0 then rows.drop n.toNat else rows
    | none => rows
  match s.limit with
  | some n => if n ≥ 0 then rest.take n.toNat else rest
  | none => rest

/-- A database holding the table `products` as a list of rows. -/
def database : gorm.DB (List entity.Product) :=
  { Create := fun p rows => (none, rows ++ [{ p with ID := rows.length + 1 }])
    First := fun id rows =>
      match rows.find? (fun p => p.ID = id) with
      | some p => ((p, none), rows)
      | none => ((fixture.product 0 [], some GoError.gormErrRecordNotFound), rows)
    Count := fun s rows =>
      if s.conds.all condKnown then (((selectRows s rows).length, none), rows)
      else ((0, some (GoError.other (str "syntax error"))), rows)
    Find := fun s rows =>
      if s.conds.all condKnown then
        ((page s (orderRows s.orders (selectRows s rows)), none), rows)
      else (([], some (GoError.other (str "syntax error"))), rows) }

end postgres

namespace fixture

/-- A product with the given identifier, name and description. -/
def described (id : Int) (name description : GoString) : entity.Product :=
  { product id name with Description := description }

/-- A table of two rows; only the second has an underscore or a percent sign
in its name or description. -/
def catalogue : List entity.Product :=
  [described 1 (str "LG TV") (str "OLED 55 inch"),
   described 2 (str "Samsung A_52") (str "100% original")]

end fixture

namespace fixture

end fixture

/-! ## Failures of `encoding/json` that do not depend on the text

The text `json.Marshal` writes is not modelled: the orchestrator hands it to
the cache and reads it back with `json.Unmarshal`, and looks at nothing else.
Two outcomes of the library do not depend on that text and are modelled:
`Marshal` fails, and returns no bytes, when `Time.MarshalJSON` rejects one of
the times of the value, which it does for a year outside 0..9999; and
`Unmarshal` fails on the empty input (`unexpected end of JSON input`). -/

namespace encodingjson

end encodingjson

namespace fixture

end fixture

/-! # Theorems -/

namespace repository

theorem batchesOf_flatten (vals keys : List GoString) :
    (batchesOf vals keys).1.flatten ++ (batchesOf vals keys).2 = keys ++ vals := by
  induction vals generalizing keys with
  | nil => simp [batchesOf]
  | cons v rest ih =>
    unfold batchesOf
    split
    · have h := ih []
      simp only [List.flatten_cons, List.append_assoc, h]
      simp
    · rw [ih]; simp

theorem batchesOf_full (vals keys : List GoString) (hk : keys.length < batchSize) :
    ∀ b ∈ (batchesOf vals keys).1, b.length = batchSize := by
  induction vals generalizing keys with
  | nil => simp [batchesOf]
  | cons v rest ih =>
    unfold batchesOf
    split
    · rename_i hge
      intro b hb
      simp only [List.mem_cons] at hb
      rcases hb with rfl | hb
      · simp only [List.length_append, List.length_singleton] at hge ⊢
        omega
      · exact ih [] (by simp [batchSize]) b hb
    · rename_i hlt
      exact ih _ (by omega)

theorem batchesOf_rest (vals keys : List GoString) (hk : keys.length < batchSize) :
    (batchesOf vals keys).2.length < batchSize := by
  induction vals generalizing keys with
  | nil => simpa [batchesOf] using hk
  | cons v rest ih =>
    unfold batchesOf
    split
    · exact ih [] (by simp [batchSize])
    · exact ih _ (by omega)

end repository

namespace trace

theorem delBatches_append (a b : List Cmd) :
    delBatches (a ++ b) = delBatches a ++ delBatches b := by
  induction a with
  | nil => rfl
  | cons x xs ih => cases x <;> simp [delBatches, ih]

theorem recordClient_Del {κ : Type} (c : redis.Client κ) (keys : List GoString) (w : κ)
    (log : List Cmd) :
    (recordClient c).Del keys (w, log)
      = ((c.Del keys w).1, ((c.Del keys w).2, log ++ [Cmd.Del keys (c.Del keys w).1])) := rfl

theorem recordClient_Scan {κ : Type} (c : redis.Client κ) (cursor : Nat) (pattern : GoString)
    (count : Int) (w : κ) (log : List Cmd) :
    (recordClient c).Scan cursor pattern count (w, log)
      = ((c.Scan cursor pattern count w).1,
          ((c.Scan cursor pattern count w).2,
            log ++ [Cmd.Scan cursor pattern count (c.Scan cursor pattern count w).1])) := rfl

end trace

namespace repository

open trace in
/-- The scan loop over a recording client only appends to the log, and when
none of the commands it appends is a failed `Del`, it runs to its end, leaves
over the batch `batchesOf` computes and has sent exactly the batches
`batchesOf` computes. -/
theorem scanLoop_record {κ : Type} (c : redis.Client κ) (vals keys : List GoString)
    (w : κ) (log : List Cmd) :
    ∃ new, (redisRepository.scanLoop ⟨recordClient c⟩ vals keys (w, log)).2.2 = log ++ new ∧
      ((∀ cmd ∈ new, Cmd.isFailedDel cmd = false) →
        (redisRepository.scanLoop ⟨recordClient c⟩ vals keys (w, log)).1
            = .ok (batchesOf vals keys).2 ∧
          delBatches new = (batchesOf vals keys).1) := by
  induction vals generalizing keys w log with
  | nil => exact ⟨[], by simp [redisRepository.scanLoop, batchesOf, delBatches]⟩
  | cons v rest ih =>
    unfold redisRepository.scanLoop batchesOf
    by_cases hge : (keys ++ [v]).length ≥ batchSize
    · simp only [hge, if_true, recordClient_Del]
      rcases hdel : c.Del (keys ++ [v]) w with ⟨res, s⟩
      cases res with
      | some err =>
        refine ⟨[Cmd.Del (keys ++ [v]) (some err)], ?_, ?_⟩
        · simp
        · intro h
          have := h _ (List.mem_singleton.mpr rfl)
          simp [Cmd.isFailedDel] at this
      | none =>
        obtain ⟨new, hlog, hok⟩ := ih [] s (log ++ [Cmd.Del (keys ++ [v]) none])
        refine ⟨Cmd.Del (keys ++ [v]) none :: new, ?_, ?_⟩
        · simp only [hlog]; simp
        · intro h
          have h2 := hok (fun cmd hc => h cmd (List.mem_cons_of_mem _ hc))
          simp only [h2.1, h2.2, delBatches]
          simp
    · simp only [hge, if_false]
      exact ih (keys ++ [v]) w log

end repository

namespace repository

theorem length_flatten_of_full {α : Type} (bs : List (List α)) (n : Nat)
    (hfull : ∀ b ∈ bs, b.length = n) : bs.flatten.length = n * bs.length := by
  induction bs with
  | nil => simp
  | cons b bs ih =>
    have hb := hfull b (List.mem_cons_self _ _)
    have := ih (fun x hx => hfull x (List.mem_cons_of_mem _ hx))
    simp only [List.flatten_cons, List.length_append, List.length_cons, hb, this]
    rw [Nat.mul_succ]; omega

/-- Shape of a batch sequence made of full batches followed by the non-empty
remainder. -/
theorem batches_shape {α : Type} (bs : List (List α)) (rem vals : List α)
    (hfull : ∀ b ∈ bs, b.length = 100) (hrem : rem.length < 100)
    (hflat : bs.flatten ++ rem = vals) :
    (bs ++ (if rem.length > 0 then [rem] else [])).length = (vals.length + 99) / 100 ∧
    (bs ++ (if rem.length > 0 then [rem] else [])).flatten = vals ∧
    (∀ b ∈ (bs ++ (if rem.length > 0 then [rem] else [])).dropLast, b.length = 100) ∧
    (∀ b ∈ (bs ++ (if rem.length > 0 then [rem] else [])).getLast?,
      1 ≤ b.length ∧ b.length ≤ 100) := by
  have hlen : vals.length = 100 * bs.length + rem.length := by
    rw [← hflat, List.length_append, length_flatten_of_full bs 100 hfull]
  by_cases hr : rem.length > 0
  · simp only [hr, if_true]
    refine ⟨?_, ?_, ?_, ?_⟩
    · simp only [List.length_append, List.length_singleton]; omega
    · simp [hflat]
    · intro b hb
      rw [List.dropLast_concat] at hb
      exact hfull b hb
    · intro b hb
      have hb2 : rem = b := by simpa [List.getLast?_append, Option.or] using hb
      subst hb2
      omega
  · have hr0 : rem = [] := List.length_eq_zero.mp (by omega)
    subst hr0
    simp only [List.length_nil, gt_iff_lt, Nat.lt_irrefl, if_false, List.append_nil] at hlen ⊢
    refine ⟨by omega, by simpa using hflat, ?_, ?_⟩
    · intro b hb
      exact hfull b (List.mem_of_mem_dropLast hb)
    · intro b hb
      have hmem : b ∈ bs := List.mem_of_getLast?_eq_some hb
      have := hfull b hmem
      omega

end repository

namespace repository

open trace in
/-- The bulk delete over a recording client, when the scan completes and no
`Del` fails: no error, and the batches sent are the full batches of
`batchesOf` followed by its remainder when that is not empty. -/
theorem deleteByPattern_record {κ : Type} (c : redis.Client κ) (pattern : GoString) (w : κ)
    (hscan : (c.Scan 0 pattern 0 w).1.err = none)
    (hdel : ∀ cmd ∈ (redisRepository.deleteByPatternInternal ⟨recordClient c⟩ pattern
      (w, [])).2.2, Cmd.isFailedDel cmd = false) :
    (redisRepository.deleteByPatternInternal ⟨recordClient c⟩ pattern (w, [])).1 = none ∧
    delBatches (redisRepository.deleteByPatternInternal ⟨recordClient c⟩ pattern (w, [])).2.2
      = (batchesOf (c.Scan 0 pattern 0 w).1.vals []).1 ++
        (if (batchesOf (c.Scan 0 pattern 0 w).1.vals []).2.length > 0
          then [(batchesOf (c.Scan 0 pattern 0 w).1.vals []).2] else []) := by
  unfold redisRepository.deleteByPatternInternal at hdel ⊢
  simp only [recordClient_Scan] at hdel ⊢
  obtain ⟨new, hlog, hok⟩ := scanLoop_record c (c.Scan 0 pattern 0 w).1.vals []
    (c.Scan 0 pattern 0 w).2 ([] ++ [Cmd.Scan 0 pattern 0 (c.Scan 0 pattern 0 w).1])
  generalize hrun : redisRepository.scanLoop ⟨recordClient c⟩ (c.Scan 0 pattern 0 w).1.vals []
    ((c.Scan 0 pattern 0 w).2, [] ++ [Cmd.Scan 0 pattern 0 (c.Scan 0 pattern 0 w).1]) = run
    at hdel hlog hok ⊢
  obtain ⟨res, s, log⟩ := run
  simp only at hlog hok
  subst hlog
  cases res with
  | error err =>
    simp only [hscan] at hdel
    have := hok (fun cmd hc => hdel cmd (by simp [hc]))
    simp at this
  | ok keys =>
    simp only [hscan] at hdel ⊢
    by_cases hk : keys.length > 0
    · simp only [hk, if_true, recordClient_Del] at hdel ⊢
      have hnew : ∀ cmd ∈ new, Cmd.isFailedDel cmd = false := by
        intro cmd hc
        apply hdel
        rcases hd : c.Del keys s with ⟨r, s2⟩
        cases r <;> simp [hc]
      obtain ⟨h1, h2⟩ := hok hnew
      have hkeys : keys = (batchesOf (c.Scan 0 pattern 0 w).1.vals []).2 := by
        simpa using h1
      rcases hd : c.Del keys s with ⟨r, s2⟩
      rw [hd] at hdel
      cases r with
      | some err =>
        have := hdel (Cmd.Del keys (some err)) (by simp)
        simp [Cmd.isFailedDel] at this
      | none =>
        simp only [← hkeys, hk, if_true]
        simp [delBatches_append, delBatches, h2]
    · simp only [hk, if_false] at hdel ⊢
      obtain ⟨h1, h2⟩ := hok (fun cmd hc => hdel cmd (by simp [hc]))
      have hkeys : keys = (batchesOf (c.Scan 0 pattern 0 w).1.vals []).2 := by
        simpa using h1
      simp only [← hkeys, hk, if_false]
      simp [delBatches_append, delBatches, h2]

end repository

namespace repository

open trace in
/-- C2: when the argument of `Delete` contains `*`, the scan completes without
error and no `Del` command gets an error reply, `Delete` returns no error and the
key batches of its `Del` commands, in order, number `ceil(n/100)` for `n`
scanned keys, concatenate to exactly the scanned key sequence, hold exactly
100 keys each except the last, and the last holds between 1 and 100 keys (so
no `Del` is sent for an empty batch, and none at all when `n = 0`). -/
theorem C2_pattern_delete_batches {κ : Type} (c : redis.Client κ) (pattern : GoString)
    (w : κ) (hstar : containsStar pattern = true)
    (hscan : (c.Scan 0 pattern 0 w).1.err = none)
    (hdel : ∀ cmd ∈ ((NewRedisRepository (recordClient c)).Delete pattern (w, [])).2.2,
      Cmd.isFailedDel cmd = false) :
    ((NewRedisRepository (recordClient c)).Delete pattern (w, [])).1 = none ∧
    (delBatches ((NewRedisRepository (recordClient c)).Delete pattern (w, [])).2.2).length
      = ((c.Scan 0 pattern 0 w).1.vals.length + 99) / 100 ∧
    (delBatches ((NewRedisRepository (recordClient c)).Delete pattern (w, [])).2.2).flatten
      = (c.Scan 0 pattern 0 w).1.vals ∧
    (∀ b ∈ (delBatches
        ((NewRedisRepository (recordClient c)).Delete pattern (w, [])).2.2).dropLast,
      b.length = 100) ∧
    (∀ b ∈ (delBatches
        ((NewRedisRepository (recordClient c)).Delete pattern (w, [])).2.2).getLast?,
      1 ≤ b.length ∧ b.length ≤ 100) := by
  have hD : (NewRedisRepository (recordClient c)).Delete pattern (w, [])
      = redisRepository.deleteByPatternInternal ⟨recordClient c⟩ pattern (w, []) := by
    simp [NewRedisRepository, redisRepository.Delete, hstar]
  rw [hD] at hdel ⊢
  obtain ⟨hres, hbat⟩ := deleteByPattern_record c pattern w hscan hdel
  rw [hbat]
  exact ⟨hres, batches_shape _ _ _ (batchesOf_full _ [] (by simp [batchSize]))
    (batchesOf_rest _ [] (by simp [batchSize])) (by simpa using batchesOf_flatten _ [])⟩

end repository

namespace repository

open trace in
/-- Instance of C2 on the in-memory server holding the 105 keys of the test
suite: two batches, of 100 and 5 keys, concatenating to the 105 keys. -/
theorem C2_pattern_delete_batches_witness :
    (delBatches ((NewRedisRepository (recordClient redis.memoryClient)).Delete
      (str "products:*") (fixture.serverWith (fixture.generateKeys 105), [])).2.2).length = 2 ∧
    (delBatches ((NewRedisRepository (recordClient redis.memoryClient)).Delete
      (str "products:*") (fixture.serverWith (fixture.generateKeys 105), [])).2.2).flatten
      = fixture.generateKeys 105 ∧
    (delBatches ((NewRedisRepository (recordClient redis.memoryClient)).Delete
      (str "products:*") (fixture.serverWith (fixture.generateKeys 105), [])).2.2).map
        List.length = [100, 5] := by
  have h := C2_pattern_delete_batches redis.memoryClient (str "products:*")
    (fixture.serverWith (fixture.generateKeys 105)) (by decide)
    (by set_option maxRecDepth 100000 in decide)
    (by set_option maxRecDepth 100000 in decide)
  exact ⟨h.2.1.trans (by set_option maxRecDepth 100000 in decide),
    h.2.2.1.trans (by set_option maxRecDepth 100000 in decide),
    by set_option maxRecDepth 100000 in decide⟩

end repository

namespace trace

theorem record_Get {ω : Type} (u : usecase.productUsecase ω) (key : GoString) (w : ω)
    (log : List Call) :
    (record u).redisRepo.Get key (w, log)
      = ((u.redisRepo.Get key w).1, ((u.redisRepo.Get key w).2, log ++ [Call.redisGet key])) :=
  rfl

theorem record_Set {ω : Type} (u : usecase.productUsecase ω) (key value : GoString)
    (expiration : Duration) (w : ω) (log : List Call) :
    (record u).redisRepo.Set key value expiration (w, log)
      = ((u.redisRepo.Set key value expiration w).1,
          ((u.redisRepo.Set key value expiration w).2,
            log ++ [Call.redisSet key value expiration])) :=
  rfl

theorem record_Delete {ω : Type} (u : usecase.productUsecase ω) (keyOrPattern : GoString)
    (w : ω) (log : List Call) :
    (record u).redisRepo.Delete keyOrPattern (w, log)
      = ((u.redisRepo.Delete keyOrPattern w).1,
          ((u.redisRepo.Delete keyOrPattern w).2, log ++ [Call.redisDelete keyOrPattern])) :=
  rfl

theorem record_Create {ω : Type} (u : usecase.productUsecase ω) (product : entity.Product)
    (w : ω) (log : List Call) :
    (record u).repo.Create product (w, log)
      = ((u.repo.Create product w).1,
          ((u.repo.Create product w).2, log ++ [Call.repoCreate product])) :=
  rfl

theorem record_GetByID {ω : Type} (u : usecase.productUsecase ω) (id : Int) (w : ω)
    (log : List Call) :
    (record u).repo.GetByID id (w, log)
      = ((u.repo.GetByID id w).1, ((u.repo.GetByID id w).2, log ++ [Call.repoGetByID id])) :=
  rfl

theorem record_Fetch {ω : Type} (u : usecase.productUsecase ω)
    (filter : request.ProductFilter) (w : ω) (log : List Call) :
    (record u).repo.Fetch filter (w, log)
      = ((u.repo.Fetch filter w).1, ((u.repo.Fetch filter w).2, log ++ [Call.repoFetch filter])) :=
  rfl

end trace

namespace usecase

open trace

/-- C4: when the cache `Get` for the detail key of `id` succeeds with a payload
that unmarshals as a product, `GetProductByID` returns that product with no
error, and the only call it makes is that `Get`: no call to the store, no
`Set` and no `Delete`. -/
theorem C4_detail_hit_short_circuits {ω : Type} (u : productUsecase ω) (json : EncodingJSON)
    (id : Int) (w w₁ : ω) (val : GoString) (product : entity.Product)
    (hget : u.redisRepo.Get (detailKey id) w = ((val, none), w₁))
    (hjson : json.UnmarshalProduct val = .ok product) :
    (record u).GetProductByID json id (w, [])
      = ((some product, none), (w₁, [Call.redisGet (detailKey id)])) := by
  simp [productUsecase.GetProductByID, record_Get, hget, hjson]

/-- Instance of C4: the in-memory cache holds `product#1` under the detail key
of id 1, the store is empty, and the product comes back from the cache. -/
theorem C4_detail_hit_short_circuits_witness :
    (record (app.productUsecase fixture.tableStore redis.memoryClient)).GetProductByID
        fixture.json 1
        ((([] : List entity.Product),
          ({ entries := [{ key := detailKey 1, value := str "product#1", expiration := 0 }],
             faults := [] } : redis.Server)), [])
      = ((some (fixture.product 1 (str "LG TV")), none),
          ((([] : List entity.Product),
            ({ entries := [{ key := detailKey 1, value := str "product#1", expiration := 0 }],
               faults := [] } : redis.Server)), [Call.redisGet (detailKey 1)])) :=
  C4_detail_hit_short_circuits _ fixture.json 1 _ _ (str "product#1")
    (fixture.product 1 (str "LG TV")) (by decide) (by rfl)

end usecase

namespace redis

theorem Server.nextFault_entries (s : Server) : s.nextFault.2.entries = s.entries := by
  unfold Server.nextFault
  cases s.faults <;> rfl

theorem Server.lookup_congr (s t : Server) (key : GoString) (h : s.entries = t.entries) :
    s.lookup key = t.lookup key := by
  simp [Server.lookup, h]

/-- A `GET` on a key the table does not hold reports an error, whatever the
fault schedule. -/
theorem Server.Get_absent (key : GoString) (s : Server) (h : s.lookup key = none) :
    (Server.Get key s).1.2 ≠ none := by
  have hf := Server.nextFault_entries s
  unfold Server.Get
  rcases hn : s.nextFault with ⟨f, s1⟩
  rw [hn] at hf
  cases f with
  | some err => simp
  | none =>
    have h1 : s1.lookup key = none := by
      rw [Server.lookup_congr s1 s key (by simpa using hf)]; exact h
    simp [h1]

end redis

namespace usecase

open trace

/-- C5: when the cache `Get` for the list key of the filter succeeds with a
payload that unmarshals as an envelope, `ListProducts` returns the envelope's
products with no error and the pagination
`StandardPagination(filter.Page, filter.Limit, cached total)`, and the only
call it makes is that `Get`: no call to the store, no `Set`, no `Delete`. -/
theorem C5_list_hit_recomputes_pagination {ω : Type} (u : productUsecase ω)
    (json : EncodingJSON) (filter : request.ProductFilter) (w w₁ : ω) (val : GoString)
    (result : entity.FetchResult)
    (hget : u.redisRepo.Get (listKey filter) w = ((val, none), w₁))
    (hjson : json.UnmarshalFetchResult val = .ok result) :
    (record u).ListProducts json filter (w, [])
      = ((result.Products,
          response.StandardPagination filter.Page filter.Limit result.Total, none),
         (w₁, [Call.redisGet (listKey filter)])) := by
  simp [productUsecase.ListProducts, record_Get, hget, hjson]

/-- Instance of C5: the in-memory cache holds `list#1` under the list key of
the fixture filter and the store is empty. -/
theorem C5_list_hit_recomputes_pagination_witness :
    (record (app.productUsecase fixture.tableStore redis.memoryClient)).ListProducts
        fixture.json fixture.filter
        ((([] : List entity.Product),
          ({ entries := [{ key := listKey fixture.filter, value := str "list#1",
                           expiration := 0 }],
             faults := [] } : redis.Server)), [])
      = (([fixture.product 1 (str "LG TV")], response.StandardPagination 1 10 1, none),
          ((([] : List entity.Product),
            ({ entries := [{ key := listKey fixture.filter, value := str "list#1",
                             expiration := 0 }],
               faults := [] } : redis.Server)), [Call.redisGet (listKey fixture.filter)])) :=
  C5_list_hit_recomputes_pagination _ fixture.json fixture.filter _ _ (str "list#1")
    { Products := [fixture.product 1 (str "LG TV")], Total := 1 } (by decide) (by rfl)

end usecase

namespace redis

end redis

namespace usecase

open trace

/-- C9: when the store insert succeeds, the calls `CreateProduct` makes are the
insert and exactly one cache `Delete`, with the argument `products*`, and it
returns no error, whatever the `Delete` returns. -/
theorem C9_create_invalidates_once {ω : Type} (u : productUsecase ω)
    (createdAt updatedAt : Time) (req : request.Product) (w w₁ : ω)
    (hinsert : u.repo.Create (newProduct createdAt updatedAt req) w = (none, w₁)) :
    (record u).CreateProduct createdAt updatedAt req (w, [])
      = (none,
         ((u.redisRepo.Delete (str "products*") w₁).2,
          [Call.repoCreate (newProduct createdAt updatedAt req),
           Call.redisDelete (str "products*")])) := by
  simp [productUsecase.CreateProduct, record_Create, record_Delete, hinsert]

/-- Instance of C9: the insert succeeds and the cache fails every call. -/
theorem C9_create_invalidates_once_witness :
    (record (NewProductUsecase (app.onStore fixture.tableStore)
        (app.onCache (fixture.failingCache GoError.ErrInternal)))).CreateProduct
        Time.zero Time.zero fixture.createRequest ((([] : List entity.Product), ()), [])
      = (none,
         (([{ newProduct Time.zero Time.zero fixture.createRequest with ID := 1 }], ()),
          [Call.repoCreate (newProduct Time.zero Time.zero fixture.createRequest),
           Call.redisDelete (str "products*")])) :=
  C9_create_invalidates_once _ Time.zero Time.zero fixture.createRequest
    (([] : List entity.Product), ())
    ([{ newProduct Time.zero Time.zero fixture.createRequest with ID := 1 }], ()) (by decide)

/-- C10: when the store insert fails with `e`, `CreateProduct` returns `e`
itself and the insert is the only call it makes: no cache operation. -/
theorem C10_create_failure_propagates {ω : Type} (u : productUsecase ω)
    (createdAt updatedAt : Time) (req : request.Product) (w w₁ : ω) (e : GoError)
    (hinsert : u.repo.Create (newProduct createdAt updatedAt req) w = (some e, w₁)) :
    (record u).CreateProduct createdAt updatedAt req (w, [])
      = (some e, (w₁, [Call.repoCreate (newProduct createdAt updatedAt req)])) := by
  simp [productUsecase.CreateProduct, record_Create, hinsert]

/-- Instance of C10: the store fails with `db error`; the in-memory cache and
its entry are left as they were. -/
theorem C10_create_failure_propagates_witness :
    (record (app.productUsecase (fixture.failingStore (GoError.other (str "db error")))
        redis.memoryClient)).CreateProduct
        Time.zero Time.zero fixture.createRequest
        (((), fixture.serverWith [listKey fixture.filter]), [])
      = (some (GoError.other (str "db error")),
         (((), fixture.serverWith [listKey fixture.filter]),
          [Call.repoCreate (newProduct Time.zero Time.zero fixture.createRequest)])) :=
  C10_create_failure_propagates _ Time.zero Time.zero fixture.createRequest
    ((), fixture.serverWith [listKey fixture.filter])
    ((), fixture.serverWith [listKey fixture.filter]) _ (by decide)

end usecase

namespace usecase

open trace

/-- C7 as stated fails: with a cache whose every call fails and a store whose
query fails, `ListProducts` for page 1, limit 10 returns the zero pagination,
which is not the pagination computed from the total the failed query
returned. -/
theorem C7_counterexample :
    (∀ key s, ((fixture.failingCache GoError.ErrInternal).Get key s).1.2 ≠ none) ∧
    (∀ key value ttl s,
      ((fixture.failingCache GoError.ErrInternal).Set key value ttl s).1 ≠ none) ∧
    (∀ key s, ((fixture.failingCache GoError.ErrInternal).Delete key s).1 ≠ none) ∧
    ((NewProductUsecase (fixture.failingStore (GoError.other (str "db error")))
        (fixture.failingCache GoError.ErrInternal)).ListProducts
        fixture.json fixture.filter ()).1
      = ([], response.StdPagination.zero, some (GoError.other (str "db error"))) ∧
    ((fixture.failingStore (GoError.other (str "db error"))).Fetch fixture.filter ()).1
      = ([], 0, some (GoError.other (str "db error"))) ∧
    response.StdPagination.zero
      ≠ response.StandardPagination fixture.filter.Page fixture.filter.Limit 0 := by
  refine ⟨?_, ?_, ?_, ?_, ?_, ?_⟩
  · intro key s; simp [fixture.failingCache]
  · intro key value ttl s; simp [fixture.failingCache]
  · intro key s; simp [fixture.failingCache]
  · decide
  · rfl
  · decide

/-- C7, amended: with a cache whose every `Get` fails (whatever its `Set` and
`Delete` do) and a store that returns a nil product, respectively nil rows,
together with an error, `GetProductByID` returns exactly what the store's
`GetByID` returns, `ListProducts` returns exactly the store query's rows and
error, with the pagination computed from its total when the query succeeds
and the zero pagination when it fails, and `CreateProduct` returns exactly
the result of the store insert. -/
theorem C7_cache_outage_store_is_truth {ω : Type} (u : productUsecase ω) (json : EncodingJSON)
    (houtage : ∀ key s, (u.redisRepo.Get key s).1.2 ≠ none)
    (hnilProduct : ∀ id s, (u.repo.GetByID id s).1.2 ≠ none → (u.repo.GetByID id s).1.1 = none)
    (hnilRows : ∀ filter s, (u.repo.Fetch filter s).1.2.2 ≠ none →
      (u.repo.Fetch filter s).1.1 = []) :
    (∀ id w, (u.GetProductByID json id w).1
      = (u.repo.GetByID id (u.redisRepo.Get (detailKey id) w).2).1) ∧
    (∀ filter w, (u.ListProducts json filter w).1
      = ((u.repo.Fetch filter (u.redisRepo.Get (listKey filter) w).2).1.1,
         (if (u.repo.Fetch filter (u.redisRepo.Get (listKey filter) w).2).1.2.2 = none then
            response.StandardPagination filter.Page filter.Limit
              (u.repo.Fetch filter (u.redisRepo.Get (listKey filter) w).2).1.2.1
          else response.StdPagination.zero),
         (u.repo.Fetch filter (u.redisRepo.Get (listKey filter) w).2).1.2.2)) ∧
    (∀ createdAt updatedAt req w, (u.CreateProduct createdAt updatedAt req w).1
      = (u.repo.Create (newProduct createdAt updatedAt req) w).1) := by
  refine ⟨?_, ?_, ?_⟩
  · intro id w
    have hmiss := houtage (detailKey id) w
    have hnil := hnilProduct id (u.redisRepo.Get (detailKey id) w).2
    simp only [productUsecase.GetProductByID, if_neg hmiss]
    rcases hs : u.repo.GetByID id (u.redisRepo.Get (detailKey id) w).2 with ⟨⟨p, err⟩, w₂⟩
    rw [hs] at hnil
    cases err with
    | none => rfl
    | some e =>
      have hp : p = none := hnil (by simp)
      subst hp
      rfl
  · intro filter w
    have hmiss := houtage (listKey filter) w
    have hnil := hnilRows filter (u.redisRepo.Get (listKey filter) w).2
    simp only [productUsecase.ListProducts, if_neg hmiss]
    rcases hs : u.repo.Fetch filter (u.redisRepo.Get (listKey filter) w).2
      with ⟨⟨rows, total, err⟩, w₂⟩
    rw [hs] at hnil
    cases err with
    | none =>
      by_cases hlen : rows.length > 0 <;> simp [hlen]
    | some e =>
      have hr : rows = [] := hnil (by simp)
      subst hr
      simp
  · intro createdAt updatedAt req w
    simp only [productUsecase.CreateProduct]
    rcases hs : u.repo.Create (newProduct createdAt updatedAt req) w with ⟨err, w₁⟩
    cases err <;> rfl

/-- Instance of C7 (amended): a store over a table behind a cache that fails
every call; the product comes from the store. -/
theorem C7_cache_outage_store_is_truth_witness :
    ((NewProductUsecase (app.onStore fixture.tableStore)
        (app.onCache (fixture.failingCache GoError.ErrInternal))).GetProductByID
        fixture.json 1 ([fixture.product 1 (str "LG TV")], ())).1
      = (some (fixture.product 1 (str "LG TV")), none) :=
  ((C7_cache_outage_store_is_truth
      (NewProductUsecase (app.onStore fixture.tableStore)
        (app.onCache (fixture.failingCache GoError.ErrInternal)))
      fixture.json
      (by intro key s; simp [NewProductUsecase, app.onCache, fixture.failingCache])
      (by
        intro id s
        simp only [NewProductUsecase, app.onStore, fixture.tableStore]
        cases List.find? (fun p => decide (p.ID = id)) s.1 <;> simp)
      (by intro filter s; simp [NewProductUsecase, app.onStore, fixture.tableStore])).1
    1 ([fixture.product 1 (str "LG TV")], ())).trans (by decide)

/-- C8: a cached payload that does not unmarshal is handled as a miss.  For two
caches with the same `Set`, one whose `Get` returns a payload that fails to
unmarshal and one whose `Get` reports an error, leaving the same state,
`GetProductByID` and `ListProducts` give the same result, the same final state
and the same sequence of calls (store call and cache `Set` included). -/
theorem C8_bad_payload_is_miss {ω : Type} (repo : interfaces.ProductRepository ω)
    (r₁ r₂ : repository.RedisRepository ω) (json : EncodingJSON) (hSet : r₁.Set = r₂.Set) :
    (∀ id w w₁ val val₂ e e₂,
      r₁.Get (detailKey id) w = ((val, none), w₁) →
      json.UnmarshalProduct val = .error e →
      r₂.Get (detailKey id) w = ((val₂, some e₂), w₁) →
      (record (NewProductUsecase repo r₁)).GetProductByID json id (w, [])
        = (record (NewProductUsecase repo r₂)).GetProductByID json id (w, [])) ∧
    (∀ filter w w₁ val val₂ e e₂,
      r₁.Get (listKey filter) w = ((val, none), w₁) →
      json.UnmarshalFetchResult val = .error e →
      r₂.Get (listKey filter) w = ((val₂, some e₂), w₁) →
      (record (NewProductUsecase repo r₁)).ListProducts json filter (w, [])
        = (record (NewProductUsecase repo r₂)).ListProducts json filter (w, [])) := by
  refine ⟨?_, ?_⟩
  · intro id w w₁ val val₂ e e₂ h1 hbad h2
    simp only [productUsecase.GetProductByID, record_Get, record_GetByID,
      NewProductUsecase, h1, h2, hbad]
    rcases hs : repo.GetByID id w₁ with ⟨⟨p, err⟩, w₂⟩
    cases err with
    | some err => simp
    | none =>
      have hrec := fun (r : repository.RedisRepository ω) =>
        record_Set ⟨repo, r⟩ (detailKey id) (json.MarshalProduct p).1 (5 * time.Minute) w₂
          [Call.redisGet (detailKey id), Call.repoGetByID id]
      simp [hrec, hSet]
  · intro filter w w₁ val val₂ e e₂ h1 hbad h2
    simp only [productUsecase.ListProducts, record_Get, record_Fetch,
      NewProductUsecase, h1, h2, hbad]
    rcases hs : repo.Fetch filter w₁ with ⟨⟨rows, total, err⟩, w₂⟩
    cases err with
    | some err => simp
    | none =>
      have hrec := fun (r : repository.RedisRepository ω) =>
        record_Set ⟨repo, r⟩ (listKey filter)
          (json.MarshalFetchResult { Products := rows, Total := total }).1 (5 * time.Minute) w₂
          [Call.redisGet (listKey filter), Call.repoFetch filter]
      by_cases hlen : 0 < rows.length <;> simp [hlen, hrec, hSet]

end usecase

namespace redis

/-- A `DEL` that succeeds removes exactly the entries of the given keys. -/
theorem Server.Del_ok (keys : List GoString) (s s1 : Server)
    (h : Server.Del keys s = (none, s1)) :
    s1.entries = s.entries.filter (fun e => e.key ∉ keys) := by
  have hf := Server.nextFault_entries s
  unfold Server.Del at h
  rcases hn : s.nextFault with ⟨f, s0⟩
  rw [hn] at hf h
  cases f with
  | some err => simp at h
  | none =>
    simp only [Prod.mk.injEq, true_and] at h
    subst h
    simp only at hf ⊢
    rw [hf]

theorem Server.lookup_eq_none (s : Server) (key : GoString) :
    s.lookup key = none ↔ ∀ e ∈ s.entries, e.key ≠ key := by
  simp [Server.lookup, List.find?_eq_none]

end redis

namespace repository

/-- The scan loop on the in-memory server, when it runs to its end: no entry
is added, and every key of the starting batch or of the scanned values is in
the batch left over or gone from the table. -/
theorem scanLoop_memory (vals keys keys1 : List GoString) (s s1 : redis.Server)
    (h : redisRepository.scanLoop ⟨redis.memoryClient⟩ vals keys s = (.ok keys1, s1)) :
    (∀ e ∈ s1.entries, e ∈ s.entries) ∧
    (∀ k ∈ keys ++ vals, k ∈ keys1 ∨ ∀ e ∈ s1.entries, e.key ≠ k) := by
  induction vals generalizing keys s with
  | nil =>
    simp only [redisRepository.scanLoop, Prod.mk.injEq, Except.ok.injEq] at h
    obtain ⟨rfl, rfl⟩ := h
    exact ⟨fun e he => he, fun k hk => Or.inl (by simpa using hk)⟩
  | cons v rest ih =>
    unfold redisRepository.scanLoop at h
    by_cases hge : (keys ++ [v]).length ≥ batchSize
    · simp only [hge, if_true] at h
      rcases hd : redis.Server.Del (keys ++ [v]) s with ⟨res, s0⟩
      have hd2 : redis.memoryClient.Del (keys ++ [v]) s = (res, s0) := hd
      rw [hd2] at h
      cases res with
      | some err => simp at h
      | none =>
        simp only at h
        obtain ⟨hsub, hkeys⟩ := ih [] s0 h
        have hent := redis.Server.Del_ok _ _ _ hd
        refine ⟨?_, ?_⟩
        · intro e he
          have := hsub e he
          rw [hent] at this
          exact (List.mem_filter.mp this).1
        · intro k hk
          rw [List.append_cons, List.mem_append] at hk
          rcases hk with hk | hk
          · right
            intro e he hek
            have := hsub e he
            rw [hent] at this
            have hnot := (List.mem_filter.mp this).2
            simp only [decide_eq_true_eq] at hnot
            exact hnot (hek ▸ hk)
          · exact hkeys k (by simpa using hk)
    · simp only [hge, if_false] at h
      obtain ⟨hsub, hkeys⟩ := ih (keys ++ [v]) s h
      exact ⟨hsub, fun k hk => hkeys k (by rw [List.append_cons] at hk; exact hk)⟩

/-- A bulk delete on the in-memory server that returns no error leaves no key
matching the pattern in the table. -/
theorem deleteByPattern_memory (pattern : GoString) (s s1 : redis.Server)
    (h : redisRepository.deleteByPatternInternal ⟨redis.memoryClient⟩ pattern s = (none, s1)) :
    ∀ key, redis.globMatch pattern key = true → s1.lookup key = none := by
  have hf := redis.Server.nextFault_entries s
  unfold redisRepository.deleteByPatternInternal at h
  have hscan : redis.memoryClient.Scan 0 pattern 0 s = redis.Server.Scan 0 pattern 0 s := rfl
  rw [hscan] at h
  unfold redis.Server.Scan at h
  rcases hn : s.nextFault with ⟨f, s0⟩
  rw [hn] at hf h
  cases f with
  | some err => simp [redisRepository.scanLoop] at h
  | none =>
    simp only at h hf
    rcases hloop : redisRepository.scanLoop ⟨redis.memoryClient⟩
      ((s0.entries.map redis.Entry.key).filter (redis.globMatch pattern)) [] s0
      with ⟨res, s2⟩
    rw [hloop] at h
    cases res with
    | error err => simp at h
    | ok keys =>
      obtain ⟨hsub, hkeys⟩ := scanLoop_memory _ _ _ _ _ hloop
      simp only at h
      -- every matching entry of the final table leads to a contradiction
      have hgone : ∀ e ∈ s1.entries, redis.globMatch pattern e.key = true → False := by
        intro e he hm
        by_cases hk : keys.length > 0
        · simp only [hk, if_true] at h
          rcases hd : redis.Server.Del keys s2 with ⟨r, s3⟩
          have hd2 : redis.memoryClient.Del keys s2 = (r, s3) := hd
          rw [hd2] at h
          cases r with
          | some err => simp at h
          | none =>
            simp only [Prod.mk.injEq, true_and] at h
            subst h
            have hent := redis.Server.Del_ok _ _ _ hd
            rw [hent] at he
            obtain ⟨he2, hnot⟩ := List.mem_filter.mp he
            simp only [decide_eq_true_eq] at hnot
            have hin : e.key ∈ ([] : List GoString) ++
                (s0.entries.map redis.Entry.key).filter (redis.globMatch pattern) := by
              simp only [List.nil_append, List.mem_filter, List.mem_map]
              exact ⟨⟨e, hsub e he2, rfl⟩, hm⟩
            rcases hkeys _ hin with hk1 | hk2
            · exact hnot hk1
            · exact hk2 e he2 rfl
        · simp only [hk, if_false, Prod.mk.injEq, true_and] at h
          subst h
          have hin : e.key ∈ ([] : List GoString) ++
              (s0.entries.map redis.Entry.key).filter (redis.globMatch pattern) := by
            simp only [List.nil_append, List.mem_filter, List.mem_map]
            exact ⟨⟨e, hsub e he, rfl⟩, hm⟩
          rcases hkeys _ hin with hk1 | hk2
          · have : keys = [] := List.length_eq_zero.mp (by omega)
            rw [this] at hk1
            simp at hk1
          · exact hk2 e he rfl
      intro key hmatch
      rw [redis.Server.lookup_eq_none]
      intro e he hek
      exact hgone e he (hek ▸ hmatch)

end repository

namespace redis

theorem anySuffix_isEmpty (s : GoString) :
    anySuffix (fun s => List.isEmpty s) s = true := by
  induction s with
  | nil => rfl
  | cons c s ih => simp [anySuffix, ih]

/-- Every key that starts with `products` matches the pattern `products*`. -/
theorem globMatch_products (rest : GoString) :
    globMatch (str "products*") (str "products" ++ rest) = true := by
  have hp : parseGlob none (str "products*")
      = [GlobTok.lit 112, GlobTok.lit 114, GlobTok.lit 111, GlobTok.lit 100, GlobTok.lit 117,
         GlobTok.lit 99, GlobTok.lit 116, GlobTok.lit 115, GlobTok.star] := by decide
  have hs : str "products" = [112, 114, 111, 100, 117, 99, 116, 115] := by decide
  rw [globMatch, hp, hs]
  simp only [List.cons_append, List.nil_append, matchToks, decide_True, Bool.true_and]
  exact anySuffix_isEmpty rest

end redis

namespace usecase

theorem listKey_products (filter : request.ProductFilter) :
    listKey filter
      = str "products" ++ (str ":list:" ++ url.Values.Encode (query.Values filter)) := by
  have h : constant.RedisKeyProductList ++ str ":" = str "products" ++ str ":list:" := by decide
  simp only [listKey, h, List.append_assoc]

open trace in
/-- C1 as stated fails.  The store holds one row and the cache holds that list
under the key of the query; the invalidation of the next `CreateProduct` fails
(the connection to the cache drops), yet `CreateProduct` returns success.  The
next `ListProducts` for the query makes no store call and returns the cached
one-row list, while the store now answers the query with two rows. -/
theorem C1_counterexample :
    fixture.staleWorld.2.lookup (listKey fixture.filter) = some (str "list#1") ∧
    (fixture.service.CreateProduct Time.zero Time.zero fixture.createRequest fixture.staleWorld).1
      = none ∧
    ((record fixture.service).ListProducts fixture.json fixture.filter
        ((fixture.service.CreateProduct Time.zero Time.zero fixture.createRequest
          fixture.staleWorld).2, [])).1
      = ([fixture.product 1 (str "LG TV")], response.StandardPagination 1 10 1, none) ∧
    ((record fixture.service).ListProducts fixture.json fixture.filter
        ((fixture.service.CreateProduct Time.zero Time.zero fixture.createRequest
          fixture.staleWorld).2, [])).2.2
      = [Call.redisGet (listKey fixture.filter)] ∧
    ((fixture.tableStore.Fetch fixture.filter
        (fixture.service.CreateProduct Time.zero Time.zero fixture.createRequest
          fixture.staleWorld).2.1).1.1).length = 2 := by
  refine ⟨by decide, by decide, by decide, by decide, by decide⟩

end usecase

namespace usecase

open trace in
/-- C1, amended: after a `CreateProduct` that returns success and whose
invalidation `Delete` returned no error, the next `ListProducts`, for every
list query (so for every query whose key held a cache entry before the
call), is answered from the store: it calls the store query, and returns that
query's rows with the pagination computed from its total, or its error.
Stated over any store gateway and the in-memory cache behind the redis
repository, from any table and any fault schedule. -/
theorem C1_create_invalidates_lists {σ : Type} (store : interfaces.ProductRepository σ)
    (json : EncodingJSON) (createdAt updatedAt : Time) (req : request.Product)
    (filter : request.ProductFilter) (s : σ) (srv : redis.Server)
    (hcreate : ((app.productUsecase store redis.memoryClient).CreateProduct
      createdAt updatedAt req (s, srv)).1 = none)
    (hdelete : ((repository.NewRedisRepository redis.memoryClient).Delete
      (str "products*") srv).1 = none) :
    ((app.productUsecase store redis.memoryClient).ListProducts json filter
        ((app.productUsecase store redis.memoryClient).CreateProduct
          createdAt updatedAt req (s, srv)).2).1
      = (if (store.Fetch filter (store.Create (newProduct createdAt updatedAt req) s).2).1.2.2
            = none then
          ((store.Fetch filter (store.Create (newProduct createdAt updatedAt req) s).2).1.1,
           response.StandardPagination filter.Page filter.Limit
             (store.Fetch filter (store.Create (newProduct createdAt updatedAt req) s).2).1.2.1,
           none)
         else
          ([], response.StdPagination.zero,
           (store.Fetch filter (store.Create (newProduct createdAt updatedAt req) s).2).1.2.2)) ∧
    Call.repoFetch filter ∈
      ((record (app.productUsecase store redis.memoryClient)).ListProducts json filter
        (((app.productUsecase store redis.memoryClient).CreateProduct
          createdAt updatedAt req (s, srv)).2, [])).2.2 := by
  -- the insert succeeded
  rcases hc : store.Create (newProduct createdAt updatedAt req) s with ⟨cerr, s₁⟩
  have hcerr : cerr = none := by
    cases cerr with
    | none => rfl
    | some e =>
      simp [productUsecase.CreateProduct, app.productUsecase, NewProductUsecase, app.onStore,
        hc] at hcreate
  subst hcerr
  -- the state after the call
  rcases hd : (repository.NewRedisRepository redis.memoryClient).Delete (str "products*") srv
    with ⟨derr, srv₁⟩
  rw [hd] at hdelete
  simp only at hdelete
  subst hdelete
  have hw : ((app.productUsecase store redis.memoryClient).CreateProduct
      createdAt updatedAt req (s, srv)).2 = (s₁, srv₁) := by
    simp [productUsecase.CreateProduct, app.productUsecase, NewProductUsecase, app.onStore,
      app.onCache, hc, hd]
  rw [hw]
  -- the list key is gone from the table
  have hstar : repository.containsStar (str "products*") = true := by decide
  have hd2 : repository.redisRepository.deleteByPatternInternal ⟨redis.memoryClient⟩
      (str "products*") srv = (none, srv₁) := by
    simpa [repository.NewRedisRepository, repository.redisRepository.Delete, hstar] using hd
  have habsent : srv₁.lookup (listKey filter) = none :=
    repository.deleteByPattern_memory _ _ _ hd2 _
      (by rw [listKey_products]; exact redis.globMatch_products _)
  have hmiss := redis.Server.Get_absent (listKey filter) srv₁ habsent
  rcases hf : store.Fetch filter s₁ with ⟨⟨rows, total, ferr⟩, s₂⟩
  constructor
  · simp only [productUsecase.ListProducts, app.productUsecase, NewProductUsecase,
      app.onStore, app.onCache, repository.NewRedisRepository,
      repository.redisRepository.Get, redis.memoryClient, if_neg hmiss, hf]
    cases ferr with
    | some e => simp
    | none => by_cases hlen : 0 < rows.length <;> simp [hlen]
  · have hmiss2 : ((app.productUsecase store redis.memoryClient).redisRepo.Get
        (listKey filter) (s₁, srv₁)).1.2 ≠ none := hmiss
    have hf2 : ((app.productUsecase store redis.memoryClient).repo.Fetch filter
        ((app.productUsecase store redis.memoryClient).redisRepo.Get
          (listKey filter) (s₁, srv₁)).2).1 = (rows, total, ferr) := by
      simp [app.productUsecase, NewProductUsecase, app.onStore, app.onCache, hf]
    generalize app.productUsecase store redis.memoryClient = u at hmiss2 hf2 ⊢
    rcases hf3 : u.repo.Fetch filter (u.redisRepo.Get (listKey filter) (s₁, srv₁)).2
      with ⟨r, w₂⟩
    rw [hf3] at hf2
    simp only at hf2
    subst hf2
    simp only [productUsecase.ListProducts, record_Get, record_Fetch, if_neg hmiss2, hf3]
    cases ferr with
    | some e => simp
    | none =>
      by_cases hlen : 0 < rows.length
      · simp [hlen, record_Set]
      · simp [hlen]

/-- Instance of C1 (amended): the cache holds the one-row list and nothing
fails; after the create the list query returns the two rows of the store. -/
theorem C1_create_invalidates_lists_witness :
    ((app.productUsecase fixture.tableStore redis.memoryClient).ListProducts
        fixture.json fixture.filter
        ((app.productUsecase fixture.tableStore redis.memoryClient).CreateProduct
          Time.zero Time.zero fixture.createRequest
          ([fixture.product 1 (str "LG TV")],
            fixture.serverWith [listKey fixture.filter])).2).1.1.length = 2 :=
  (congrArg (fun r => r.1.length)
    (C1_create_invalidates_lists fixture.tableStore fixture.json Time.zero Time.zero
      fixture.createRequest fixture.filter [fixture.product 1 (str "LG TV")]
      (fixture.serverWith [listKey fixture.filter]) (by decide) (by decide)).1).trans
    (by decide)

/-- Instance of C8: under the detail key of id 1 the cache holds a payload
that does not unmarshal; the run equals the run over a cache that reports the
key absent. -/
theorem C8_bad_payload_is_miss_witness :
    (trace.record (NewProductUsecase (app.onStore fixture.tableStore)
        (app.onCache (repository.NewRedisRepository redis.memoryClient)))).GetProductByID
        fixture.json 1
        (([fixture.product 1 (str "LG TV")], fixture.serverWith [detailKey 1]), [])
      = (trace.record (NewProductUsecase (app.onStore fixture.tableStore)
          { app.onCache (repository.NewRedisRepository redis.memoryClient) with
            Get := fun _ w => (([], some GoError.redisNil), w) })).GetProductByID
          fixture.json 1
          (([fixture.product 1 (str "LG TV")], fixture.serverWith [detailKey 1]), []) :=
  (C8_bad_payload_is_miss (app.onStore fixture.tableStore)
      (app.onCache (repository.NewRedisRepository redis.memoryClient))
      { app.onCache (repository.NewRedisRepository redis.memoryClient) with
        Get := fun _ w => (([], some GoError.redisNil), w) }
      fixture.json rfl).1
    1 ([fixture.product 1 (str "LG TV")], fixture.serverWith [detailKey 1])
    ([fixture.product 1 (str "LG TV")], fixture.serverWith [detailKey 1])
    (str "x") [] (GoError.other (str "invalid character")) GoError.redisNil
    (by decide) (by rfl) (by decide)

end usecase

/-! ## Recording does not change what an operation does -/

namespace trace

open usecase

/-- The recording orchestrator returns what the plain one returns and leaves
the state the plain one leaves: `GetProductByID`. -/
theorem record_GetProductByID_erase {ω : Type} (u : productUsecase ω) (json : EncodingJSON)
    (id : Int) (w : ω) (log : List Call) :
    ((record u).GetProductByID json id (w, log)).1 = (u.GetProductByID json id w).1 ∧
    ((record u).GetProductByID json id (w, log)).2.1 = (u.GetProductByID json id w).2 := by
  rcases hg : u.redisRepo.Get (detailKey id) w with ⟨⟨val, err⟩, w₁⟩
  rcases hs : u.repo.GetByID id w₁ with ⟨⟨p, e⟩, w₂⟩
  cases err <;> cases hj : json.UnmarshalProduct val <;> cases e <;>
    simp [productUsecase.GetProductByID, record_Get, record_GetByID, record_Set, hg, hs, hj]

/-- The same for `ListProducts`. -/
theorem record_ListProducts_erase {ω : Type} (u : productUsecase ω) (json : EncodingJSON)
    (filter : request.ProductFilter) (w : ω) (log : List Call) :
    ((record u).ListProducts json filter (w, log)).1 = (u.ListProducts json filter w).1 ∧
    ((record u).ListProducts json filter (w, log)).2.1 = (u.ListProducts json filter w).2 := by
  rcases hg : u.redisRepo.Get (listKey filter) w with ⟨⟨val, err⟩, w₁⟩
  rcases hs : u.repo.Fetch filter w₁ with ⟨⟨rows, total, e⟩, w₂⟩
  by_cases hlen : 0 < rows.length <;>
  cases err <;> cases hj : json.UnmarshalFetchResult val <;> cases e <;>
    simp [productUsecase.ListProducts, record_Get, record_Fetch, record_Set, hg, hs, hj, hlen]

/-- The same for `CreateProduct`. -/
theorem record_CreateProduct_erase {ω : Type} (u : productUsecase ω)
    (createdAt updatedAt : Time) (req : request.Product) (w : ω) (log : List Call) :
    ((record u).CreateProduct createdAt updatedAt req (w, log)).1
      = (u.CreateProduct createdAt updatedAt req w).1 ∧
    ((record u).CreateProduct createdAt updatedAt req (w, log)).2.1
      = (u.CreateProduct createdAt updatedAt req w).2 := by
  rcases hc : u.repo.Create (newProduct createdAt updatedAt req) w with ⟨e, w₁⟩
  cases e <;> simp [productUsecase.CreateProduct, record_Create, record_Delete, hc]

end trace

namespace trace

open repository

/-- The scan loop over the recording client does what it does over the plain
client. -/
theorem recordClient_scanLoop_erase {κ : Type} (c : redis.Client κ)
    (vals keys : List GoString) (w : κ) (log : List Cmd) :
    (redisRepository.scanLoop ⟨recordClient c⟩ vals keys (w, log)).1
      = (redisRepository.scanLoop ⟨c⟩ vals keys w).1 ∧
    (redisRepository.scanLoop ⟨recordClient c⟩ vals keys (w, log)).2.1
      = (redisRepository.scanLoop ⟨c⟩ vals keys w).2 := by
  induction vals generalizing keys w log with
  | nil => simp [redisRepository.scanLoop]
  | cons v rest ih =>
    unfold redisRepository.scanLoop
    by_cases hge : (keys ++ [v]).length ≥ batchSize
    · simp only [hge, if_true, recordClient_Del]
      rcases hd : c.Del (keys ++ [v]) w with ⟨res, s⟩
      cases res with
      | some err => simp
      | none => exact ih [] s _
    · simp only [hge, if_false]
      exact ih _ w log

/-- The gateway's `Delete` over the recording client returns what it returns
over the plain client and leaves the state it leaves there. -/
theorem recordClient_Delete_erase {κ : Type} (c : redis.Client κ) (keyOrPattern : GoString)
    (w : κ) (log : List Cmd) :
    ((NewRedisRepository (recordClient c)).Delete keyOrPattern (w, log)).1
      = ((NewRedisRepository c).Delete keyOrPattern w).1 ∧
    ((NewRedisRepository (recordClient c)).Delete keyOrPattern (w, log)).2.1
      = ((NewRedisRepository c).Delete keyOrPattern w).2 := by
  by_cases hstar : containsStar keyOrPattern = true
  · simp only [NewRedisRepository, redisRepository.Delete, hstar, if_true,
      redisRepository.deleteByPatternInternal, recordClient_Scan]
    have hloop := recordClient_scanLoop_erase c (c.Scan 0 keyOrPattern 0 w).1.vals []
      (c.Scan 0 keyOrPattern 0 w).2 (log ++ [Cmd.Scan 0 keyOrPattern 0 (c.Scan 0 keyOrPattern 0 w).1])
    rcases hr : redisRepository.scanLoop ⟨recordClient c⟩ (c.Scan 0 keyOrPattern 0 w).1.vals []
      ((c.Scan 0 keyOrPattern 0 w).2,
        log ++ [Cmd.Scan 0 keyOrPattern 0 (c.Scan 0 keyOrPattern 0 w).1]) with ⟨res, s, l⟩
    rcases hp : redisRepository.scanLoop ⟨c⟩ (c.Scan 0 keyOrPattern 0 w).1.vals []
      (c.Scan 0 keyOrPattern 0 w).2 with ⟨res2, s2⟩
    rw [hr, hp] at hloop
    obtain ⟨h1, h2⟩ := hloop
    simp only at h1 h2
    subst h1 h2
    cases res with
    | error err => simp
    | ok keys =>
      cases (c.Scan 0 keyOrPattern 0 w).1.err with
      | some err => simp
      | none =>
        by_cases hk : keys.length > 0
        · simp only [hk, if_true, recordClient_Del]
          rcases hd : c.Del keys s with ⟨r, s3⟩
          cases r <;> simp
        · simp [hk]
  · simp [NewRedisRepository, redisRepository.Delete, hstar, recordClient_Del]

end trace

/-! ## Store failures on the read path (C11) -/

namespace usecase

open trace in
/-- C11: on a cache miss a store failure is propagated unchanged and nothing is
cached.  When the store's `GetByID` fails with `e`, `GetProductByID` returns a
nil product and `e` itself; when the store query fails with `e`,
`ListProducts` returns nil products, the zero pagination and `e` itself.  In
both cases the calls made are the `Get` and the store call: no `Set`. -/
theorem C11_store_failure_propagates {ω : Type} (u : productUsecase ω) (json : EncodingJSON) :
    (∀ (id : Int) (w w₂ : ω) (product : Option entity.Product) (e : GoError),
      (u.redisRepo.Get (detailKey id) w).1.2 ≠ none →
      u.repo.GetByID id (u.redisRepo.Get (detailKey id) w).2 = ((product, some e), w₂) →
      (record u).GetProductByID json id (w, [])
        = ((none, some e),
           (w₂, [Call.redisGet (detailKey id), Call.repoGetByID id]))) ∧
    (∀ (filter : request.ProductFilter) (w w₂ : ω) (rows : List entity.Product) (total : Int)
        (e : GoError),
      (u.redisRepo.Get (listKey filter) w).1.2 ≠ none →
      u.repo.Fetch filter (u.redisRepo.Get (listKey filter) w).2
        = ((rows, total, some e), w₂) →
      (record u).ListProducts json filter (w, [])
        = (([], response.StdPagination.zero, some e),
           (w₂, [Call.redisGet (listKey filter), Call.repoFetch filter]))) := by
  refine ⟨?_, ?_⟩
  · intro id w w₂ product e hmiss hstore
    simp only [productUsecase.GetProductByID, record_Get, record_GetByID, if_neg hmiss, hstore]
    simp
  · intro filter w w₂ rows total e hmiss hstore
    simp only [productUsecase.ListProducts, record_Get, record_Fetch, if_neg hmiss, hstore]
    simp

open trace in
/-- Instance of C11: an empty in-memory cache in front of a store that fails
with `db error`, and of a table store that does not hold id 7. -/
theorem C11_store_failure_propagates_witness :
    (record (app.productUsecase (fixture.failingStore (GoError.other (str "db error")))
        redis.memoryClient)).ListProducts fixture.json fixture.filter
        (((), ({ entries := [], faults := [] } : redis.Server)), [])
      = (([], response.StdPagination.zero, some (GoError.other (str "db error"))),
         (((), ({ entries := [], faults := [] } : redis.Server)),
          [Call.redisGet (listKey fixture.filter), Call.repoFetch fixture.filter])) ∧
    (record (app.productUsecase fixture.tableStore redis.memoryClient)).GetProductByID
        fixture.json 7
        ((([] : List entity.Product), ({ entries := [], faults := [] } : redis.Server)), [])
      = ((none, some GoError.ErrNotFound),
         ((([] : List entity.Product), ({ entries := [], faults := [] } : redis.Server)),
          [Call.redisGet (detailKey 7), Call.repoGetByID 7])) :=
  ⟨(C11_store_failure_propagates
      (app.productUsecase (fixture.failingStore (GoError.other (str "db error")))
        redis.memoryClient) fixture.json).2
      fixture.filter ((), ({ entries := [], faults := [] } : redis.Server))
      ((), ({ entries := [], faults := [] } : redis.Server)) [] 0
      (GoError.other (str "db error")) (by decide) (by decide),
   (C11_store_failure_propagates
      (app.productUsecase fixture.tableStore redis.memoryClient) fixture.json).1
      7 (([] : List entity.Product), ({ entries := [], faults := [] } : redis.Server))
      (([] : List entity.Product), ({ entries := [], faults := [] } : redis.Server))
      none GoError.ErrNotFound (by decide) (by decide)⟩

end usecase

/-! ## The command log of a bulk delete, in every outcome -/

namespace repository

open trace

/-- The scan loop over a recording client, in both outcomes.  Either it runs
to its end, leaves over the remainder of `batchesOf` and has sent its full
batches, each answered without error; or it stops at the first `Del` that
fails, having sent a prefix of those full batches, the last one being the one
that failed. -/
theorem scanLoop_record_shape {κ : Type} (c : redis.Client κ) (vals keys : List GoString)
    (w : κ) (log : List Cmd) :
    ((redisRepository.scanLoop ⟨recordClient c⟩ vals keys (w, log)).1
        = .ok (batchesOf vals keys).2 ∧
      (redisRepository.scanLoop ⟨recordClient c⟩ vals keys (w, log)).2.2
        = log ++ (batchesOf vals keys).1.map okDel) ∨
    (∃ e pre ks,
      (redisRepository.scanLoop ⟨recordClient c⟩ vals keys (w, log)).1 = .error e ∧
      (redisRepository.scanLoop ⟨recordClient c⟩ vals keys (w, log)).2.2
        = log ++ (pre.map okDel ++ [Cmd.Del ks (some e)]) ∧
      (pre ++ [ks]) <+: (batchesOf vals keys).1) := by
  induction vals generalizing keys w log with
  | nil => left; simp [redisRepository.scanLoop, batchesOf]
  | cons v rest ih =>
    unfold redisRepository.scanLoop batchesOf
    by_cases hge : (keys ++ [v]).length ≥ batchSize
    · simp only [hge, if_true, recordClient_Del]
      rcases hdel : c.Del (keys ++ [v]) w with ⟨res, s⟩
      cases res with
      | some err =>
        right
        refine ⟨err, [], keys ++ [v], rfl, by simp, ?_⟩
        simp only [List.nil_append]
        exact ⟨(batchesOf rest []).1, rfl⟩
      | none =>
        rcases ih [] s (log ++ [Cmd.Del (keys ++ [v]) none]) with ⟨h1, h2⟩ | ⟨e, pre, ks, h1, h2, h3⟩
        · left
          refine ⟨h1, ?_⟩
          simp only [h2]
          simp [okDel]
        · right
          refine ⟨e, (keys ++ [v]) :: pre, ks, h1, ?_, ?_⟩
          · simp only [h2]
            simp [okDel]
          · obtain ⟨t, ht⟩ := h3
            exact ⟨t, by simp [← ht]⟩
    · simp only [hge, if_false]
      exact ih (keys ++ [v]) w log

end repository

namespace repository

open trace

/-- The four outcomes of the bulk delete over a recording client, with the log
of each: a `Del` of the loop failed; the scan failed; the `Del` of the
remainder failed; everything succeeded. -/
theorem deleteByPattern_shape {κ : Type} (c : redis.Client κ) (pattern : GoString) (w : κ) :
    (∃ e pre ks,
      (redisRepository.deleteByPatternInternal ⟨recordClient c⟩ pattern (w, [])).1 = some e ∧
      (redisRepository.deleteByPatternInternal ⟨recordClient c⟩ pattern (w, [])).2.2
        = Cmd.Scan 0 pattern 0 (c.Scan 0 pattern 0 w).1
            :: (pre.map okDel ++ [Cmd.Del ks (some e)]) ∧
      (pre ++ [ks]) <+: (batchesOf (c.Scan 0 pattern 0 w).1.vals []).1) ∨
    (∃ e, (c.Scan 0 pattern 0 w).1.err = some e ∧
      (redisRepository.deleteByPatternInternal ⟨recordClient c⟩ pattern (w, [])).1 = some e ∧
      (redisRepository.deleteByPatternInternal ⟨recordClient c⟩ pattern (w, [])).2.2
        = Cmd.Scan 0 pattern 0 (c.Scan 0 pattern 0 w).1
            :: (batchesOf (c.Scan 0 pattern 0 w).1.vals []).1.map okDel) ∨
    (∃ e, (c.Scan 0 pattern 0 w).1.err = none ∧
      (batchesOf (c.Scan 0 pattern 0 w).1.vals []).2 ≠ [] ∧
      (redisRepository.deleteByPatternInternal ⟨recordClient c⟩ pattern (w, [])).1 = some e ∧
      (redisRepository.deleteByPatternInternal ⟨recordClient c⟩ pattern (w, [])).2.2
        = Cmd.Scan 0 pattern 0 (c.Scan 0 pattern 0 w).1
            :: ((batchesOf (c.Scan 0 pattern 0 w).1.vals []).1.map okDel
              ++ [Cmd.Del (batchesOf (c.Scan 0 pattern 0 w).1.vals []).2 (some e)])) ∨
    ((c.Scan 0 pattern 0 w).1.err = none ∧
      (redisRepository.deleteByPatternInternal ⟨recordClient c⟩ pattern (w, [])).1 = none ∧
      (redisRepository.deleteByPatternInternal ⟨recordClient c⟩ pattern (w, [])).2.2
        = Cmd.Scan 0 pattern 0 (c.Scan 0 pattern 0 w).1
            :: ((batchesOf (c.Scan 0 pattern 0 w).1.vals []).1
              ++ (if (batchesOf (c.Scan 0 pattern 0 w).1.vals []).2 = [] then []
                  else [(batchesOf (c.Scan 0 pattern 0 w).1.vals []).2])).map okDel) := by
  unfold redisRepository.deleteByPatternInternal
  simp only [recordClient_Scan]
  have hshape := scanLoop_record_shape c (c.Scan 0 pattern 0 w).1.vals []
    (c.Scan 0 pattern 0 w).2 ([] ++ [Cmd.Scan 0 pattern 0 (c.Scan 0 pattern 0 w).1])
  generalize hrun : redisRepository.scanLoop ⟨recordClient c⟩ (c.Scan 0 pattern 0 w).1.vals []
    ((c.Scan 0 pattern 0 w).2, [] ++ [Cmd.Scan 0 pattern 0 (c.Scan 0 pattern 0 w).1]) = run
    at hshape ⊢
  obtain ⟨res, s, log⟩ := run
  simp only at hshape
  rcases hshape with ⟨h1, h2⟩ | ⟨e, pre, ks, h1, h2, h3⟩
  · subst h1 h2
    cases herr : (c.Scan 0 pattern 0 w).1.err with
    | some e =>
      right; left
      exact ⟨e, rfl, by simp, by simp⟩
    | none =>
      by_cases hk : (batchesOf (c.Scan 0 pattern 0 w).1.vals []).2 = []
      · right; right; right
        have hlen : ¬ (batchesOf (c.Scan 0 pattern 0 w).1.vals []).2.length > 0 := by
          simp [hk]
        simp only [hlen, if_false, hk, if_true]
        exact ⟨trivial, rfl, by simp⟩
      · have hlen : (batchesOf (c.Scan 0 pattern 0 w).1.vals []).2.length > 0 :=
          List.length_pos.mpr hk
        simp only [hlen, if_true, recordClient_Del]
        rcases hd : c.Del (batchesOf (c.Scan 0 pattern 0 w).1.vals []).2 s with ⟨r, s2⟩
        cases r with
        | some e =>
          right; right; left
          exact ⟨e, trivial, hk, by simp, by simp⟩
        | none =>
          right; right; right
          simp only [hk, if_false]
          exact ⟨trivial, by simp, by simp [okDel]⟩
  · subst h1 h2
    left
    exact ⟨e, pre, ks, by simp, by simp, h3⟩

end repository

/-! ## Single key or pattern (C14) -/

namespace repository

theorem containsStar_iff (s : GoString) : containsStar s = true ↔ (42 : UInt8) ∈ s := by
  simp [containsStar]

open trace in
/-- C14: `Delete` takes the bulk path exactly when its argument contains the
byte `*`.  Without a `*` the only command sent is one `Del` of exactly that
key, and its reply is the result (no `Scan`); with a `*` the first command
sent is a `Scan` from cursor 0 with the argument as the match pattern. -/
theorem C14_delete_dispatch {κ : Type} (c : redis.Client κ) (keyOrPattern : GoString)
    (w : κ) :
    ((42 : UInt8) ∉ keyOrPattern →
      (NewRedisRepository (recordClient c)).Delete keyOrPattern (w, [])
        = ((c.Del [keyOrPattern] w).1,
           ((c.Del [keyOrPattern] w).2,
            [Cmd.Del [keyOrPattern] (c.Del [keyOrPattern] w).1]))) ∧
    ((42 : UInt8) ∈ keyOrPattern →
      (NewRedisRepository (recordClient c)).Delete keyOrPattern (w, [])
          = redisRepository.deleteByPatternInternal ⟨recordClient c⟩ keyOrPattern (w, []) ∧
        ((NewRedisRepository (recordClient c)).Delete keyOrPattern (w, [])).2.2.head?
          = some (Cmd.Scan 0 keyOrPattern 0 (c.Scan 0 keyOrPattern 0 w).1)) := by
  refine ⟨?_, ?_⟩
  · intro h
    have hs : containsStar keyOrPattern = false := by
      cases hc : containsStar keyOrPattern with
      | false => rfl
      | true => exact absurd ((containsStar_iff _).mp hc) h
    simp [NewRedisRepository, redisRepository.Delete, hs, recordClient_Del]
  · intro h
    have hs : containsStar keyOrPattern = true := (containsStar_iff _).mpr h
    have hD : (NewRedisRepository (recordClient c)).Delete keyOrPattern (w, [])
        = redisRepository.deleteByPatternInternal ⟨recordClient c⟩ keyOrPattern (w, []) := by
      simp [NewRedisRepository, redisRepository.Delete, hs]
    refine ⟨hD, ?_⟩
    rw [hD]
    rcases deleteByPattern_shape c keyOrPattern w with
      ⟨e, pre, ks, _, h2, _⟩ | ⟨e, _, _, h2⟩ | ⟨e, _, _, _, h2⟩ | ⟨_, _, h2⟩ <;>
      rw [h2] <;> rfl

end repository

namespace repository

open trace in
/-- Instance of C14: the key `products:?[a]` holds other glob characters but
no `*`, so one `Del` of that key is sent; `products*` is scanned for. -/
theorem C14_delete_dispatch_witness :
    (NewRedisRepository (recordClient redis.memoryClient)).Delete (str "products:?[a]")
        (fixture.serverWith [str "products:1"], [])
      = (none, (fixture.serverWith [str "products:1"],
          [Cmd.Del [str "products:?[a]"] none])) ∧
    ((NewRedisRepository (recordClient redis.memoryClient)).Delete (str "products*")
        (fixture.serverWith [str "products:1"], [])).2.2.head?
      = some (Cmd.Scan 0 (str "products*") 0 { vals := [str "products:1"], err := none }) :=
  ⟨((C14_delete_dispatch redis.memoryClient (str "products:?[a]")
        (fixture.serverWith [str "products:1"])).1 (by decide)).trans (by decide),
   (((C14_delete_dispatch redis.memoryClient (str "products*")
        (fixture.serverWith [str "products:1"])).2 (by decide)).2).trans (by decide)⟩

end repository

/-! ## Failures during a bulk delete (C12, C13) -/

namespace trace

theorem delBatches_map_okDel (bs : List (List GoString)) :
    delBatches (bs.map okDel) = bs := by
  induction bs with
  | nil => rfl
  | cons b bs ih => simp only [List.map_cons, okDel, delBatches] at ih ⊢; rw [ih]

theorem not_failed_okDel (bs : List (List GoString)) :
    ∀ cmd ∈ bs.map okDel, Cmd.isFailedDel cmd = false := by
  intro cmd h
  obtain ⟨b, _, rfl⟩ := List.mem_map.mp h
  rfl

end trace

namespace repository

open trace

/-- With a `*` in its argument, the gateway's `Delete` is the bulk delete. -/
theorem Delete_of_star {κ : Type} (c : redis.Client κ) (pattern : GoString) (w : κ)
    (hstar : (42 : UInt8) ∈ pattern) :
    (NewRedisRepository c).Delete pattern w
      = redisRepository.deleteByPatternInternal ⟨c⟩ pattern w := by
  have hs : containsStar pattern = true := by simpa [containsStar] using hstar
  simp [NewRedisRepository, redisRepository.Delete, hs]

/-- The full batches of `batchesOf` are the first `100 * (n / 100)` of the `n`
scanned values. -/
theorem batchesOf_full_take (vals : List GoString) :
    (batchesOf vals []).1.flatten = vals.take (100 * (vals.length / 100)) ∧
    (batchesOf vals []).1.length = vals.length / 100 := by
  have hflat := batchesOf_flatten vals []
  have hfull := batchesOf_full vals [] (by simp [batchSize])
  have hrest := batchesOf_rest vals [] (by simp [batchSize])
  have hlen := length_flatten_of_full _ _ hfull
  simp only [batchSize, List.nil_append] at hflat hrest hlen
  have hn : vals.length
      = 100 * (batchesOf vals []).1.length + (batchesOf vals []).2.length := by
    rw [← hlen, ← List.length_append, hflat]
  have hq : vals.length / 100 = (batchesOf vals []).1.length := by omega
  refine ⟨?_, hq.symm⟩
  rw [hq, ← hlen]
  clear hq hn hfull hrest hlen
  generalize (batchesOf vals []).1.flatten = front at hflat ⊢
  generalize (batchesOf vals []).2 = back at hflat
  subst hflat
  simp

open trace in
/-- C13: when the argument of `Delete` contains `*`, the scan fails with `e`
(before or after yielding keys) and no `Del` command gets an error reply,
`Delete` returns `e` itself.  The commands sent are the `Scan` and one
successful `Del` for each full batch of 100 scanned keys: the batches cover
exactly the first `100 * (n / 100)` of the `n` keys the scan yielded, so the
keys of the partial batch at the time of the failure are not deleted and no
`Del` comes after them. -/
theorem C13_scan_failure_reported {κ : Type} (c : redis.Client κ) (pattern : GoString)
    (w : κ) (e : GoError) (hstar : (42 : UInt8) ∈ pattern)
    (hscan : (c.Scan 0 pattern 0 w).1.err = some e)
    (hdel : ∀ cmd ∈ ((NewRedisRepository (recordClient c)).Delete pattern (w, [])).2.2,
      Cmd.isFailedDel cmd = false) :
    ((NewRedisRepository (recordClient c)).Delete pattern (w, [])).1 = some e ∧
    ((NewRedisRepository (recordClient c)).Delete pattern (w, [])).2.2
      = Cmd.Scan 0 pattern 0 (c.Scan 0 pattern 0 w).1
          :: (delBatches
                ((NewRedisRepository (recordClient c)).Delete pattern (w, [])).2.2).map okDel ∧
    (∀ b ∈ delBatches ((NewRedisRepository (recordClient c)).Delete pattern (w, [])).2.2,
      b.length = 100) ∧
    (delBatches ((NewRedisRepository (recordClient c)).Delete pattern (w, [])).2.2).flatten
      = (c.Scan 0 pattern 0 w).1.vals.take (100 * ((c.Scan 0 pattern 0 w).1.vals.length / 100)) := by
  have hD := Delete_of_star (recordClient c) pattern (w, []) hstar
  rw [hD] at hdel ⊢
  have htake := batchesOf_full_take (c.Scan 0 pattern 0 w).1.vals
  have hfull := batchesOf_full (c.Scan 0 pattern 0 w).1.vals [] (by simp [batchSize])
  rcases deleteByPattern_shape c pattern w with
    ⟨e', pre, ks, _, h2, _⟩ | ⟨e', herr, h1, h2⟩ | ⟨e', herr, _, _, _⟩ | ⟨herr, _, _⟩
  · have := hdel (Cmd.Del ks (some e')) (by rw [h2]; simp)
    simp [Cmd.isFailedDel] at this
  · have he : e' = e := by rw [hscan] at herr; exact (Option.some.inj herr).symm
    subst he
    have hb : delBatches (Cmd.Scan 0 pattern 0 (c.Scan 0 pattern 0 w).1
        :: (batchesOf (c.Scan 0 pattern 0 w).1.vals []).1.map okDel)
        = (batchesOf (c.Scan 0 pattern 0 w).1.vals []).1 := by
      simp only [delBatches]
      exact delBatches_map_okDel _
    rw [h2, hb]
    exact ⟨h1, rfl, hfull, htake.1⟩
  · rw [hscan] at herr; simp at herr
  · rw [hscan] at herr; simp at herr

end repository

namespace redis

/-- A `DEL` adds no entry, whatever its reply. -/
theorem Server.Del_subset (keys : List GoString) (s : Server) :
    ∀ e ∈ (Server.Del keys s).2.entries, e ∈ s.entries := by
  have hf := Server.nextFault_entries s
  unfold Server.Del
  rcases hn : s.nextFault with ⟨f, s0⟩
  rw [hn] at hf
  cases f with
  | some err => intro e he; simpa [← hf] using he
  | none =>
    intro e he
    simp only [List.mem_filter] at he
    rw [← hf]; exact he.1

/-- A `SCAN` leaves the table as it is. -/
theorem Server.Scan_entries (cursor : Nat) (pattern : GoString) (count : Int) (s : Server) :
    (Server.Scan cursor pattern count s).2.entries = s.entries := by
  have hf := Server.nextFault_entries s
  unfold Server.Scan
  rcases hn : s.nextFault with ⟨f, s0⟩
  rw [hn] at hf
  cases f <;> simpa using hf

end redis

namespace repository

open trace

/-- The scan loop on the recording in-memory client, in any outcome: no entry
is added, and the keys of every `Del` the log shows as successful are either
from a `Del` already in the log at the start or gone from the table. -/
theorem scanLoop_memory_record (vals keys : List GoString) (s : redis.Server) (log : List Cmd) :
    (∀ e ∈ (redisRepository.scanLoop ⟨recordClient redis.memoryClient⟩ vals keys
        (s, log)).2.1.entries, e ∈ s.entries) ∧
    (∀ ks, okDel ks ∈ (redisRepository.scanLoop ⟨recordClient redis.memoryClient⟩ vals keys
        (s, log)).2.2 →
      okDel ks ∈ log ∨
      ∀ k ∈ ks, ∀ e ∈ (redisRepository.scanLoop ⟨recordClient redis.memoryClient⟩ vals keys
        (s, log)).2.1.entries, e.key ≠ k) := by
  induction vals generalizing keys s log with
  | nil => exact ⟨fun e he => he, fun ks h => Or.inl h⟩
  | cons v rest ih =>
    unfold redisRepository.scanLoop
    by_cases hge : (keys ++ [v]).length ≥ batchSize
    · simp only [hge, if_true, recordClient_Del]
      have hsub := redis.Server.Del_subset (keys ++ [v]) s
      rcases hd : redis.Server.Del (keys ++ [v]) s with ⟨res, s0⟩
      have hd2 : redis.memoryClient.Del (keys ++ [v]) s = (res, s0) := hd
      rw [hd] at hsub
      rw [hd2]
      cases res with
      | some err =>
        refine ⟨hsub, ?_⟩
        intro ks h
        left
        simpa [okDel] using h
      | none =>
        obtain ⟨ih1, ih2⟩ := ih [] s0 (log ++ [Cmd.Del (keys ++ [v]) none])
        have hent := redis.Server.Del_ok _ _ _ hd
        refine ⟨fun e he => hsub e (ih1 e he), ?_⟩
        intro ks h
        rcases ih2 ks h with h3 | h3
        · rcases List.mem_append.mp h3 with h4 | h4
          · exact Or.inl h4
          · right
            have hks : ks = keys ++ [v] := by simpa [okDel] using h4
            subst hks
            intro k hk e he hek
            have := ih1 e he
            rw [hent] at this
            have hnot := (List.mem_filter.mp this).2
            simp only [decide_eq_true_eq] at hnot
            exact hnot (hek ▸ hk)
        · exact Or.inr h3
    · simp only [hge, if_false]
      exact ih (keys ++ [v]) s log

/-- After a bulk delete on the recording in-memory client, in any outcome, the
keys of every `Del` the log shows as successful are gone from the table. -/
theorem deleteByPattern_memory_record (pattern : GoString) (s : redis.Server) :
    ∀ ks, okDel ks ∈ (redisRepository.deleteByPatternInternal
        ⟨recordClient redis.memoryClient⟩ pattern (s, [])).2.2 →
      ∀ k ∈ ks, (redisRepository.deleteByPatternInternal
        ⟨recordClient redis.memoryClient⟩ pattern (s, [])).2.1.lookup k = none := by
  unfold redisRepository.deleteByPatternInternal
  simp only [recordClient_Scan]
  obtain ⟨hsub, hgone⟩ := scanLoop_memory_record (redis.memoryClient.Scan 0 pattern 0 s).1.vals []
    (redis.memoryClient.Scan 0 pattern 0 s).2
    ([] ++ [Cmd.Scan 0 pattern 0 (redis.memoryClient.Scan 0 pattern 0 s).1])
  generalize hrun : redisRepository.scanLoop ⟨recordClient redis.memoryClient⟩
    (redis.memoryClient.Scan 0 pattern 0 s).1.vals []
    ((redis.memoryClient.Scan 0 pattern 0 s).2,
      [] ++ [Cmd.Scan 0 pattern 0 (redis.memoryClient.Scan 0 pattern 0 s).1]) = run
    at hsub hgone ⊢
  obtain ⟨res, s1, log1⟩ := run
  simp only at hsub hgone
  -- what the loop leaves: every successful `Del` of the log has its keys gone
  have hloop : ∀ ks, okDel ks ∈ log1 → ∀ k ∈ ks, ∀ e ∈ s1.entries, e.key ≠ k := by
    intro ks h
    rcases hgone ks h with h1 | h1
    · simp [okDel] at h1
    · exact h1
  have hfinal : ∀ (out : Option GoError × redis.Server × List Cmd), out.2 = (s1, log1) →
      ∀ ks, okDel ks ∈ out.2.2 → ∀ k ∈ ks, out.2.1.lookup k = none := by
    intro out hout ks h k hk
    rw [hout] at h ⊢
    rw [redis.Server.lookup_eq_none]
    exact hloop ks h k hk
  cases res with
  | error err => exact hfinal _ rfl
  | ok keys =>
    simp only
    cases (redis.memoryClient.Scan 0 pattern 0 s).1.err with
    | some err => exact hfinal _ rfl
    | none =>
      simp only
      by_cases hk : keys.length > 0
      · simp only [hk, if_true, recordClient_Del]
        have hsub2 := redis.Server.Del_subset keys s1
        rcases hd : redis.Server.Del keys s1 with ⟨r, s2⟩
        have hd2 : redis.memoryClient.Del keys s1 = (r, s2) := hd
        rw [hd] at hsub2
        rw [hd2]
        have hboth : ∀ ks, okDel ks ∈ log1 ++ [Cmd.Del keys r] →
            ∀ k ∈ ks, s2.lookup k = none := by
          intro ks h k hkk
          rw [redis.Server.lookup_eq_none]
          rcases List.mem_append.mp h with h1 | h1
          · exact fun e he => hloop ks h1 k hkk e (hsub2 e he)
          · have heq : ks = keys ∧ r = none := by simpa [okDel, eq_comm] using h1
            obtain ⟨rfl, rfl⟩ := heq
            have hent := redis.Server.Del_ok _ _ _ hd
            intro e he hek
            rw [hent] at he
            have hnot := (List.mem_filter.mp he).2
            simp only [decide_eq_true_eq] at hnot
            exact hnot (hek ▸ hkk)
        cases r <;> exact hboth
      · simp only [hk, if_false]
        exact hfinal (none, s1, log1) rfl

end repository

namespace trace

/-- In a log made of a `Scan`, successful `Del`s and one last failed `Del`,
a failed `Del` is the last command. -/
theorem failed_del_is_last (first : Cmd) (pre : List (List GoString)) (ks keys : List GoString)
    (e e' : GoError) (hfirst : ∀ k r, first ≠ Cmd.Del k r)
    (h : Cmd.Del keys (some e) ∈ first :: (pre.map okDel ++ [Cmd.Del ks (some e')])) :
    keys = ks ∧ e = e' := by
  simp only [List.mem_cons, List.mem_append, List.mem_map, List.mem_singleton, okDel] at h
  rcases h with h | ⟨b, _, hb⟩ | h
  · exact absurd h.symm (hfirst _ _)
  · simp at hb
  · simpa using h

theorem delBatches_shape (first : Cmd) (pre : List (List GoString)) (ks : List GoString)
    (r : Option GoError) (hfirst : ∀ k r, first ≠ Cmd.Del k r) :
    delBatches (first :: (pre.map okDel ++ [Cmd.Del ks r])) = pre ++ [ks] := by
  have h1 : delBatches (first :: (pre.map okDel ++ [Cmd.Del ks r]))
      = delBatches (pre.map okDel ++ [Cmd.Del ks r]) := by
    cases first with
    | Del k r => exact absurd rfl (hfirst k r)
    | Set _ _ _ _ => rfl
    | Get _ _ => rfl
    | Scan _ _ _ _ => rfl
  rw [h1, delBatches_append, delBatches_map_okDel]
  rfl

end trace

namespace repository

open trace in
/-- C12: when the argument of `Delete` contains `*` and a `Del` command of the
run gets the error reply `e`, `Delete` returns `e` itself and that `Del` is
the last command sent: the log is the `Scan`, then `k-1` successful `Del`s,
then the failed one, so exactly `k` `Del`s were issued.  The batches before
the failed one hold 100 keys each, the failed one between 1 and 100, and
together they are a prefix of the scanned key sequence (no key beyond the
failed batch was taken from the scan).  On the in-memory server the keys of
every `Del` that succeeded are absent from the table the run leaves: nothing
is rolled back. -/
theorem C12_batch_failure_aborts {κ : Type} (c : redis.Client κ) (pattern : GoString)
    (w : κ) (keys : List GoString) (e : GoError) (hstar : (42 : UInt8) ∈ pattern)
    (hfail : Cmd.Del keys (some e)
      ∈ ((NewRedisRepository (recordClient c)).Delete pattern (w, [])).2.2) :
    ((NewRedisRepository (recordClient c)).Delete pattern (w, [])).1 = some e ∧
    (∃ pre : List (List GoString),
      ((NewRedisRepository (recordClient c)).Delete pattern (w, [])).2.2
        = Cmd.Scan 0 pattern 0 (c.Scan 0 pattern 0 w).1
            :: (pre.map okDel ++ [Cmd.Del keys (some e)]) ∧
      delBatches ((NewRedisRepository (recordClient c)).Delete pattern (w, [])).2.2
        = pre ++ [keys] ∧
      (∀ b ∈ pre, b.length = 100) ∧ 1 ≤ keys.length ∧ keys.length ≤ 100 ∧
      (pre ++ [keys]).flatten <+: (c.Scan 0 pattern 0 w).1.vals) ∧
    (∀ (srv : redis.Server) (ks : List GoString),
      okDel ks ∈ ((NewRedisRepository (recordClient redis.memoryClient)).Delete pattern
        (srv, [])).2.2 →
      ∀ key ∈ ks, ((NewRedisRepository (recordClient redis.memoryClient)).Delete pattern
        (srv, [])).2.1.lookup key = none) := by
  have hD := Delete_of_star (recordClient c) pattern (w, []) hstar
  have hflat := batchesOf_flatten (c.Scan 0 pattern 0 w).1.vals []
  have hfull := batchesOf_full (c.Scan 0 pattern 0 w).1.vals [] (by simp [batchSize])
  have hrest := batchesOf_rest (c.Scan 0 pattern 0 w).1.vals [] (by simp [batchSize])
  simp only [batchSize, List.nil_append] at hflat hfull hrest
  have hscanNe : ∀ k r, Cmd.Scan 0 pattern 0 (c.Scan 0 pattern 0 w).1 ≠ Cmd.Del k r := by
    intro k r h; cases h
  refine ⟨?_, ?_, ?_⟩
  · rw [hD] at hfail ⊢
    rcases deleteByPattern_shape c pattern w with
      ⟨e', pre, ks, h1, h2, _⟩ | ⟨e', _, _, h2⟩ | ⟨e', _, _, h1, h2⟩ | ⟨_, _, h2⟩
    · rw [h2] at hfail
      rw [h1, (failed_del_is_last _ _ _ _ _ _ hscanNe hfail).2]
    · rw [h2] at hfail
      have := not_failed_okDel _ _ (List.mem_of_ne_of_mem (hscanNe _ _).symm hfail)
      simp [Cmd.isFailedDel] at this
    · rw [h2] at hfail
      rw [h1, (failed_del_is_last _ _ _ _ _ _ hscanNe hfail).2]
    · rw [h2] at hfail
      have := not_failed_okDel _ _ (List.mem_of_ne_of_mem (hscanNe _ _).symm hfail)
      simp [Cmd.isFailedDel] at this
  · rw [hD] at hfail ⊢
    rcases deleteByPattern_shape c pattern w with
      ⟨e', pre, ks, h1, h2, h3⟩ | ⟨e', _, _, h2⟩ | ⟨e', _, hne, h1, h2⟩ | ⟨_, _, h2⟩
    · rw [h2] at hfail
      obtain ⟨rfl, rfl⟩ := failed_del_is_last _ _ _ _ _ _ hscanNe hfail
      have hmem : ∀ b ∈ pre ++ [keys], b.length = 100 :=
        fun b hb => hfull b (h3.subset hb)
      have hk := hmem keys (by simp)
      obtain ⟨t, ht⟩ := h3
      refine ⟨pre, h2, by rw [h2]; exact delBatches_shape _ _ _ _ hscanNe,
        fun b hb => hmem b (by simp [hb]), by omega, by omega, ?_⟩
      refine ⟨t.flatten ++ (batchesOf (c.Scan 0 pattern 0 w).1.vals []).2, ?_⟩
      have hjoin : (pre ++ [keys]).flatten
          ++ (t.flatten ++ (batchesOf (c.Scan 0 pattern 0 w).1.vals []).2)
          = (batchesOf (c.Scan 0 pattern 0 w).1.vals []).1.flatten
            ++ (batchesOf (c.Scan 0 pattern 0 w).1.vals []).2 := by
        rw [← ht]; simp
      exact hjoin.trans hflat
    · rw [h2] at hfail
      have := not_failed_okDel _ _ (List.mem_of_ne_of_mem (hscanNe _ _).symm hfail)
      simp [Cmd.isFailedDel] at this
    · rw [h2] at hfail
      obtain ⟨rfl, rfl⟩ := failed_del_is_last _ _ _ _ _ _ hscanNe hfail
      have hpos : 0 < (batchesOf (c.Scan 0 pattern 0 w).1.vals []).2.length :=
        List.length_pos.mpr hne
      refine ⟨_, h2, by rw [h2]; exact delBatches_shape _ _ _ _ hscanNe,
        hfull, by omega, by omega, ?_⟩
      simp [hflat]
    · rw [h2] at hfail
      have := not_failed_okDel _ _ (List.mem_of_ne_of_mem (hscanNe _ _).symm hfail)
      simp [Cmd.isFailedDel] at this
  · intro srv ks hks key hkey
    have hDm := Delete_of_star (recordClient redis.memoryClient) pattern (srv, []) hstar
    rw [hDm] at hks ⊢
    exact deleteByPattern_memory_record pattern srv ks hks key hkey

end repository

namespace repository

open trace in
/-- Instance of C12: 105 keys on the in-memory server, where the third command
(the `Del` of the five remaining keys) fails.  `Delete` returns that error,
two `Del`s were sent, the first key is gone and the last key is still there. -/
theorem C12_batch_failure_aborts_witness :
    ((NewRedisRepository (recordClient redis.memoryClient)).Delete (str "products:*")
        ({ fixture.serverWith (fixture.generateKeys 105) with
            faults := [none, none, some (GoError.other (str "del fail"))] }, [])).1
      = some (GoError.other (str "del fail")) ∧
    (delBatches ((NewRedisRepository (recordClient redis.memoryClient)).Delete
        (str "products:*")
        ({ fixture.serverWith (fixture.generateKeys 105) with
            faults := [none, none, some (GoError.other (str "del fail"))] }, [])).2.2).map
        List.length = [100, 5] ∧
    ((NewRedisRepository (recordClient redis.memoryClient)).Delete (str "products:*")
        ({ fixture.serverWith (fixture.generateKeys 105) with
            faults := [none, none, some (GoError.other (str "del fail"))] }, [])).2.1.lookup
        (str "products:0") = none ∧
    ((NewRedisRepository (recordClient redis.memoryClient)).Delete (str "products:*")
        ({ fixture.serverWith (fixture.generateKeys 105) with
            faults := [none, none, some (GoError.other (str "del fail"))] }, [])).2.1.lookup
        (str "products:104") = some (str "x") :=
  ⟨(C12_batch_failure_aborts redis.memoryClient (str "products:*")
      { fixture.serverWith (fixture.generateKeys 105) with
          faults := [none, none, some (GoError.other (str "del fail"))] }
      ((fixture.generateKeys 105).drop 100) (GoError.other (str "del fail")) (by decide)
      (by set_option maxRecDepth 100000 in decide)).1,
   by set_option maxRecDepth 100000 in decide,
   by set_option maxRecDepth 100000 in decide,
   by set_option maxRecDepth 100000 in decide⟩

open trace in
/-- Instance of C13: 105 keys, and a scan that breaks after yielding 103 of
them.  `Delete` returns the scan's error, one batch of 100 was deleted, and
the key `products:100`, in the partial batch at the failure, is still
there. -/
theorem C13_scan_failure_reported_witness :
    ((NewRedisRepository (recordClient
        (fixture.brokenScanClient 103 (GoError.other (str "scan fail"))))).Delete
        (str "products:*") (fixture.serverWith (fixture.generateKeys 105), [])).1
      = some (GoError.other (str "scan fail")) ∧
    (delBatches ((NewRedisRepository (recordClient
        (fixture.brokenScanClient 103 (GoError.other (str "scan fail"))))).Delete
        (str "products:*") (fixture.serverWith (fixture.generateKeys 105), [])).2.2).map
        List.length = [100] ∧
    ((NewRedisRepository (recordClient
        (fixture.brokenScanClient 103 (GoError.other (str "scan fail"))))).Delete
        (str "products:*") (fixture.serverWith (fixture.generateKeys 105), [])).2.1.lookup
        (str "products:100") = some (str "x") :=
  ⟨(C13_scan_failure_reported
      (fixture.brokenScanClient 103 (GoError.other (str "scan fail"))) (str "products:*")
      (fixture.serverWith (fixture.generateKeys 105)) (GoError.other (str "scan fail"))
      (by decide) (by set_option maxRecDepth 100000 in decide)
      (by set_option maxRecDepth 100000 in decide)).1,
   by set_option maxRecDepth 100000 in decide,
   by set_option maxRecDepth 100000 in decide⟩

end repository

/-! ## Pagination (C17) -/

namespace response

theorem wrapInt64_of_fits (x : Int) (h : -2 ^ 63 ≤ x ∧ x < 2 ^ 63) : wrapInt64 x = x := by
  unfold wrapInt64
  have h63 : (2 : Int) ^ 63 = 9223372036854775808 := by norm_num
  have h64 : (2 : Int) ^ 64 = 18446744073709551616 := by norm_num
  rw [h63] at h ⊢
  rw [h64]
  omega

/-- C17: for all `page`, `limit` and `total` for which `page * limit` fits in a
Go `int`, `StandardPagination(page, limit, total)` has `Page = page`,
`Limit = limit`, `Total = total`, `NextPage` true exactly when
`page * limit < total`, and `PrevPage` true exactly when `page > 1`. -/
theorem C17_standard_pagination (page limit total : Int)
    (hfits : -2 ^ 63 ≤ page * limit ∧ page * limit < 2 ^ 63) :
    (StandardPagination page limit total).Page = page ∧
    (StandardPagination page limit total).Limit = limit ∧
    (StandardPagination page limit total).Total = total ∧
    ((StandardPagination page limit total).NextPage = true ↔ page * limit < total) ∧
    ((StandardPagination page limit total).PrevPage = true ↔ page > 1) := by
  simp [StandardPagination, wrapInt64_of_fits _ hfits]

/-- Instance of C17: the two examples of the specification. -/
theorem C17_standard_pagination_witness :
    ((StandardPagination 2 10 25).NextPage = true ∧
      (StandardPagination 2 10 25).PrevPage = true) ∧
    ((StandardPagination 1 10 5).NextPage = false ∧
      (StandardPagination 1 10 5).PrevPage = false) :=
  ⟨⟨(C17_standard_pagination 2 10 25 (by decide)).2.2.2.1.mpr (by decide),
    (C17_standard_pagination 2 10 25 (by decide)).2.2.2.2.mpr (by decide)⟩,
   ⟨Bool.eq_false_iff.mpr
      (fun h => absurd ((C17_standard_pagination 1 10 5 (by decide)).2.2.2.1.mp h) (by decide)),
    Bool.eq_false_iff.mpr
      (fun h => absurd ((C17_standard_pagination 1 10 5 (by decide)).2.2.2.2.mp h)
        (by decide))⟩⟩

end response

/-! ## Bytes, digits and escapes -/

theorem forall_byte (P : UInt8 → Prop) (h : ∀ n, n < 256 → P (UInt8.ofNat n)) :
    ∀ c : UInt8, P c := by
  intro c
  have hc : c = UInt8.ofNat c.toNat := by
    apply UInt8.ext
    rw [UInt8.toNat_ofNat_of_lt (UInt8.toNat_lt c)]
  rw [hc]
  exact h _ (UInt8.toNat_lt c)

theorem digitByte_toNat (d : Nat) (h : d < 10) : (digitByte d).toNat = 48 + d := by
  unfold digitByte
  exact UInt8.toNat_ofNat_of_lt (by simp [UInt8.size]; omega)

/-- The number a sequence of decimal digits stands for. -/
theorem decimalDigits_digit (fuel n : Nat) :
    ∀ b ∈ decimalDigits fuel n, 48 ≤ b.toNat ∧ b.toNat ≤ 57 := by
  induction fuel generalizing n with
  | zero => simp [decimalDigits]
  | succ fuel ih =>
    unfold decimalDigits
    split
    · intro b hb
      simp only [List.mem_singleton] at hb
      subst hb
      rw [digitByte_toNat _ (by assumption)]
      omega
    · intro b hb
      rcases List.mem_append.mp hb with hb | hb
      · exact ih _ b hb
      · simp only [List.mem_singleton] at hb
        subst hb
        rw [digitByte_toNat _ (Nat.mod_lt _ (by decide))]
        have := Nat.mod_lt n (show 0 < 10 by decide)
        omega

theorem digitsValue_append (s : GoString) (b : UInt8) :
    digitsValue (s ++ [b]) = digitsValue s * 10 + (b.toNat - 48) := by
  simp [digitsValue, List.foldl_append]

theorem decimalDigits_value (fuel n : Nat) (h : n < 10 ^ fuel) :
    digitsValue (decimalDigits fuel n) = n := by
  induction fuel generalizing n with
  | zero =>
    simp only [pow_zero, Nat.lt_one_iff] at h
    subst h
    rfl
  | succ fuel ih =>
    unfold decimalDigits
    split
    · rename_i hlt
      simp [digitsValue, digitByte_toNat _ hlt]
    · have hdiv : n / 10 < 10 ^ fuel := by
        rw [pow_succ] at h
        exact Nat.div_lt_of_lt_mul (by rw [Nat.mul_comm]; exact h)
      rw [digitsValue_append, ih _ hdiv, digitByte_toNat _ (Nat.mod_lt _ (by decide))]
      omega

theorem lt_ten_pow_succ (n : Nat) : n < 10 ^ (n + 1) := by
  induction n with
  | zero => decide
  | succ n ih => rw [pow_succ]; omega

theorem formatNat_value (n : Nat) : digitsValue (formatNat n) = n :=
  decimalDigits_value _ _ (lt_ten_pow_succ n)

theorem formatNat_inj (n m : Nat) (h : formatNat n = formatNat m) : n = m := by
  have := congrArg digitsValue h
  rwa [formatNat_value, formatNat_value] at this

theorem formatNat_digit (n : Nat) : ∀ b ∈ formatNat n, 48 ≤ b.toNat ∧ b.toNat ≤ 57 :=
  decimalDigits_digit _ _

theorem formatNat_ne_nil (n : Nat) : formatNat n ≠ [] := by
  unfold formatNat decimalDigits
  split <;> simp

/-- The decimal rendering of an integer determines the integer. -/
theorem formatInt_inj (i j : Int) (h : formatInt i = formatInt j) : i = j := by
  have hminus : ∀ n m : Nat, formatNat n ≠ 45 :: formatNat m := by
    intro n m heq
    have hd := formatNat_digit n 45 (by rw [heq]; simp)
    have : (45 : UInt8).toNat = 45 := rfl
    omega
  cases i with
  | ofNat n =>
    cases j with
    | ofNat m => rw [formatNat_inj n m h]
    | negSucc m => exact absurd h (hminus _ _)
  | negSucc n =>
    cases j with
    | ofNat m => exact absurd h.symm (hminus _ _)
    | negSucc m =>
      have h2 : formatNat (n + 1) = formatNat (m + 1) := by
        simpa [formatInt] using h
      have := formatNat_inj _ _ h2
      have hnm : n = m := by omega
      rw [hnm]

/-- The decimal rendering of an integer is made of digits and the minus
sign. -/
theorem formatInt_bytes (i : Int) : ∀ b ∈ formatInt i, b = 45 ∨ (48 ≤ b.toNat ∧ b.toNat ≤ 57) := by
  intro b hb
  cases i with
  | ofNat n => exact Or.inr (formatNat_digit n b hb)
  | negSucc n =>
    simp only [formatInt, List.mem_cons] at hb
    rcases hb with hb | hb
    · exact Or.inl hb
    · exact Or.inr (formatNat_digit _ b hb)

namespace url

set_option maxRecDepth 100000 in
theorem unreserved_not_marker :
    ∀ c : UInt8, shouldEscape c = false → c ≠ 37 ∧ c ≠ 43 ∧ c ≠ 38 :=
  forall_byte _ (by decide)

set_option maxRecDepth 100000 in
theorem escapeByte_no_amp : ∀ c : UInt8, (38 : UInt8) ∉ escapeByte c :=
  forall_byte _ (by decide)

theorem upperhex_inj : ∀ a, a < 16 → ∀ b, b < 16 → upperhex a = upperhex b → a = b := by
  decide

theorem byte_of_nibbles (c d : UInt8) (h1 : c.toNat / 16 = d.toNat / 16)
    (h2 : c.toNat % 16 = d.toNat % 16) : c = d := by
  apply UInt8.ext
  omega

/-- The three shapes of the escape of a byte. -/
theorem escapeByte_cases (c : UInt8) :
    (shouldEscape c = false ∧ escapeByte c = [c]) ∨
    (escapeByte c = [43]) ∨
    (escapeByte c = [37, upperhex (c.toNat / 16), upperhex (c.toNat % 16)]) := by
  unfold escapeByte
  by_cases hc : shouldEscape c = true
  · by_cases hc2 : c = 32
    · right; left; subst hc2; decide
    · right; right; simp [hc, hc2]
  · left
    have hcf : shouldEscape c = false := by simpa using hc
    simp [hcf]

set_option maxRecDepth 100000 in
theorem escapeByte_plus : ∀ c : UInt8, escapeByte c = [43] → c = 32 :=
  forall_byte _ (by decide)

/-- The escape of a byte can be read back from the front of a string. -/
theorem escapeByte_cancel (c d : UInt8) (r r' : GoString)
    (h : escapeByte c ++ r = escapeByte d ++ r') : c = d ∧ r = r' := by
  have hcl := UInt8.toNat_lt c
  have hdl := UInt8.toNat_lt d
  rcases escapeByte_cases c with ⟨hcf, hc⟩ | hc | hc <;>
    rcases escapeByte_cases d with ⟨hdf, hd⟩ | hd | hd
  · rw [hc, hd] at h
    simpa using h
  · rw [hc, hd] at h
    have h1 : c = 43 := by simpa using (List.cons.inj h).1
    exact absurd h1 (unreserved_not_marker c hcf).2.1
  · rw [hc, hd] at h
    have h1 : c = 37 := by simpa using (List.cons.inj h).1
    exact absurd h1 (unreserved_not_marker c hcf).1
  · rw [hc, hd] at h
    have h1 : d = 43 := by simpa using (List.cons.inj h).1.symm
    exact absurd h1 (unreserved_not_marker d hdf).2.1
  · have h1 := escapeByte_plus c hc
    have h2 := escapeByte_plus d hd
    rw [hc, hd] at h
    exact ⟨by rw [h1, h2], by simpa using h⟩
  · rw [hc, hd] at h
    have h1 := (List.cons.inj h).1
    exact absurd h1 (by decide)
  · rw [hc, hd] at h
    have h1 : d = 37 := by simpa using (List.cons.inj h).1.symm
    exact absurd h1 (unreserved_not_marker d hdf).1
  · rw [hc, hd] at h
    have h1 := (List.cons.inj h).1
    exact absurd h1 (by decide)
  · rw [hc, hd] at h
    simp only [List.cons_append, List.nil_append, List.cons.injEq, true_and] at h
    obtain ⟨h1, h2, h3⟩ := h
    exact ⟨byte_of_nibbles c d
      (upperhex_inj _ (by omega) _ (by omega) h1)
      (upperhex_inj _ (Nat.mod_lt _ (by decide)) _ (Nat.mod_lt _ (by decide)) h2), h3⟩

theorem escapeByte_ne_nil (c : UInt8) : escapeByte c ≠ [] := by
  rcases escapeByte_cases c with ⟨_, h⟩ | h | h <;> rw [h] <;> simp

/-- `url.QueryEscape` is injective. -/
theorem QueryEscape_inj (s t : GoString) (h : QueryEscape s = QueryEscape t) : s = t := by
  induction s generalizing t with
  | nil =>
    cases t with
    | nil => rfl
    | cons d t =>
      simp only [QueryEscape, List.flatMap_nil, List.flatMap_cons] at h
      have := escapeByte_ne_nil d
      cases hd : escapeByte d with
      | nil => exact absurd hd this
      | cons x xs => rw [hd] at h; simp at h
  | cons c s ih =>
    cases t with
    | nil =>
      simp only [QueryEscape, List.flatMap_nil, List.flatMap_cons] at h
      have := escapeByte_ne_nil c
      cases hc : escapeByte c with
      | nil => exact absurd hc this
      | cons x xs => rw [hc] at h; simp at h
    | cons d t =>
      simp only [QueryEscape, List.flatMap_cons] at h
      obtain ⟨h1, h2⟩ := escapeByte_cancel c d _ _ h
      rw [h1, ih t h2]

/-- No `&` appears in the output of `url.QueryEscape`. -/
theorem QueryEscape_no_amp (s : GoString) : (38 : UInt8) ∉ QueryEscape s := by
  intro h
  simp only [QueryEscape, List.mem_flatMap] at h
  obtain ⟨c, _, hc⟩ := h
  exact escapeByte_no_amp c hc

end url

/-! ## Cache keys are injective (C15, C16) -/

namespace usecase

theorem split_at_amp (a b x y : GoString) (ha : (38 : UInt8) ∉ a) (hb : (38 : UInt8) ∉ b)
    (h : a ++ 38 :: x = b ++ 38 :: y) : a = b ∧ x = y := by
  induction a generalizing b with
  | nil =>
    cases b with
    | nil => simpa using h
    | cons d b =>
      simp only [List.nil_append, List.cons_append, List.cons.injEq] at h
      exact absurd (by rw [h.1]; simp) hb
  | cons c a ih =>
    cases b with
    | nil =>
      simp only [List.nil_append, List.cons_append, List.cons.injEq] at h
      exact absurd (by rw [← h.1]; simp) ha
    | cons d b =>
      simp only [List.cons_append, List.cons.injEq] at h
      obtain ⟨h1, h2⟩ := ih b (fun hm => ha (List.mem_cons_of_mem _ hm))
        (fun hm => hb (List.mem_cons_of_mem _ hm)) h.2
      exact ⟨by rw [h.1, h1], h2⟩

theorem formatInt_no_amp (i : Int) : (38 : UInt8) ∉ formatInt i := by
  intro h
  rcases formatInt_bytes i 38 h with h1 | h1
  · exact absurd h1 (by decide)
  · have : (38 : UInt8).toNat = 38 := rfl
    omega

set_option maxRecDepth 100000 in
theorem escapeByte_decimal :
    ∀ c : UInt8, (c = 45 ∨ (48 ≤ c.toNat ∧ c.toNat ≤ 57)) → url.escapeByte c = [c] :=
  forall_byte _ (by decide)

/-- Escaping leaves a decimal rendering as it is. -/
theorem QueryEscape_formatInt (i : Int) : url.QueryEscape (formatInt i) = formatInt i := by
  have h := formatInt_bytes i
  generalize formatInt i = s at h
  induction s with
  | nil => rfl
  | cons c s ih =>
    simp only [url.QueryEscape, List.flatMap_cons] at ih ⊢
    rw [escapeByte_decimal c (h c (List.mem_cons_self _ _)),
      ih (fun b hb => h b (List.mem_cons_of_mem _ hb))]
    rfl

theorem detailKey_eq (id : Int) : detailKey id = str "products:detail:" ++ formatInt id := by
  have h : constant.RedisKeyProductDetail ++ str ":" = str "products:detail:" := by decide
  simp only [detailKey, h]

theorem listKey_eq (f : request.ProductFilter) :
    listKey f = str "products:list:Limit=" ++ (formatInt f.Limit ++ (38 :: (str "Page=" ++
      (formatInt f.Page ++ (38 :: (str "Search=" ++ (url.QueryEscape f.Search ++
        (38 :: (str "Sort=" ++ url.QueryEscape f.Sort_))))))))) := by
  have hsort : url.sortByKey (query.Values f)
      = [(str "Limit", [formatInt f.Limit]), (str "Page", [formatInt f.Page]),
         (str "Search", [f.Search]), (str "Sort", [f.Sort_])] := by
    simp only [query.Values, url.sortByKey, url.insertByKey]
    rfl
  have hk1 : url.QueryEscape (str "Limit") = str "Limit" := by decide
  have hk2 : url.QueryEscape (str "Page") = str "Page" := by decide
  have hk3 : url.QueryEscape (str "Search") = str "Search" := by decide
  have hk4 : url.QueryEscape (str "Sort") = str "Sort" := by decide
  have hp : constant.RedisKeyProductList ++ str ":" ++ str "Limit" ++ str "="
      = str "products:list:Limit=" := by decide
  have ha : str "&" = [38] := by decide
  have hq1 : str "Page" ++ str "=" = str "Page=" := by decide
  have hq2 : str "Search" ++ str "=" = str "Search=" := by decide
  have hq3 : str "Sort" ++ str "=" = str "Sort=" := by decide
  simp only [listKey, url.Values.Encode, hsort, List.flatMap_cons, List.flatMap_nil,
    url.encodeBinding, List.map_cons, List.map_nil, List.append_nil, List.cons_append,
    List.nil_append, url.joinAmp, hk1, hk2, hk3, hk4, ha, List.singleton_append,
    QueryEscape_formatInt]
  rw [← hp, ← hq1, ← hq2, ← hq3]
  simp only [List.append_assoc, List.cons_append, List.nil_append, List.singleton_append]

/-- C16: the detail key is `products:detail:` followed by the decimal rendering
of the id, and two ids give the same key exactly when they are equal,
negative ids included. -/
theorem C16_detail_key_injective :
    (∀ id : Int, detailKey id = str "products:detail:" ++ formatInt id) ∧
    (∀ id₁ id₂ : Int, detailKey id₁ = detailKey id₂ ↔ id₁ = id₂) ∧
    detailKey 42 = str "products:detail:42" ∧
    detailKey (-7) = str "products:detail:-7" ∧
    detailKey (-9223372036854775808) = str "products:detail:-9223372036854775808" := by
  refine ⟨detailKey_eq, ?_, by decide, by decide, by decide⟩
  intro id₁ id₂
  constructor
  · intro h
    rw [detailKey_eq, detailKey_eq] at h
    exact formatInt_inj _ _ (List.append_cancel_left h)
  · intro h
    rw [h]

/-- C15: the list key is `products:list:` followed by the encoding
`Limit=..&Page=..&Search=..&Sort=..` of the four fields, in key order, zero
values included, with search and sort URL-escaped; two filters give the same
key exactly when they agree on search, sort, page and limit.  For example
the search `a&Sort=b` with an empty sort and the search `a` with the sort
`b` have different keys. -/
theorem C15_list_key_injective :
    (∀ f : request.ProductFilter,
      listKey f = str "products:list:" ++ str "Limit=" ++ formatInt f.Limit
        ++ str "&Page=" ++ formatInt f.Page
        ++ str "&Search=" ++ url.QueryEscape f.Search
        ++ str "&Sort=" ++ url.QueryEscape f.Sort_) ∧
    (∀ f g : request.ProductFilter, listKey f = listKey g ↔ f = g) ∧
    listKey { Search := str "a&Sort=b", Sort_ := str "", Page := 0, Limit := 0 }
      = str "products:list:Limit=0&Page=0&Search=a%26Sort%3Db&Sort=" ∧
    listKey { Search := str "a", Sort_ := str "b", Page := 0, Limit := 0 }
      = str "products:list:Limit=0&Page=0&Search=a&Sort=b" := by
  refine ⟨?_, ?_, by decide, by decide⟩
  · intro f
    have h0 : str "products:list:" ++ str "Limit=" = str "products:list:Limit=" := by decide
    have h1 : str "&Page=" = 38 :: str "Page=" := by decide
    have h2 : str "&Search=" = 38 :: str "Search=" := by decide
    have h3 : str "&Sort=" = 38 :: str "Sort=" := by decide
    rw [listKey_eq, h0, h1, h2, h3]
    simp only [List.append_assoc, List.cons_append]
  · intro f g
    constructor
    · intro h
      rw [listKey_eq, listKey_eq] at h
      have h := List.append_cancel_left h
      obtain ⟨hl, h⟩ := split_at_amp _ _ _ _ (formatInt_no_amp _) (formatInt_no_amp _) h
      have h := List.append_cancel_left h
      obtain ⟨hp, h⟩ := split_at_amp _ _ _ _ (formatInt_no_amp _) (formatInt_no_amp _) h
      have h := List.append_cancel_left h
      obtain ⟨hs, h⟩ := split_at_amp _ _ _ _ (url.QueryEscape_no_amp _)
        (url.QueryEscape_no_amp _) h
      have h := List.append_cancel_left h
      have e1 := formatInt_inj _ _ hl
      have e2 := formatInt_inj _ _ hp
      have e3 := url.QueryEscape_inj _ _ hs
      have e4 := url.QueryEscape_inj _ _ h
      cases f
      cases g
      simp only at e1 e2 e3 e4
      subst e1 e2 e3 e4
      rfl
    · intro h
      rw [h]

end usecase

/-! ## The store gateway: sort order, paging and failures (C18, C19, C20) -/

namespace trace

theorem recordDB_Count {σ : Type} (db : gorm.DB σ) (s : gorm.Statement) (w : σ)
    (log : List Query) :
    (recordDB db).Count s (w, log)
      = ((db.Count s w).1, ((db.Count s w).2, log ++ [Query.Count s])) := rfl

theorem recordDB_Find {σ : Type} (db : gorm.DB σ) (s : gorm.Statement) (w : σ)
    (log : List Query) :
    (recordDB db).Find s (w, log)
      = ((db.Find s w).1, ((db.Find s w).2, log ++ [Query.Find s])) := rfl

end trace

namespace repository

open trace

/-- C20: `Fetch` returns no partial result.  When the count fails with `e` it
returns nil rows, total 0 and `e`, and the count is the only query run; when
the count succeeds and the row query fails with `e` it returns nil rows,
total 0 and `e`, whatever the count was; when both succeed it returns the
rows and the counted total with a nil error. -/
theorem C20_fetch_all_or_nothing {σ : Type} (db : gorm.DB σ)
    (filter : request.ProductFilter) (w : σ) :
    (∀ (total : Int) (e : GoError) (w₁ : σ),
      db.Count (countQuery filter) w = ((total, some e), w₁) →
      (NewProductRepository (recordDB db)).Fetch filter (w, [])
        = (([], 0, some e), (w₁, [Query.Count (countQuery filter)]))) ∧
    (∀ (total : Int) (rows : List entity.Product) (e : GoError) (w₁ w₂ : σ),
      db.Count (countQuery filter) w = ((total, none), w₁) →
      db.Find (rowsQuery filter) w₁ = ((rows, some e), w₂) →
      (NewProductRepository (recordDB db)).Fetch filter (w, [])
        = (([], 0, some e),
           (w₂, [Query.Count (countQuery filter), Query.Find (rowsQuery filter)]))) ∧
    (∀ (total : Int) (rows : List entity.Product) (w₁ w₂ : σ),
      db.Count (countQuery filter) w = ((total, none), w₁) →
      db.Find (rowsQuery filter) w₁ = ((rows, none), w₂) →
      (NewProductRepository (recordDB db)).Fetch filter (w, [])
        = ((rows, total, none),
           (w₂, [Query.Count (countQuery filter), Query.Find (rowsQuery filter)]))) := by
  refine ⟨?_, ?_, ?_⟩
  · intro total e w₁ hc
    simp [NewProductRepository, productRepository.Fetch, recordDB_Count, hc]
  · intro total rows e w₁ w₂ hc hf
    simp [NewProductRepository, productRepository.Fetch, recordDB_Count, recordDB_Find, hc, hf]
  · intro total rows w₁ w₂ hc hf
    simp [NewProductRepository, productRepository.Fetch, recordDB_Count, recordDB_Find, hc, hf]

/-- Instance of C20: on a table of one row, a database whose count fails, one
whose row query fails, and one where both succeed. -/
theorem C20_fetch_all_or_nothing_witness :
    (NewProductRepository (recordDB (fixture.brokenDB true (GoError.other (str "conn done"))))).Fetch
        fixture.filter ([fixture.product 1 (str "LG TV")], [])
      = (([], 0, some (GoError.other (str "conn done"))),
         ([fixture.product 1 (str "LG TV")], [Query.Count (countQuery fixture.filter)])) ∧
    (NewProductRepository (recordDB (fixture.brokenDB false (GoError.other (str "conn done"))))).Fetch
        fixture.filter ([fixture.product 1 (str "LG TV")], [])
      = (([], 0, some (GoError.other (str "conn done"))),
         ([fixture.product 1 (str "LG TV")],
          [Query.Count (countQuery fixture.filter), Query.Find (rowsQuery fixture.filter)])) ∧
    (NewProductRepository (recordDB fixture.tableDB)).Fetch
        fixture.filter ([fixture.product 1 (str "LG TV")], [])
      = (([fixture.product 1 (str "LG TV")], 1, none),
         ([fixture.product 1 (str "LG TV")],
          [Query.Count (countQuery fixture.filter), Query.Find (rowsQuery fixture.filter)])) :=
  ⟨(C20_fetch_all_or_nothing (fixture.brokenDB true (GoError.other (str "conn done")))
      fixture.filter [fixture.product 1 (str "LG TV")]).1 0 _ _ (by decide),
   (C20_fetch_all_or_nothing (fixture.brokenDB false (GoError.other (str "conn done")))
      fixture.filter [fixture.product 1 (str "LG TV")]).2.1 1 [] _
      [fixture.product 1 (str "LG TV")] [fixture.product 1 (str "LG TV")]
      (by decide) (by decide),
   (C20_fetch_all_or_nothing fixture.tableDB
      fixture.filter [fixture.product 1 (str "LG TV")]).2.2 1 [fixture.product 1 (str "LG TV")]
      [fixture.product 1 (str "LG TV")] [fixture.product 1 (str "LG TV")]
      (by decide) (by decide)⟩

/-- The queries `Fetch` runs: the count, and after it the row query unless the
count failed. -/
theorem Fetch_queries {σ : Type} (db : gorm.DB σ) (filter : request.ProductFilter) (w : σ) :
    ((NewProductRepository (recordDB db)).Fetch filter (w, [])).2.2
        = [Query.Count (countQuery filter)] ∨
    ((NewProductRepository (recordDB db)).Fetch filter (w, [])).2.2
        = [Query.Count (countQuery filter), Query.Find (rowsQuery filter)] := by
  rcases hc : db.Count (countQuery filter) w with ⟨⟨total, cerr⟩, w₁⟩
  rcases hf : db.Find (rowsQuery filter) w₁ with ⟨⟨rows, ferr⟩, w₂⟩
  cases cerr <;> cases ferr <;>
    simp [NewProductRepository, productRepository.Fetch, recordDB_Count, recordDB_Find, hc, hf]

/-- C18: the order `Fetch` applies is a function of the sort string alone.  The
row query carries exactly one order, `orderClause filter.Sort`, which is
`created_at DESC` for `newest`, `price ASC` for `cheapest`, `price DESC` for
`expensive`, `name ASC` for `name asc`, `name DESC` for `name desc`, and for
every other string (the empty one, `Newest`, `NAME ASC`, `name  asc`, ...)
the order of `newest`.  The order is always one of five constants, and two
filters that differ only in sort strings with the same order give the same
row query: the sort string itself never reaches the query. -/
theorem C18_sort_order :
    (∀ filter : request.ProductFilter,
      (rowsQuery filter).orders = [orderClause filter.Sort_]) ∧
    (∀ (σ : Type) (db : gorm.DB σ) (filter : request.ProductFilter) (w : σ),
      ((NewProductRepository (recordDB db)).Fetch filter (w, [])).2.2
          = [Query.Count (countQuery filter)] ∨
      ((NewProductRepository (recordDB db)).Fetch filter (w, [])).2.2
          = [Query.Count (countQuery filter), Query.Find (rowsQuery filter)]) ∧
    orderClause (str "newest") = str "created_at DESC" ∧
    orderClause (str "cheapest") = str "price ASC" ∧
    orderClause (str "expensive") = str "price DESC" ∧
    orderClause (str "name asc") = str "name ASC" ∧
    orderClause (str "name desc") = str "name DESC" ∧
    (∀ sort : GoString,
      sort ≠ str "cheapest" → sort ≠ str "expensive" → sort ≠ str "name asc" →
      sort ≠ str "name desc" → orderClause sort = orderClause (str "newest")) ∧
    orderClause (str "") = orderClause (str "newest") ∧
    orderClause (str "Newest") = orderClause (str "newest") ∧
    orderClause (str "CHEAPEST") = orderClause (str "newest") ∧
    orderClause (str "name  asc") = orderClause (str "newest") ∧
    orderClause (str " expensive") = orderClause (str "newest") ∧
    orderClause (str "price; DROP TABLE products") = orderClause (str "newest") ∧
    (∀ sort : GoString,
      orderClause sort ∈ [str "created_at DESC", str "price ASC", str "price DESC",
        str "name ASC", str "name DESC"]) ∧
    (∀ (filter : request.ProductFilter) (sort : GoString),
      orderClause sort = orderClause filter.Sort_ →
      rowsQuery { filter with Sort_ := sort } = rowsQuery filter) := by
  refine ⟨fun _ => ?_, fun σ db filter w => Fetch_queries db filter w, by decide, by decide,
    by decide, by decide, by decide, ?_, by decide, by decide, by decide, by decide, by decide,
    by decide, ?_, ?_⟩
  · simp only [rowsQuery, countQuery, gorm.Statement.Limit, gorm.Statement.Offset,
      gorm.Statement.Order, gorm.Statement.Where, gorm.Model]
    split <;> rfl
  · intro sort h1 h2 h3 h4
    unfold orderClause
    simp only [h1, h2, h3, h4, if_false]
    split <;> decide
  · intro sort
    unfold orderClause
    split_ifs <;> decide
  · intro filter sort h
    simp only [rowsQuery, countQuery, h]

/-- Instance of C18: the sort `Cheapest`, which differs from `cheapest` in
case only, is read with the order of `newest`. -/
theorem C18_sort_order_witness :
    ((NewProductRepository (recordDB fixture.tableDB)).Fetch
        { fixture.filter with Sort_ := str "Cheapest" }
        ([fixture.product 1 (str "LG TV")], [])).2.2
      = [Query.Count (countQuery fixture.filter),
         Query.Find (rowsQuery { fixture.filter with Sort_ := str "newest" })] ∧
    (rowsQuery { fixture.filter with Sort_ := str "Cheapest" }).orders
      = [str "created_at DESC"] :=
  ⟨((C18_sort_order.2.1 _ fixture.tableDB { fixture.filter with Sort_ := str "Cheapest" }
        [fixture.product 1 (str "LG TV")]).resolve_left (by decide)).trans (by decide),
   (C18_sort_order.1 { fixture.filter with Sort_ := str "Cheapest" }).trans (by decide)⟩

/-- C19 as stated fails: page `2 ^ 62 + 1` and limit 2 are valid Go `int`s, both
at least 1, but `(page - 1) * limit` is `2 ^ 63` and wraps: the row query
`Fetch` runs carries the offset `-2 ^ 63`, which is negative and is not
`(page - 1) * limit`. -/
theorem C19_counterexample :
    1 ≤ fixture.farPageFilter.Page ∧ fixture.farPageFilter.Page < 2 ^ 63 ∧
    1 ≤ fixture.farPageFilter.Limit ∧ fixture.farPageFilter.Limit < 2 ^ 63 ∧
    ((NewProductRepository (recordDB fixture.tableDB)).Fetch fixture.farPageFilter
        ([fixture.product 1 (str "LG TV")], [])).2.2
      = [Query.Count (countQuery fixture.farPageFilter),
         Query.Find (rowsQuery fixture.farPageFilter)] ∧
    (rowsQuery fixture.farPageFilter).offset = some (-9223372036854775808) ∧
    (fixture.farPageFilter.Page - 1) * fixture.farPageFilter.Limit = 9223372036854775808 := by
  refine ⟨by decide, by decide, by decide, by decide, by decide, by decide, by decide⟩

/-- C19, amended: for every filter with page and limit at least 1 for which
`(page - 1) * limit` fits in a Go `int`, the row query of `Fetch` carries the
limit `limit` and the offset `(page - 1) * limit`, which is not negative; for
page 1 the offset is 0.  The row query is the one `Fetch` runs after a count
that succeeds. -/
theorem C19_offset_and_limit (filter : request.ProductFilter)
    (hpage : 1 ≤ filter.Page) (hlimit : 1 ≤ filter.Limit)
    (hfits : (filter.Page - 1) * filter.Limit < 2 ^ 63) :
    (rowsQuery filter).limit = some filter.Limit ∧
    (rowsQuery filter).offset = some ((filter.Page - 1) * filter.Limit) ∧
    0 ≤ (filter.Page - 1) * filter.Limit ∧
    (filter.Page = 1 → (rowsQuery filter).offset = some 0) ∧
    (∀ (σ : Type) (db : gorm.DB σ) (w : σ),
      (db.Count (countQuery filter) w).1.2 = none →
      ((NewProductRepository (recordDB db)).Fetch filter (w, [])).2.2
        = [Query.Count (countQuery filter), Query.Find (rowsQuery filter)]) := by
  have hnn : 0 ≤ (filter.Page - 1) * filter.Limit :=
    Int.mul_nonneg (by omega) (by omega)
  have hle : filter.Page - 1 ≤ (filter.Page - 1) * filter.Limit :=
    le_mul_of_one_le_right (by omega) hlimit
  have h63 : (2 : Int) ^ 63 = 9223372036854775808 := by norm_num
  have hw1 : wrapInt64 (filter.Page - 1) = filter.Page - 1 :=
    response.wrapInt64_of_fits _ ⟨by rw [h63]; omega, by omega⟩
  have hw2 : wrapInt64 ((filter.Page - 1) * filter.Limit) = (filter.Page - 1) * filter.Limit :=
    response.wrapInt64_of_fits _ ⟨by rw [h63]; omega, hfits⟩
  have hoff : (rowsQuery filter).offset = some ((filter.Page - 1) * filter.Limit) := by
    simp only [rowsQuery, gorm.Statement.Limit, gorm.Statement.Offset, hw1, hw2]
  refine ⟨?_, hoff, hnn, ?_, ?_⟩
  · simp only [rowsQuery, gorm.Statement.Limit]
  · intro h1
    rw [hoff, h1]
    simp
  · intro σ db w hc
    rcases hcount : db.Count (countQuery filter) w with ⟨⟨total, cerr⟩, w₁⟩
    rw [hcount] at hc
    simp only at hc
    subst hc
    rcases hf : db.Find (rowsQuery filter) w₁ with ⟨⟨rows, ferr⟩, w₂⟩
    cases ferr <;>
      simp [NewProductRepository, productRepository.Fetch, recordDB_Count, recordDB_Find,
        hcount, hf]

/-- Instance of C19 (amended): page 3 of 10 starts at offset 20. -/
theorem C19_offset_and_limit_witness :
    (rowsQuery { fixture.filter with Page := 3 }).limit = some 10 ∧
    (rowsQuery { fixture.filter with Page := 3 }).offset = some 20 :=
  ⟨(C19_offset_and_limit { fixture.filter with Page := 3 } (by decide) (by decide)
      (by decide)).1.trans (by decide),
   (C19_offset_and_limit { fixture.filter with Page := 3 } (by decide) (by decide)
      (by decide)).2.1.trans (by decide)⟩

end repository

namespace repository

/-- The store gateway returns nil rows and total 0 whenever `Fetch` returns an
error. -/
theorem Fetch_nil_on_error {σ : Type} (db : gorm.DB σ) (filter : request.ProductFilter)
    (w : σ) (h : ((NewProductRepository db).Fetch filter w).1.2.2 ≠ none) :
    ((NewProductRepository db).Fetch filter w).1.1 = [] ∧
    ((NewProductRepository db).Fetch filter w).1.2.1 = 0 := by
  rcases hc : db.Count (countQuery filter) w with ⟨⟨total, cerr⟩, w₁⟩
  rcases hf : db.Find (rowsQuery filter) w₁ with ⟨⟨rows, ferr⟩, w₂⟩
  cases cerr <;> cases ferr <;>
    simp_all [NewProductRepository, productRepository.Fetch]

/-- The store gateway returns a nil product whenever `GetByID` returns an
error. -/
theorem GetByID_nil_on_error {σ : Type} (db : gorm.DB σ) (id : Int) (w : σ)
    (h : ((NewProductRepository db).GetByID id w).1.2 ≠ none) :
    ((NewProductRepository db).GetByID id w).1.1 = none := by
  rcases hq : db.First id w with ⟨⟨p, err⟩, w₁⟩
  cases err with
  | none => simp [NewProductRepository, productRepository.GetByID, hq] at h
  | some e =>
    by_cases he : e = GoError.gormErrRecordNotFound <;>
      simp [NewProductRepository, productRepository.GetByID, hq, he]

end repository

/-! ## The store gateway's lookup by identifier (C21) -/

namespace repository

/-- C21: `GetByID` runs one `First`.  When `First` reports
`gorm.ErrRecordNotFound` the result is a nil product with
`constant.ErrNotFound`; every other error of `First` is returned as it is with
a nil product; without an error the row is returned with a nil error.  So the
result is a nil product with `constant.ErrNotFound` exactly when `First`
reported that no row matches, or, returned as it is, the error
`constant.ErrNotFound` itself (which the library never produces). -/
theorem C21_get_by_id_outcomes {σ : Type} (db : gorm.DB σ) (id : Int) (w : σ) :
    ((db.First id w).1.2 = some GoError.gormErrRecordNotFound →
      (NewProductRepository db).GetByID id w
        = ((none, some GoError.ErrNotFound), (db.First id w).2)) ∧
    (∀ e, (db.First id w).1.2 = some e → e ≠ GoError.gormErrRecordNotFound →
      (NewProductRepository db).GetByID id w = ((none, some e), (db.First id w).2)) ∧
    ((db.First id w).1.2 = none →
      (NewProductRepository db).GetByID id w
        = ((some (db.First id w).1.1, none), (db.First id w).2)) ∧
    (((NewProductRepository db).GetByID id w).1
        = (none, some GoError.ErrNotFound)
      ↔ (db.First id w).1.2 = some GoError.gormErrRecordNotFound ∨
        (db.First id w).1.2 = some GoError.ErrNotFound) := by
  rcases hq : db.First id w with ⟨⟨p, err⟩, w₁⟩
  cases err with
  | none => simp [NewProductRepository, productRepository.GetByID, hq]
  | some e =>
    by_cases he : e = GoError.gormErrRecordNotFound
    · simp [NewProductRepository, productRepository.GetByID, hq, he]
    · simp [NewProductRepository, productRepository.GetByID, hq, he]

/-- Instance of C21: the table holds the row 1; the lookup of id 2 reports
that no row matches, and the gateway answers with `constant.ErrNotFound`. -/
theorem C21_get_by_id_outcomes_witness :
    (NewProductRepository fixture.tableDB).GetByID 2 [fixture.product 1 (str "LG TV")]
      = ((none, some GoError.ErrNotFound), [fixture.product 1 (str "LG TV")]) :=
  (C21_get_by_id_outcomes fixture.tableDB 2 [fixture.product 1 (str "LG TV")]).1 (by decide)

end repository

/-! ## The product handed to the store (C26) -/

namespace usecase

open trace in
/-- C26: the first call `CreateProduct` makes is the store's `Create`, with a
product that has the request's name, price, description, quantity and
creator, identifier 0, empty update and delete actors, a zero delete time, and
the two readings of the clock as creation and update times; the store is
given no other product. -/
theorem C26_created_product_fields {ω : Type} (u : productUsecase ω)
    (createdAt updatedAt : Time) (req : request.Product) (w : ω) :
    (∃ rest, ((record u).CreateProduct createdAt updatedAt req (w, [])).2.2
        = Call.repoCreate (newProduct createdAt updatedAt req) :: rest ∧
      ∀ c ∈ rest, c = Call.redisDelete (str "products*")) ∧
    (newProduct createdAt updatedAt req).Name = req.Name ∧
    (newProduct createdAt updatedAt req).Price = req.Price ∧
    (newProduct createdAt updatedAt req).Description = req.Description ∧
    (newProduct createdAt updatedAt req).Quantity = req.Quantity ∧
    (newProduct createdAt updatedAt req).CreatedBy = req.CreatedBy ∧
    (newProduct createdAt updatedAt req).ID = 0 ∧
    (newProduct createdAt updatedAt req).UpdatedBy = [] ∧
    (newProduct createdAt updatedAt req).DeletedBy = [] ∧
    (newProduct createdAt updatedAt req).DeletedAt = Time.zero ∧
    (newProduct createdAt updatedAt req).CreatedAt = createdAt ∧
    (newProduct createdAt updatedAt req).UpdatedAt = updatedAt := by
  refine ⟨?_, rfl, rfl, rfl, rfl, rfl, rfl, rfl, rfl, rfl, rfl, rfl⟩
  rcases hc : u.repo.Create (newProduct createdAt updatedAt req) w with ⟨e, w₁⟩
  cases e <;> simp [productUsecase.CreateProduct, record_Create, record_Delete, hc]

end usecase

/-! ## Pagination and the offset of the next page (C29) -/

namespace response

/-- C29: for `page ≥ 1`, `limit ≥ 1`, `total ≥ 0` and `page * limit` a Go
`int`: the offset of the rows query for the page after `page` is
`page * limit`, the offset for `page` is `(page - 1) * limit`;
`StandardPagination` reports a next page exactly when `page * limit < total`,
which is exactly when the slice of a table of `total` rows that the rows
query of the following page selects is not empty; and it reports a previous
page exactly when `(page - 1) * limit > 0`. -/
theorem C29_pagination_agrees_with_offset (filter : request.ProductFilter)
    (page limit total : Int) (hp : 1 ≤ page) (hl : 1 ≤ limit) (_ht : 0 ≤ total)
    (hfit : page * limit < 2 ^ 63) :
    (repository.rowsQuery { filter with Page := wrapInt64 (page + 1), Limit := limit }).offset
      = some (page * limit) ∧
    (repository.rowsQuery { filter with Page := page, Limit := limit }).offset
      = some ((page - 1) * limit) ∧
    ((StandardPagination page limit total).NextPage = true ↔ page * limit < total) ∧
    (∀ rows : List entity.Product, (rows.length : Int) = total →
      ((StandardPagination page limit total).NextPage = true ↔
        (fixture.tableDB.Find
          (repository.rowsQuery { filter with Page := wrapInt64 (page + 1), Limit := limit })
          rows).1.1 ≠ [])) ∧
    ((StandardPagination page limit total).PrevPage = true ↔ (page - 1) * limit > 0) := by
  have h63 : (2 : Int) ^ 63 = 9223372036854775808 := by norm_num
  have h64 : (2 : Int) ^ 64 = 18446744073709551616 := by norm_num
  rw [h63] at hfit
  have hpos : 0 < page * limit := by positivity
  have hpl : page ≤ page * limit := by nlinarith
  have hprev : 0 ≤ (page - 1) * limit := by nlinarith
  have hprevle : (page - 1) * limit ≤ page * limit := by nlinarith
  have hw1 : wrapInt64 (wrapInt64 (page + 1) - 1) = page := by
    unfold wrapInt64
    rw [h63, h64]
    omega
  have hw2 : wrapInt64 (page * limit) = page * limit :=
    wrapInt64_of_fits _ (by rw [h63]; constructor <;> omega)
  have hw3 : wrapInt64 (page - 1) = page - 1 :=
    wrapInt64_of_fits _ (by rw [h63]; constructor <;> omega)
  have hw4 : wrapInt64 ((page - 1) * limit) = (page - 1) * limit :=
    wrapInt64_of_fits _ (by rw [h63]; constructor <;> omega)
  have hoff : (repository.rowsQuery
      { filter with Page := wrapInt64 (page + 1), Limit := limit }).offset
      = some (page * limit) := by
    simp [repository.rowsQuery, gorm.Statement.Offset, gorm.Statement.Limit, hw1, hw2]
  have hlim : (repository.rowsQuery
      { filter with Page := wrapInt64 (page + 1), Limit := limit }).limit = some limit := by
    simp [repository.rowsQuery, gorm.Statement.Limit]
  have hnext : (StandardPagination page limit total).NextPage = true ↔ page * limit < total := by
    simp [StandardPagination, hw2]
  refine ⟨hoff, ?_, hnext, ?_, ?_⟩
  · simp [repository.rowsQuery, gorm.Statement.Offset, gorm.Statement.Limit, hw3, hw4]
  · intro rows hlen
    rw [hnext]
    simp only [fixture.tableDB, hoff, hlim, Option.getD_some]
    rw [Ne, List.take_eq_nil_iff, List.drop_eq_nil_iff]
    constructor
    · intro h
      rintro (h0 | h1) <;> omega
    · intro h
      by_contra hc
      exact h (Or.inr (by omega))
  · simp only [StandardPagination, decide_eq_true_eq]
    constructor
    · intro h
      have : 0 < page - 1 := by omega
      positivity
    · intro h
      by_contra hc
      have : page = 1 := by omega
      subst this
      simp at h

/-- Instance of C29: page 2 of 10 over 25 rows has a next page (offset 20 is
below 25) and a previous page (offset 10 is above 0). -/
theorem C29_pagination_agrees_with_offset_witness :
    (StandardPagination 2 10 25).NextPage = true ∧
    (StandardPagination 2 10 25).PrevPage = true :=
  ⟨(C29_pagination_agrees_with_offset fixture.filter 2 10 25 (by decide) (by decide)
      (by decide) (by decide)).2.2.1.mpr (by decide),
   by decide⟩

end response

/-! ## Every cache key falls under the invalidation pattern (C28) -/

namespace usecase

/-- The detail key begins with `products`. -/
theorem detailKey_products (id : Int) :
    detailKey id = str "products" ++ (str ":detail:" ++ formatInt id) := by
  have h : constant.RedisKeyProductDetail ++ str ":" = str "products" ++ str ":detail:" := by
    decide
  simp only [detailKey, h, List.append_assoc]

open trace in
/-- C28: for every id and every list filter, the detail key and the list key
begin with `products` and match the pattern `products*`; these are the only
keys `GetProductByID` and `ListProducts` pass to the cache; the pattern
contains `*`, so `Delete` runs the pattern deletion; and after a
`CreateProduct` that returned success and whose `Delete` returned no error,
the in-memory cache holds no entry under any detail key nor under any list
key. -/
theorem C28_keys_match_invalidation_pattern {σ : Type}
    (store : interfaces.ProductRepository σ) (json : EncodingJSON)
    (createdAt updatedAt : Time) (req : request.Product)
    (id : Int) (filter : request.ProductFilter) (s : σ) (srv : redis.Server) :
    str "products" <+: detailKey id ∧
    str "products" <+: listKey filter ∧
    redis.globMatch (str "products*") (detailKey id) = true ∧
    redis.globMatch (str "products*") (listKey filter) = true ∧
    (∀ key, (Call.redisGet key ∈
          ((record (app.productUsecase store redis.memoryClient)).GetProductByID json id
            ((s, srv), [])).2.2 ∨
        ∃ value expiration, Call.redisSet key value expiration ∈
          ((record (app.productUsecase store redis.memoryClient)).GetProductByID json id
            ((s, srv), [])).2.2) → key = detailKey id) ∧
    (∀ key, (Call.redisGet key ∈
          ((record (app.productUsecase store redis.memoryClient)).ListProducts json filter
            ((s, srv), [])).2.2 ∨
        ∃ value expiration, Call.redisSet key value expiration ∈
          ((record (app.productUsecase store redis.memoryClient)).ListProducts json filter
            ((s, srv), [])).2.2) → key = listKey filter) ∧
    repository.containsStar (str "products*") = true ∧
    (repository.NewRedisRepository redis.memoryClient).Delete (str "products*") srv
      = repository.redisRepository.deleteByPatternInternal ⟨redis.memoryClient⟩
          (str "products*") srv ∧
    (((app.productUsecase store redis.memoryClient).CreateProduct
          createdAt updatedAt req (s, srv)).1 = none →
      ((repository.NewRedisRepository redis.memoryClient).Delete
          (str "products*") srv).1 = none →
      (((app.productUsecase store redis.memoryClient).CreateProduct
          createdAt updatedAt req (s, srv)).2.2.lookup (detailKey id) = none ∧
       ((app.productUsecase store redis.memoryClient).CreateProduct
          createdAt updatedAt req (s, srv)).2.2.lookup (listKey filter) = none)) := by
  have hstar : repository.containsStar (str "products*") = true := by decide
  have hmd : redis.globMatch (str "products*") (detailKey id) = true := by
    rw [detailKey_products]; exact redis.globMatch_products _
  have hml : redis.globMatch (str "products*") (listKey filter) = true := by
    rw [listKey_products]; exact redis.globMatch_products _
  refine ⟨?_, ?_, hmd, hml, ?_, ?_, hstar, ?_, ?_⟩
  · rw [detailKey_products]; exact List.prefix_append _ _
  · rw [listKey_products]; exact List.prefix_append _ _
  · generalize app.productUsecase store redis.memoryClient = u
    intro key
    rcases hg : u.redisRepo.Get (detailKey id) (s, srv) with ⟨⟨val, err⟩, w₁⟩
    rcases hs : u.repo.GetByID id w₁ with ⟨⟨p, e⟩, w₂⟩
    cases err <;> cases hj : json.UnmarshalProduct val <;> cases e <;>
      simp [productUsecase.GetProductByID, record_Get, record_GetByID, record_Set, hg, hs, hj]
  · generalize app.productUsecase store redis.memoryClient = u
    intro key
    rcases hg : u.redisRepo.Get (listKey filter) (s, srv) with ⟨⟨val, err⟩, w₁⟩
    rcases hs : u.repo.Fetch filter w₁ with ⟨⟨rows, total, e⟩, w₂⟩
    by_cases hlen : 0 < rows.length <;>
    cases err <;> cases hj : json.UnmarshalFetchResult val <;> cases e <;>
      simp [productUsecase.ListProducts, record_Get, record_Fetch, record_Set, hg, hs, hj, hlen]
  · simp [repository.NewRedisRepository, repository.redisRepository.Delete, hstar]
  · intro hcreate hdelete
    rcases hc : store.Create (newProduct createdAt updatedAt req) s with ⟨cerr, s₁⟩
    have hcerr : cerr = none := by
      cases cerr with
      | none => rfl
      | some e =>
        simp [productUsecase.CreateProduct, app.productUsecase, NewProductUsecase, app.onStore,
          hc] at hcreate
    subst hcerr
    rcases hd : (repository.NewRedisRepository redis.memoryClient).Delete (str "products*") srv
      with ⟨derr, srv₁⟩
    rw [hd] at hdelete
    simp only at hdelete
    subst hdelete
    have hw : ((app.productUsecase store redis.memoryClient).CreateProduct
        createdAt updatedAt req (s, srv)).2 = (s₁, srv₁) := by
      simp [productUsecase.CreateProduct, app.productUsecase, NewProductUsecase, app.onStore,
        app.onCache, hc, hd]
    rw [hw]
    have hd2 : repository.redisRepository.deleteByPatternInternal ⟨redis.memoryClient⟩
        (str "products*") srv = (none, srv₁) := by
      simpa [repository.NewRedisRepository, repository.redisRepository.Delete, hstar] using hd
    exact ⟨repository.deleteByPattern_memory _ _ _ hd2 _ hmd,
      repository.deleteByPattern_memory _ _ _ hd2 _ hml⟩

/-- Instance of C28: the cache holds the detail entry of id 1 and the list
entry of the fixture filter; after a create both keys are absent. -/
theorem C28_keys_match_invalidation_pattern_witness :
    ((app.productUsecase fixture.tableStore redis.memoryClient).CreateProduct
        Time.zero Time.zero fixture.createRequest
        ([], fixture.serverWith [detailKey 1, listKey fixture.filter])).2.2.lookup
          (detailKey 1) = none ∧
    ((app.productUsecase fixture.tableStore redis.memoryClient).CreateProduct
        Time.zero Time.zero fixture.createRequest
        ([], fixture.serverWith [detailKey 1, listKey fixture.filter])).2.2.lookup
          (listKey fixture.filter) = none :=
  (C28_keys_match_invalidation_pattern fixture.tableStore fixture.json Time.zero Time.zero
    fixture.createRequest 1 fixture.filter []
    (fixture.serverWith [detailKey 1, listKey fixture.filter])).2.2.2.2.2.2.2.2
    (by decide) (by decide)

end usecase

/-! ## Facts about `strconv.ParseInt` and `strconv.Atoi` -/

namespace strconv

set_option maxRecDepth 100000 in
/-- A decimal digit is no sign, and the byte arithmetic of `Atoi` gives its
value. -/
theorem digit_byte : ∀ c : UInt8, 48 ≤ c ∧ c ≤ 57 →
    c ≠ 43 ∧ c ≠ 45 ∧ (c.toNat + 256 - 48) % 256 = c.toNat - 48 ∧ c.toNat - 48 ≤ 9 :=
  forall_byte _ (by decide)

set_option maxRecDepth 100000 in
/-- A byte that is no decimal digit is rejected by the byte arithmetic of
`Atoi`. -/
theorem nondigit_byte : ∀ c : UInt8, ¬ (48 ≤ c ∧ c ≤ 57) → (c.toNat + 256 - 48) % 256 > 9 :=
  forall_byte _ (by decide)

/-- The number read by the loop never decreases. -/
theorem foldl_digits_ge (ds : GoString) (n : Nat) :
    n ≤ ds.foldl (fun acc b => acc * 10 + (b.toNat - 48)) n := by
  induction ds generalizing n with
  | nil => simp
  | cons c rest ih =>
    rw [List.foldl_cons]
    exact le_trans (by omega) (ih _)

/-- On a string of decimal digits the loop of `ParseUint` computes the number,
or stops with a range error when the number exceeds the largest `uint64`. -/
theorem parseUintLoop_digits (ds : GoString) (n : Nat) (hn : n ≤ maxUint64)
    (hds : ∀ c ∈ ds, 48 ≤ c ∧ c ≤ 57) :
    parseUintLoop ds n
      = if ds.foldl (fun acc b => acc * 10 + (b.toNat - 48)) n ≤ maxUint64 then
          (ds.foldl (fun acc b => acc * 10 + (b.toNat - 48)) n, none)
        else (maxUint64, some NumError.ErrRange) := by
  induction ds generalizing n with
  | nil => simp [parseUintLoop, hn]
  | cons c rest ih =>
    have hc := hds c (List.mem_cons_self _ _)
    have hrest : ∀ c ∈ rest, 48 ≤ c ∧ c ≤ 57 := fun c h => hds c (List.mem_cons_of_mem _ h)
    have hge := foldl_digits_ge rest (n * 10 + (c.toNat - 48))
    have hmax : maxUint64 = 18446744073709551615 := rfl
    rw [List.foldl_cons]
    simp only [parseUintLoop, hc, and_self, if_true]
    rw [hmax] at hn ⊢
    by_cases h1 : n ≥ 18446744073709551615 / 10 + 1
    · rw [if_pos h1, if_neg (by omega)]
    · rw [if_neg h1]
      by_cases h2 : n * 10 + (c.toNat - 48) > 18446744073709551615
      · rw [if_pos h2, if_neg (by omega)]
      · rw [if_neg h2]
        have := ih (n * 10 + (c.toNat - 48)) (by rw [hmax]; omega) hrest
        rw [hmax] at this
        exact this

/-- The value of a string of decimal digits, as `ParseUint` reads it. -/
theorem ParseUint_digits (ds : GoString) (hne : ds ≠ []) (hds : ∀ c ∈ ds, 48 ≤ c ∧ c ≤ 57) :
    ParseUint ds
      = if digitsValue ds ≤ maxUint64 then (digitsValue ds, none)
        else (maxUint64, some NumError.ErrRange) := by
  rw [ParseUint, if_neg hne, parseUintLoop_digits ds 0 (by decide) hds]
  rfl

/-- On a non-empty string of decimal digits `ParseInt` returns the number when it is
below `2 ^ 63`, and otherwise the largest `int64` with a range error. -/
theorem ParseInt_digits (ds : GoString) (hne : ds ≠ []) (hds : ∀ c ∈ ds, 48 ≤ c ∧ c ≤ 57) :
    ParseInt ds
      = if digitsValue ds < 2 ^ 63 then ((digitsValue ds : Int), none)
        else (9223372036854775807, some NumError.ErrRange) := by
  have h63 : (2 : Nat) ^ 63 = 9223372036854775808 := by norm_num
  have hmax : maxUint64 = 18446744073709551615 := rfl
  cases ds with
  | nil => exact absurd rfl hne
  | cons c rest =>
    have hc := digit_byte c (hds c (List.mem_cons_self _ _))
    have hu := ParseUint_digits (c :: rest) hne hds
    generalize digitsValue (c :: rest) = v at hu ⊢
    rw [h63]
    simp only [ParseInt, hc.1, hc.2.1, false_or, if_false, decide_False]
    rw [hu, hmax]
    by_cases hv : v ≤ 18446744073709551615
    · rw [if_pos hv]
      by_cases hv2 : v < 9223372036854775808
      · have hw : wrapInt64 (v : Int) = v := by
          unfold wrapInt64
          norm_num
          omega
        simp [hv2, hw]
      · simp [hv2]
    · rw [if_neg hv, if_neg (by omega)]
      simp

/-- A syntax error of `ParseInt` comes with the value 0. -/
theorem ParseInt_syntax (s : GoString) (h : (ParseInt s).2 = some NumError.ErrSyntax) :
    (ParseInt s).1 = 0 := by
  cases s with
  | nil => rfl
  | cons c rest =>
    revert h
    simp only [ParseInt]
    rcases ParseUint (if c = 43 ∨ c = 45 then rest else c :: rest) with ⟨un, e⟩
    rcases e with _ | e
    · simp only
      split_ifs <;> simp
    · cases e
      · simp
      · simp only
        split_ifs <;> simp

/-- A range error of `ParseInt` comes with the largest or the smallest
`int64`. -/
theorem ParseInt_range (s : GoString) (h : (ParseInt s).2 = some NumError.ErrRange) :
    (ParseInt s).1 = 9223372036854775807 ∨ (ParseInt s).1 = -9223372036854775808 := by
  cases s with
  | nil => simp [ParseInt] at h
  | cons c rest =>
    revert h
    simp only [ParseInt]
    rcases ParseUint (if c = 43 ∨ c = 45 then rest else c :: rest) with ⟨un, e⟩
    rcases e with _ | e
    · simp only
      split_ifs <;> simp
    · cases e
      · simp
      · simp only
        split_ifs <;> simp

end strconv

namespace strconv

/-- On a string short enough for the fast path of `Atoi`, its loop and the loop
of `ParseUint` agree: both reject the string, or both read the same number,
which is below `10 ^ 18`. -/
theorem atoiLoop_parseUintLoop (l : GoString) (n k : Nat) (hn : n < 10 ^ k)
    (hk : k + l.length ≤ 18) :
    (atoiLoop l n = none ∧ parseUintLoop l n = (0, some NumError.ErrSyntax)) ∨
    (∃ v : Nat, v < 10 ^ 18 ∧ atoiLoop l n = some (v : Int) ∧ parseUintLoop l n = (v, none)) := by
  induction l generalizing n k with
  | nil =>
    right
    exact ⟨n, lt_of_lt_of_le hn (Nat.pow_le_pow_right (by decide) (by omega)), rfl, rfl⟩
  | cons c rest ih =>
    have hlen : k + 1 + rest.length ≤ 18 := by simp only [List.length_cons] at hk; omega
    by_cases hc : 48 ≤ c ∧ c ≤ 57
    · have hb := digit_byte c hc
      have h17 : (10 : Nat) ^ k ≤ 10 ^ 17 := Nat.pow_le_pow_right (by decide) (by omega)
      have h17v : (10 : Nat) ^ 17 = 100000000000000000 := by norm_num
      have hn1 : n * 10 + (c.toNat - 48) < 10 ^ (k + 1) := by
        rw [Nat.pow_succ]
        omega
      have hcast : ((n : Int) * 10 + ((c.toNat - 48 : Nat) : Int))
          = ((n * 10 + (c.toNat - 48) : Nat) : Int) := by push_cast; ring
      have hmax : maxUint64 = 18446744073709551615 := rfl
      have hstepA : atoiLoop (c :: rest) n = atoiLoop rest ((n * 10 + (c.toNat - 48) : Nat) : Int) := by
        simp only [atoiLoop, hb.2.2.1]
        rw [if_neg (by omega), hcast]
      have hstepU : parseUintLoop (c :: rest) n
          = parseUintLoop rest (n * 10 + (c.toNat - 48)) := by
        simp only [parseUintLoop, hc, and_self, if_true, hmax]
        rw [if_neg (by omega), if_neg (by omega)]
      rw [hstepA, hstepU]
      exact ih _ (k + 1) hn1 hlen
    · left
      have hb := nondigit_byte c hc
      constructor
      · simp only [atoiLoop]
        rw [if_pos hb]
      · simp only [parseUintLoop]
        rw [if_neg hc]

/-- The fast path of `Atoi` returns what `ParseInt` returns: `Atoi(s)` is
`ParseInt(s, 10, 0)` for every string. -/
theorem Atoi_eq_ParseInt (s : GoString) : Atoi s = ParseInt s := by
  unfold Atoi
  by_cases hfast : 0 < s.length ∧ s.length < 19
  · rw [if_pos hfast]
    have h18 : (10 : Nat) ^ 18 = 1000000000000000000 := by norm_num
    cases s with
    | nil => rfl
    | cons c rest =>
      have hlen : rest.length < 18 := by
        have := hfast.2
        simp only [List.length_cons] at this
        omega
      have fin : ∀ (neg : Bool) (v : Nat), v < 10 ^ 18 →
          (if neg = false ∧ v ≥ 9223372036854775808 then
              (((9223372036854775808 : Nat) : Int) - 1, some NumError.ErrRange)
            else if neg = true ∧ v > 9223372036854775808 then
              (-((9223372036854775808 : Nat) : Int), some NumError.ErrRange)
            else (if neg = true then wrapInt64 (-wrapInt64 (v : Int)) else wrapInt64 (v : Int),
              (none : Option NumError)))
            = (if neg = true then -(v : Int) else (v : Int), none) := by
        intro neg v hv
        rw [h18] at hv
        have hw : wrapInt64 (v : Int) = v := by
          unfold wrapInt64
          norm_num
          omega
        have hw2 : wrapInt64 (-(v : Int)) = -(v : Int) := by
          unfold wrapInt64
          norm_num
          omega
        rw [if_neg (by omega), if_neg (by omega), hw, hw2]
      by_cases hsign : c = 45 ∨ c = 43
      · have hsign2 : c = 43 ∨ c = 45 := hsign.symm
        cases rest with
        | nil => rcases hsign with h | h <;> subst h <;> rfl
        | cons d rest2 =>
          have hne : ¬ ((d :: rest2).length < 1) := by simp
          simp only [hsign, hne, and_false, if_false, if_true, ParseInt, hsign2, ParseUint]
          rw [if_neg (by simp)]
          rcases atoiLoop_parseUintLoop (d :: rest2) 0 0 (by norm_num) (by omega) with
            ⟨ha, hu⟩ | ⟨v, hv, ha, hu⟩
          · have ha2 : atoiLoop (d :: rest2) 0 = none := ha
            rw [ha2, hu]
          · have ha2 : atoiLoop (d :: rest2) 0 = some (v : Int) := ha
            rw [ha2, hu]
            simp only
            rw [fin _ v hv]
            by_cases h45 : c = 45 <;> simp [h45]
      · have hsign2 : ¬ (c = 43 ∨ c = 45) := fun h => hsign h.symm
        have h45 : c ≠ 45 := fun h => hsign (Or.inl h)
        simp only [hsign, false_and, if_false, ParseInt, hsign2, ParseUint]
        rw [if_neg (by simp)]
        rcases atoiLoop_parseUintLoop (c :: rest) 0 0 (by norm_num)
            (by simp only [List.length_cons]; omega) with ⟨ha, hu⟩ | ⟨v, hv, ha, hu⟩
        · have ha2 : atoiLoop (c :: rest) 0 = none := ha
          rw [ha2, hu]
        · have ha2 : atoiLoop (c :: rest) 0 = some (v : Int) := ha
          rw [ha2, hu]
          simp only
          rw [fin _ v hv]
          simp [h45]
  · rw [if_neg hfast]

end strconv

/-! ## The handlers -/

namespace response

/-- The response `ErrorResponse` builds for the message `InternalError`. -/
theorem ErrorResponse_InternalError (s : StdResponse) (err : GoError) (code : GoString) :
    s.ErrorResponse InternalError err code
      = { Message := InternalError, Data := none, Error := some (ErrorValue.text err.Error),
          Code := code, Metadata := none, HTTPCode := some 500 } := by
  have h1 : InternalError ≠ BadRequest := by decide
  have h2 : InternalError ≠ NotFound := by decide
  have h3 : InternalError ≠ MethodNotAllowed := by decide
  have h4 : InternalError ≠ RequestTimeout := by decide
  have h5 : InternalError ≠ TooManyRequests := by decide
  simp only [StdResponse.ErrorResponse, if_neg h1, if_neg h2, if_neg h3, if_neg h4, if_neg h5]

/-- The response `ErrorResponse` builds for the message `NotFound`. -/
theorem ErrorResponse_NotFound (s : StdResponse) (err : GoError) (code : GoString) :
    s.ErrorResponse NotFound err code
      = { Message := NotFound, Data := none, Error := some (ErrorValue.text err.Error),
          Code := code, Metadata := none, HTTPCode := some 404 } := by
  have h1 : NotFound ≠ BadRequest := by decide
  simp only [StdResponse.ErrorResponse, if_neg h1, if_true]

/-- The response `SuccessResponse` builds for the message `GetSuccess`. -/
theorem SuccessResponse_GetSuccess (s : StdResponse) (data : Payload) (code : GoString) :
    s.SuccessResponse GetSuccess data code
      = { Message := GetSuccess, Data := some data, Error := none, Code := code,
          Metadata := none, HTTPCode := some 200 } := by
  have h1 : GetSuccess ≠ InsertSuccess := by decide
  simp only [StdResponse.SuccessResponse, if_neg h1]

end response

namespace http

open response in
/-- The reply of `GetProductByID`, by the outcome of the orchestrator's
lookup. -/
theorem GetProductByID_reply {ω : Type} (uc : interfaces.ProductUsecase ω)
    (std : response.StdResponse) (c : echo.Context) (w : ω) :
    (NewHandler uc std).GetProductByID c w
      = ((match (uc.GetProductByID (strconv.ParseInt (c.Param (str "id"))).1 w).1 with
          | (_, some err) =>
            if err = GoError.ErrNotFound then
              { code := 404
                body := { Message := NotFound, Data := none,
                          Error := some (ErrorValue.text err.Error), Code := str "PRD-ERA-404",
                          Metadata := none, HTTPCode := none } }
            else
              { code := 500
                body := { Message := InternalError, Data := none,
                          Error := some (ErrorValue.text err.Error), Code := str "PRD-ERA-500",
                          Metadata := none, HTTPCode := none } }
          | (product, none) =>
            { code := 200
              body := { Message := GetSuccess, Data := some (Payload.product product),
                        Error := none, Code := str "PRD-ERA-200", Metadata := none,
                        HTTPCode := none } }),
         (uc.GetProductByID (strconv.ParseInt (c.Param (str "id"))).1 w).2) := by
  rcases hp : strconv.ParseInt (c.Param (str "id")) with ⟨id, perr⟩
  rcases ho : uc.GetProductByID id w with ⟨⟨p, err⟩, w₁⟩
  cases err with
  | none =>
    simp [ProductHandler.GetProductByID, NewHandler, hp, ho, SuccessResponse_GetSuccess,
      StdResponse.StandardResponse]
  | some e =>
    by_cases he : e = GoError.ErrNotFound
    · simp [ProductHandler.GetProductByID, NewHandler, hp, ho, he, ErrorResponse_NotFound,
        StdResponse.StandardResponse]
    · simp [ProductHandler.GetProductByID, NewHandler, hp, ho, he, ErrorResponse_InternalError,
        StdResponse.StandardResponse]

end http

namespace http

end http

namespace http

/-- The page of the filter built from the query parameters. -/
theorem listFilter_Page (c : echo.Context) :
    (listFilter c).Page
      = if (strconv.Atoi (c.QueryParam (str "page"))).1 ≤ 0 then 1
        else (strconv.Atoi (c.QueryParam (str "page"))).1 := by
  unfold listFilter
  rcases strconv.Atoi (c.QueryParam (str "page")) with ⟨page, e₁⟩
  rcases strconv.Atoi (c.QueryParam (str "limit")) with ⟨limit, e₂⟩
  simp only
  split_ifs <;> rfl

/-- The limit of the filter built from the query parameters. -/
theorem listFilter_Limit (c : echo.Context) :
    (listFilter c).Limit
      = if (strconv.Atoi (c.QueryParam (str "limit"))).1 ≤ 0 then 10
        else (strconv.Atoi (c.QueryParam (str "limit"))).1 := by
  unfold listFilter
  rcases strconv.Atoi (c.QueryParam (str "page")) with ⟨page, e₁⟩
  rcases strconv.Atoi (c.QueryParam (str "limit")) with ⟨limit, e₂⟩
  simp only
  split_ifs <;> rfl

/-- The search and sort strings of the filter built from the query
parameters. -/
theorem listFilter_Search_Sort (c : echo.Context) :
    (listFilter c).Search = c.QueryParam (str "search") ∧
    (listFilter c).Sort_ = c.QueryParam (str "sort") := by
  unfold listFilter
  rcases strconv.Atoi (c.QueryParam (str "page")) with ⟨page, e₁⟩
  rcases strconv.Atoi (c.QueryParam (str "limit")) with ⟨limit, e₂⟩
  simp only
  split_ifs <;> exact ⟨rfl, rfl⟩

/-- What a query parameter parsed with `Atoi` and replaced by the default `d`
when not positive comes to. -/
theorem defaulted_param (s : GoString) (d : Int) (hd : 1 ≤ d) :
    1 ≤ (if (strconv.Atoi s).1 ≤ 0 then d else (strconv.Atoi s).1) ∧
    ((strconv.Atoi s).2 = some strconv.NumError.ErrSyntax ∨ s = [] →
      (if (strconv.Atoi s).1 ≤ 0 then d else (strconv.Atoi s).1) = d) ∧
    ((strconv.Atoi s).2 = none → (strconv.Atoi s).1 ≤ 0 →
      (if (strconv.Atoi s).1 ≤ 0 then d else (strconv.Atoi s).1) = d) ∧
    ((strconv.Atoi s).2 = none → 1 ≤ (strconv.Atoi s).1 →
      (if (strconv.Atoi s).1 ≤ 0 then d else (strconv.Atoi s).1) = (strconv.Atoi s).1) ∧
    ((strconv.Atoi s).2 = some strconv.NumError.ErrRange →
      (if (strconv.Atoi s).1 ≤ 0 then d else (strconv.Atoi s).1) = 9223372036854775807 ∨
      (if (strconv.Atoi s).1 ≤ 0 then d else (strconv.Atoi s).1) = d) ∧
    (s ≠ [] → (∀ b ∈ s, 48 ≤ b ∧ b ≤ 57) →
      (if (strconv.Atoi s).1 ≤ 0 then d else (strconv.Atoi s).1)
        = if digitsValue s = 0 then d
          else if digitsValue s < 2 ^ 63 then (digitsValue s : Int)
          else 9223372036854775807) := by
  rw [strconv.Atoi_eq_ParseInt]
  refine ⟨?_, ?_, ?_, ?_, ?_, ?_⟩
  · split_ifs <;> omega
  · rintro (h | h)
    · rw [strconv.ParseInt_syntax s h]
      simp
    · subst h
      rfl
  · intro _ h
    rw [if_pos h]
  · intro _ h
    rw [if_neg (by omega)]
  · intro h
    rcases strconv.ParseInt_range s h with h | h <;> rw [h] <;> simp
  · intro hne hds
    have h63 : (2 : Nat) ^ 63 = 9223372036854775808 := by norm_num
    rw [strconv.ParseInt_digits s hne hds, h63]
    generalize digitsValue s = v
    by_cases h0 : v = 0
    · simp [h0]
    · by_cases h1 : v < 9223372036854775808
      · have : ¬ ((v : Int) ≤ 0) := by omega
        simp [h0, h1, this]
      · simp [h0, h1]

open trace in
/-- C25, counterexample: the page `9223372036854775808` and the limit
`99999999999999999999` do not parse as Go integers (`Atoi` reports a range
error for both), and the filter handed to the orchestrator has the page and
the limit 9223372036854775807, not 1 and 10. -/
theorem C25_counterexample :
    (strconv.Atoi (str "9223372036854775808")).2 = some strconv.NumError.ErrRange ∧
    (strconv.Atoi (str "99999999999999999999")).2 = some strconv.NumError.ErrRange ∧
    ((NewHandler (recordUsecase fixture.emptyUsecase) fixture.stdResponse).ListProducts
        (fixture.context
          [(str "page", str "9223372036854775808"), (str "limit", str "99999999999999999999")]
          [])
        ((), [])).2.2
      = [UsecaseCall.ListProducts
          { Search := [], Sort_ := [], Page := 9223372036854775807,
            Limit := 9223372036854775807 }] := by
  decide

open trace in
/-- C25, amended: the list endpoint hands the orchestrator one filter, with
`Page ≥ 1` and `Limit ≥ 1` and the search and sort strings as received.  A
page that is absent (empty), that `Atoi` rejects with a syntax error, or that
parses to zero or a negative number becomes 1, such a limit becomes 10, and a
page or limit that parses to a positive number is passed on unchanged.  A
page or limit that `Atoi` rejects with a range error becomes
9223372036854775807 when it is too large (1 or 10 when it is too small): a
string of digits of value `v` gives the default for `v = 0`, `v` for
`0 < v < 2 ^ 63`, and 9223372036854775807 for `v ≥ 2 ^ 63`. -/
theorem C25_list_filter_defaults {ω : Type} (uc : interfaces.ProductUsecase ω)
    (std : response.StdResponse) (c : echo.Context) (w : ω) :
    ((NewHandler (recordUsecase uc) std).ListProducts c (w, [])).2.2
      = [UsecaseCall.ListProducts (listFilter c)] ∧
    (listFilter c).Search = c.QueryParam (str "search") ∧
    (listFilter c).Sort_ = c.QueryParam (str "sort") ∧
    (1 ≤ (listFilter c).Page ∧
     ((strconv.Atoi (c.QueryParam (str "page"))).2 = some strconv.NumError.ErrSyntax ∨
        c.QueryParam (str "page") = [] → (listFilter c).Page = 1) ∧
     ((strconv.Atoi (c.QueryParam (str "page"))).2 = none →
        (strconv.Atoi (c.QueryParam (str "page"))).1 ≤ 0 → (listFilter c).Page = 1) ∧
     ((strconv.Atoi (c.QueryParam (str "page"))).2 = none →
        1 ≤ (strconv.Atoi (c.QueryParam (str "page"))).1 →
        (listFilter c).Page = (strconv.Atoi (c.QueryParam (str "page"))).1) ∧
     ((strconv.Atoi (c.QueryParam (str "page"))).2 = some strconv.NumError.ErrRange →
        (listFilter c).Page = 9223372036854775807 ∨ (listFilter c).Page = 1) ∧
     (c.QueryParam (str "page") ≠ [] → (∀ b ∈ c.QueryParam (str "page"), 48 ≤ b ∧ b ≤ 57) →
        (listFilter c).Page
          = if digitsValue (c.QueryParam (str "page")) = 0 then 1
            else if digitsValue (c.QueryParam (str "page")) < 2 ^ 63 then
              (digitsValue (c.QueryParam (str "page")) : Int)
            else 9223372036854775807)) ∧
    (1 ≤ (listFilter c).Limit ∧
     ((strconv.Atoi (c.QueryParam (str "limit"))).2 = some strconv.NumError.ErrSyntax ∨
        c.QueryParam (str "limit") = [] → (listFilter c).Limit = 10) ∧
     ((strconv.Atoi (c.QueryParam (str "limit"))).2 = none →
        (strconv.Atoi (c.QueryParam (str "limit"))).1 ≤ 0 → (listFilter c).Limit = 10) ∧
     ((strconv.Atoi (c.QueryParam (str "limit"))).2 = none →
        1 ≤ (strconv.Atoi (c.QueryParam (str "limit"))).1 →
        (listFilter c).Limit = (strconv.Atoi (c.QueryParam (str "limit"))).1) ∧
     ((strconv.Atoi (c.QueryParam (str "limit"))).2 = some strconv.NumError.ErrRange →
        (listFilter c).Limit = 9223372036854775807 ∨ (listFilter c).Limit = 10) ∧
     (c.QueryParam (str "limit") ≠ [] → (∀ b ∈ c.QueryParam (str "limit"), 48 ≤ b ∧ b ≤ 57) →
        (listFilter c).Limit
          = if digitsValue (c.QueryParam (str "limit")) = 0 then 10
            else if digitsValue (c.QueryParam (str "limit")) < 2 ^ 63 then
              (digitsValue (c.QueryParam (str "limit")) : Int)
            else 9223372036854775807)) := by
  refine ⟨?_, (listFilter_Search_Sort c).1, (listFilter_Search_Sort c).2, ?_, ?_⟩
  · rcases ho : uc.ListProducts (listFilter c) w with ⟨⟨rows, meta, err⟩, w₁⟩
    cases err <;> simp [ProductHandler.ListProducts, NewHandler, recordUsecase, ho]
  · rw [listFilter_Page]
    exact defaulted_param _ 1 (by decide)
  · rw [listFilter_Limit]
    exact defaulted_param _ 10 (by decide)

open trace in
/-- Instance of C25 (amended): the page `abc` and the limit `-1` of the
integration tests become 1 and 10; the page `3` and the limit `25` are passed
on. -/
theorem C25_list_filter_defaults_witness :
    listFilter (fixture.context [(str "page", str "abc"), (str "limit", str "-1")] [])
      = { Search := [], Sort_ := [], Page := 1, Limit := 10 } ∧
    ((NewHandler (recordUsecase fixture.emptyUsecase) fixture.stdResponse).ListProducts
        (fixture.context
          [(str "search", str "LG"), (str "page", str "3"), (str "limit", str "25")] [])
        ((), [])).2.2
      = [UsecaseCall.ListProducts { Search := str "LG", Sort_ := [], Page := 3, Limit := 25 }] :=
  ⟨by decide,
   (C25_list_filter_defaults fixture.emptyUsecase fixture.stdResponse
      (fixture.context
        [(str "search", str "LG"), (str "page", str "3"), (str "limit", str "25")] [])
      ()).1.trans (by decide)⟩

end http

namespace http

/-- C23, counterexample: the store fails with the message
`dial tcp 10.0.0.5:5432: connect: connection refused`; the bodies of the
responses of the create, list and get-by-id endpoints carry that text in
their `error` field, and a store failure with another message gives another
body. -/
theorem C23_counterexample :
    ((NewHandler
        (fixture.failingService
          (GoError.other (str "dial tcp 10.0.0.5:5432: connect: connection refused")))
        fixture.stdResponse).CreateProduct (fixture.context [] [])
        ((), fixture.serverWith [])).1.body.Error
      = some (response.ErrorValue.text
          (str "dial tcp 10.0.0.5:5432: connect: connection refused")) ∧
    ((NewHandler
        (fixture.failingService
          (GoError.other (str "dial tcp 10.0.0.5:5432: connect: connection refused")))
        fixture.stdResponse).ListProducts (fixture.context [] [])
        ((), fixture.serverWith [])).1.body.Error
      = some (response.ErrorValue.text
          (str "dial tcp 10.0.0.5:5432: connect: connection refused")) ∧
    ((NewHandler
        (fixture.failingService
          (GoError.other (str "dial tcp 10.0.0.5:5432: connect: connection refused")))
        fixture.stdResponse).GetProductByID (fixture.context [] [(str "id", str "1")])
        ((), fixture.serverWith [])).1.body.Error
      = some (response.ErrorValue.text
          (str "dial tcp 10.0.0.5:5432: connect: connection refused")) ∧
    ((NewHandler
        (fixture.failingService
          (GoError.other (str "dial tcp 10.0.0.5:5432: connect: connection refused")))
        fixture.stdResponse).CreateProduct (fixture.context [] [])
        ((), fixture.serverWith [])).1.body
      ≠ ((NewHandler
        (fixture.failingService (GoError.other (str "pq: relation products does not exist")))
        fixture.stdResponse).CreateProduct (fixture.context [] [])
        ((), fixture.serverWith [])).1.body := by
  decide

open response in
/-- C23, amended: when the store fails with the error `e`, the response is the
internal failure with status 500, code `PRD-ERA-500` and the message
`internal server error`, and the `error` field of its body is the text of `e`:
for the create endpoint when the insert fails, for the list endpoint when the
cache misses and the store query fails, and for the get-by-id endpoint when
the cache misses and the lookup fails with an error other than
`constant.ErrNotFound` (for which the response is the 404 with the text of
the error).  Two store failures give the same body exactly when their texts
are equal. -/
theorem C23_store_failure_response {ω : Type} (u : usecase.productUsecase ω)
    (json : EncodingJSON) (createdAt updatedAt : Time) (std : response.StdResponse)
    (c : echo.Context) (w : ω) (e : GoError) :
    (∀ req, c.Bind = (req, none) → c.Validate req = none →
      (u.repo.Create (usecase.newProduct createdAt updatedAt req) w).1 = some e →
      ((NewHandler (u.asInterface json createdAt updatedAt) std).CreateProduct c w).1
        = { code := 500
            body := { Message := str "internal server error", Data := none,
                      Error := some (ErrorValue.text e.Error), Code := str "PRD-ERA-500",
                      Metadata := none, HTTPCode := none } }) ∧
    ((u.redisRepo.Get (usecase.listKey (listFilter c)) w).1.2 ≠ none →
      (u.repo.Fetch (listFilter c)
        (u.redisRepo.Get (usecase.listKey (listFilter c)) w).2).1.2.2 = some e →
      ((NewHandler (u.asInterface json createdAt updatedAt) std).ListProducts c w).1
        = { code := 500
            body := { Message := str "internal server error", Data := none,
                      Error := some (ErrorValue.text e.Error), Code := str "PRD-ERA-500",
                      Metadata := none, HTTPCode := none } }) ∧
    ((u.redisRepo.Get (usecase.detailKey (strconv.ParseInt (c.Param (str "id"))).1) w).1.2
        ≠ none →
      (u.repo.GetByID (strconv.ParseInt (c.Param (str "id"))).1
        (u.redisRepo.Get (usecase.detailKey (strconv.ParseInt (c.Param (str "id"))).1)
          w).2).1.2 = some e →
      ((NewHandler (u.asInterface json createdAt updatedAt) std).GetProductByID c w).1
        = if e = GoError.ErrNotFound then
            { code := 404
              body := { Message := str "data not found", Data := none,
                        Error := some (ErrorValue.text e.Error), Code := str "PRD-ERA-404",
                        Metadata := none, HTTPCode := none } }
          else
            { code := 500
              body := { Message := str "internal server error", Data := none,
                        Error := some (ErrorValue.text e.Error), Code := str "PRD-ERA-500",
                        Metadata := none, HTTPCode := none } }) ∧
    (∀ e₂ : GoError,
      ({ Message := str "internal server error", Data := none,
         Error := some (ErrorValue.text e.Error), Code := str "PRD-ERA-500",
         Metadata := none, HTTPCode := none } : ApiResponse)
        = { Message := str "internal server error", Data := none,
            Error := some (ErrorValue.text e₂.Error), Code := str "PRD-ERA-500",
            Metadata := none, HTTPCode := none }
      ↔ e.Error = e₂.Error) := by
  have hI : InternalError = str "internal server error" := rfl
  have hN : NotFound = str "data not found" := rfl
  have hE := ErrorResponse_InternalError std e (str "PRD-ERA-500")
  rw [hI] at hE
  refine ⟨?_, ?_, ?_, ?_⟩
  · intro req hb hv hs
    rcases hc : u.repo.Create (usecase.newProduct createdAt updatedAt req) w with ⟨ce, w₁⟩
    rw [hc] at hs
    simp only at hs
    subst hs
    simp [ProductHandler.CreateProduct, NewHandler, usecase.productUsecase.asInterface,
      usecase.productUsecase.CreateProduct, hb, hv, hc, hE,
      StdResponse.StandardResponse, hI]
  · intro hmiss hs
    rcases hg : u.redisRepo.Get (usecase.listKey (listFilter c)) w with ⟨⟨val, gerr⟩, w₁⟩
    rw [hg] at hmiss hs
    simp only at hmiss hs
    rcases hf : u.repo.Fetch (listFilter c) w₁ with ⟨⟨rows, total, ferr⟩, w₂⟩
    rw [hf] at hs
    simp only at hs
    subst hs
    simp [ProductHandler.ListProducts, NewHandler, usecase.productUsecase.asInterface,
      usecase.productUsecase.ListProducts, hg, hmiss, hf, hE,
      StdResponse.StandardResponse, hI]
  · intro hmiss hs
    rw [GetProductByID_reply]
    generalize (strconv.ParseInt (c.Param (str "id"))).1 = id at hmiss hs ⊢
    rcases hg : u.redisRepo.Get (usecase.detailKey id) w with ⟨⟨val, gerr⟩, w₁⟩
    rw [hg] at hmiss hs
    simp only at hmiss hs
    rcases hf : u.repo.GetByID id w₁ with ⟨⟨p, ferr⟩, w₂⟩
    rw [hf] at hs
    simp only at hs
    subst hs
    simp [usecase.productUsecase.asInterface, usecase.productUsecase.GetProductByID, hg, hmiss,
      hf, hI, hN]
  · intro e₂
    simp

/-- Instance of C23 (amended): the store refuses the insert with the error
`db error`; the create endpoint answers 500 with that text in the `error`
field. -/
theorem C23_store_failure_response_witness :
    ((NewHandler (fixture.failingService (GoError.other (str "db error")))
        fixture.stdResponse).CreateProduct (fixture.context [] [])
        ((), fixture.serverWith [])).1
      = { code := 500
          body := { Message := str "internal server error", Data := none,
                    Error := some (response.ErrorValue.text (str "db error")),
                    Code := str "PRD-ERA-500", Metadata := none, HTTPCode := none } } :=
  (C23_store_failure_response
    (app.productUsecase (fixture.failingStore (GoError.other (str "db error")))
      redis.memoryClient)
    fixture.json Time.zero Time.zero fixture.stdResponse (fixture.context [] [])
    ((), fixture.serverWith []) (GoError.other (str "db error"))).1
    fixture.createRequest rfl rfl rfl

end http

/-! ## Populating and reading the list cache (C30) -/

namespace usecase

end usecase

/-! ## The search filter of `Fetch` (C22) -/

namespace postgres

set_option maxRecDepth 100000 in
/-- Case folding turns no byte into a wildcard or a backslash. -/
theorem lower_not_special : ∀ c : UInt8, (c ≠ 37 ∧ c ≠ 95 ∧ c ≠ 92) →
    (lower c ≠ 37 ∧ lower c ≠ 95 ∧ lower c ≠ 92) :=
  forall_byte _ (by decide)

/-- A byte that is no wildcard and no backslash stands for itself in a
pattern. -/
theorem parseLike_lit (c : UInt8) (p : GoString) (h : c ≠ 37 ∧ c ≠ 95 ∧ c ≠ 92) :
    parseLike (c :: p) = LikeTok.lit c :: parseLike p := by
  obtain ⟨h1, h2, h3⟩ := h
  conv_lhs => unfold parseLike
  split <;> simp_all

/-- A run of bytes without wildcard and backslash is a run of literals. -/
theorem parseLike_lits (l rest : GoString) (h : ∀ c ∈ l, c ≠ 37 ∧ c ≠ 95 ∧ c ≠ 92) :
    parseLike (l ++ rest) = l.map LikeTok.lit ++ parseLike rest := by
  induction l with
  | nil => rfl
  | cons c l ih =>
    rw [List.cons_append, parseLike_lit c _ (h c (List.mem_cons_self _ _)),
      ih (fun d hd => h d (List.mem_cons_of_mem _ hd))]
    rfl

/-- A function accepts some suffix of a string exactly when it accepts one of
its suffixes. -/
theorem anySuffix_iff (f : GoString → Bool) (t : GoString) :
    redis.anySuffix f t = true ↔ ∃ u, u <:+ t ∧ f u = true := by
  induction t with
  | nil =>
    simp only [redis.anySuffix]
    constructor
    · intro h
      exact ⟨[], List.suffix_refl _, h⟩
    · rintro ⟨u, hu, hf⟩
      rw [List.suffix_nil] at hu
      rw [← hu]
      exact hf
  | cons c t ih =>
    simp only [redis.anySuffix, Bool.or_eq_true, ih]
    constructor
    · rintro (h | ⟨u, hu, hf⟩)
      · exact ⟨c :: t, List.suffix_refl _, h⟩
      · exact ⟨u, hu.trans (List.suffix_cons _ _), hf⟩
    · rintro ⟨u, hu, hf⟩
      rcases List.suffix_cons_iff.mp hu with h | h
      · left
        rw [← h]
        exact hf
      · exact Or.inr ⟨u, h, hf⟩

/-- A run of literals followed by `%` matches the strings that begin with the
run. -/
theorem matchLike_lits (l t : GoString) :
    matchLike (l.map LikeTok.lit ++ [LikeTok.anySeq]) t = true ↔ l <+: t := by
  induction l generalizing t with
  | nil =>
    simp only [List.map_nil, List.nil_append, matchLike, List.nil_prefix, iff_true]
    exact redis.anySuffix_isEmpty t
  | cons c l ih =>
    cases t with
    | nil => simp [matchLike]
    | cons d t =>
      simp only [List.map_cons, List.cons_append, matchLike, Bool.and_eq_true,
        decide_eq_true_eq, List.cons_prefix_cons]
      exact and_congr_right (fun _ => ih t)

/-- For a string `s` without `%`, `_` and backslash, `text ILIKE '%s%'` holds
exactly when `text` contains `s`, letters compared without regard to case. -/
theorem ilike_contains (s text : GoString) (h : ∀ c ∈ s, c ≠ 37 ∧ c ≠ 95 ∧ c ≠ 92) :
    ilike text (str "%" ++ s ++ str "%") = true ↔ s.map lower <:+: text.map lower := by
  have hp : str "%" = [37] := by decide
  have hl : lower 37 = 37 := by decide
  have hs : ∀ c ∈ s.map lower, c ≠ 37 ∧ c ≠ 95 ∧ c ≠ 92 := by
    intro c hc
    rcases List.mem_map.mp hc with ⟨d, hd, rfl⟩
    exact lower_not_special d (h d hd)
  have hpat : parseLike ((str "%" ++ s ++ str "%").map lower)
      = LikeTok.anySeq :: ((s.map lower).map LikeTok.lit ++ [LikeTok.anySeq]) := by
    rw [hp]
    simp only [List.map_append, List.map_cons, List.map_nil, hl, List.singleton_append,
      List.cons_append, List.nil_append]
    have h37 : parseLike (37 :: (s.map lower ++ [37]))
        = LikeTok.anySeq :: parseLike (s.map lower ++ [37]) := by
      rw [parseLike]
    rw [h37, parseLike_lits _ _ hs]
    rfl
  rw [ilike, hpat]
  simp only [matchLike]
  rw [anySuffix_iff]
  simp only [matchLike_lits]
  rw [List.infix_iff_prefix_suffix]
  constructor
  · rintro ⟨u, hu, hpre⟩
    exact ⟨u, hpre, hu⟩
  · rintro ⟨u, hpre, hu⟩
    exact ⟨u, hu, hpre⟩

/-- Sorting does not change which rows there are. -/
theorem insertRow_perm (clause : GoString) (p : entity.Product) (rows : List entity.Product) :
    (insertRow clause p rows).Perm (p :: rows) := by
  induction rows with
  | nil => exact List.Perm.refl _
  | cons q rest ih =>
    unfold insertRow
    split_ifs
    · exact List.Perm.refl _
    · exact (List.Perm.cons q ih).trans (List.Perm.swap p q rest)

theorem sortRows_perm (clause : GoString) (rows : List entity.Product) :
    (sortRows clause rows).Perm rows := by
  induction rows with
  | nil => exact List.Perm.refl _
  | cons q rest ih =>
    exact (insertRow_perm clause q _).trans (List.Perm.cons q ih)

theorem orderRows_perm (orders : List GoString) (rows : List entity.Product) :
    (orderRows orders rows).Perm rows := by
  induction orders with
  | nil => exact List.Perm.refl _
  | cons c rest ih => exact (sortRows_perm c _).trans ih

/-- A page of rows is part of the rows. -/
theorem page_subset (s : gorm.Statement) (rows : List entity.Product) :
    ∀ p ∈ page s rows, p ∈ rows := by
  intro p hp
  unfold page at hp
  cases ho : s.offset <;> cases hl : s.limit <;> simp only [ho, hl] at hp
  · exact hp
  · split_ifs at hp
    · exact List.mem_of_mem_take hp
    · exact hp
  · split_ifs at hp
    · exact List.mem_of_mem_drop hp
    · exact hp
  · split_ifs at hp
    · exact List.mem_of_mem_drop (List.mem_of_mem_take hp)
    · exact List.mem_of_mem_take hp
    · exact List.mem_of_mem_drop hp
    · exact hp

end postgres

namespace repository

/-- What `Fetch` returns over the database: the count of the selected rows,
and the page of the selected rows in order. -/
theorem Fetch_database (filter : request.ProductFilter) (table : List entity.Product) :
    (NewProductRepository postgres.database).Fetch filter table
      = ((postgres.page (rowsQuery filter)
            (postgres.orderRows [orderClause filter.Sort_]
              (postgres.selectRows (countQuery filter) table)),
          ((postgres.selectRows (countQuery filter) table).length : Int), none), table) := by
  have hknown : (countQuery filter).conds.all postgres.condKnown = true := by
    by_cases hs : filter.Search = []
    · simp [countQuery, hs, gorm.Model]
    · simp [countQuery, hs, gorm.Model, gorm.Statement.Where, postgres.condKnown]
  have hconds : (rowsQuery filter).conds = (countQuery filter).conds := rfl
  have horders : (rowsQuery filter).orders = [orderClause filter.Sort_] := by
    by_cases hs : filter.Search = []
    · simp [rowsQuery, countQuery, hs, gorm.Model, gorm.Statement.Order, gorm.Statement.Offset,
        gorm.Statement.Limit]
    · simp [rowsQuery, countQuery, hs, gorm.Model, gorm.Statement.Where, gorm.Statement.Order,
        gorm.Statement.Offset, gorm.Statement.Limit]
  have hsel : postgres.selectRows (rowsQuery filter) table
      = postgres.selectRows (countQuery filter) table := by
    simp only [postgres.selectRows, hconds]
  simp only [NewProductRepository, productRepository.Fetch, postgres.database, hknown, hconds,
    if_true, horders, hsel]

/-- The rows the search condition of a filter selects: those whose name or
description contains the search string, when it has no `%`, `_` or
backslash. -/
theorem selectRows_search (filter : request.ProductFilter) (table : List entity.Product)
    (h : ∀ c ∈ filter.Search, c ≠ 37 ∧ c ≠ 95 ∧ c ≠ 92) :
    postgres.selectRows (countQuery filter) table
      = table.filter (fun p => decide
          (filter.Search.map postgres.lower <:+: p.Name.map postgres.lower ∨
           filter.Search.map postgres.lower <:+: p.Description.map postgres.lower)) := by
  by_cases hs : filter.Search = []
  · simp [postgres.selectRows, countQuery, hs, gorm.Model]
  · simp only [postgres.selectRows, countQuery, hs, gorm.Model, gorm.Statement.Where, ne_eq,
      not_false_eq_true, if_true, List.nil_append, List.all_cons, List.all_nil, Bool.and_true,
      postgres.condHolds]
    congr 1
    funext p
    rw [Bool.eq_iff_iff]
    simp only [Bool.or_eq_true, decide_eq_true_eq, postgres.ilike_contains _ _ h]

end repository

namespace repository

/-- C22, counterexample: the table holds `LG TV` (`OLED 55 inch`) and
`Samsung A_52` (`100% original`).  The search string `_` occurs in neither the
name nor the description of the first row, and the search string `%` does not
either, yet `Fetch` counts and returns both rows for each of them: in the
pattern `%_%` the underscore stands for any character, and `%%%` matches
every string. -/
theorem C22_counterexample :
    ((NewProductRepository postgres.database).Fetch
        { Search := str "_", Sort_ := [], Page := 1, Limit := 10 } fixture.catalogue).1
      = (fixture.catalogue, 2, none) ∧
    ((NewProductRepository postgres.database).Fetch
        { Search := str "%", Sort_ := [], Page := 1, Limit := 10 } fixture.catalogue).1
      = (fixture.catalogue, 2, none) ∧
    fixture.described 1 (str "LG TV") (str "OLED 55 inch") ∈ fixture.catalogue ∧
    ¬ ((str "_").map postgres.lower <:+: (str "LG TV").map postgres.lower) ∧
    ¬ ((str "_").map postgres.lower <:+: (str "OLED 55 inch").map postgres.lower) ∧
    ¬ ((str "%").map postgres.lower <:+: (str "LG TV").map postgres.lower) ∧
    ¬ ((str "%").map postgres.lower <:+: (str "OLED 55 inch").map postgres.lower) := by
  decide

/-- C22, amended: for every search string `s` without the characters `%`, `_`
and backslash, `Fetch` over the database returns no error, its total is the
number of the rows whose name or description contains `s` (letters compared
without regard to case), and its rows are the page of those rows in the
requested order: every returned row is such a row, and page 1 with a limit
that is not below the total returns them all.  For the empty search string no
row is excluded.  The total does not depend on sort, page and limit (for any
search string). -/
theorem C22_search_filter (filter : request.ProductFilter) (table : List entity.Product)
    (hplain : ∀ c ∈ filter.Search, c ≠ 37 ∧ c ≠ 95 ∧ c ≠ 92) :
    ((NewProductRepository postgres.database).Fetch filter table).1.2.2 = none ∧
    ((NewProductRepository postgres.database).Fetch filter table).1.2.1
      = ((table.filter (fun p => decide
          (filter.Search.map postgres.lower <:+: p.Name.map postgres.lower ∨
           filter.Search.map postgres.lower <:+: p.Description.map postgres.lower))).length
          : Int) ∧
    ((NewProductRepository postgres.database).Fetch filter table).1.1
      = postgres.page (rowsQuery filter)
          (postgres.orderRows [orderClause filter.Sort_]
            (table.filter (fun p => decide
              (filter.Search.map postgres.lower <:+: p.Name.map postgres.lower ∨
               filter.Search.map postgres.lower <:+: p.Description.map postgres.lower)))) ∧
    (∀ p ∈ ((NewProductRepository postgres.database).Fetch filter table).1.1,
      p ∈ table ∧
      (filter.Search.map postgres.lower <:+: p.Name.map postgres.lower ∨
       filter.Search.map postgres.lower <:+: p.Description.map postgres.lower)) ∧
    (filter.Page = 1 →
      ((table.filter (fun p => decide
          (filter.Search.map postgres.lower <:+: p.Name.map postgres.lower ∨
           filter.Search.map postgres.lower <:+: p.Description.map postgres.lower))).length
          : Int) ≤ filter.Limit →
      (((NewProductRepository postgres.database).Fetch filter table).1.1).Perm
        (table.filter (fun p => decide
          (filter.Search.map postgres.lower <:+: p.Name.map postgres.lower ∨
           filter.Search.map postgres.lower <:+: p.Description.map postgres.lower)))) ∧
    (filter.Search = [] →
      table.filter (fun p => decide
          (filter.Search.map postgres.lower <:+: p.Name.map postgres.lower ∨
           filter.Search.map postgres.lower <:+: p.Description.map postgres.lower)) = table) ∧
    (∀ (sort : GoString) (page limit : Int),
      ((NewProductRepository postgres.database).Fetch
          { filter with Sort_ := sort, Page := page, Limit := limit } table).1.2.1
        = ((NewProductRepository postgres.database).Fetch filter table).1.2.1) := by
  rw [Fetch_database, selectRows_search filter table hplain]
  refine ⟨rfl, rfl, rfl, ?_, ?_, ?_, ?_⟩
  · intro p hp
    simp only at hp
    have h1 := postgres.page_subset _ _ p hp
    have h2 := (postgres.orderRows_perm _ _).mem_iff.mp h1
    rw [List.mem_filter] at h2
    exact ⟨h2.1, by simpa using h2.2⟩
  · intro hpage hlen
    simp only
    generalize table.filter (fun p => decide
      (filter.Search.map postgres.lower <:+: p.Name.map postgres.lower ∨
       filter.Search.map postgres.lower <:+: p.Description.map postgres.lower)) = sel at hlen ⊢
    have hoff : (rowsQuery filter).offset = some 0 := by
      have h0 : wrapInt64 0 = 0 := by decide
      simp [rowsQuery, gorm.Statement.Offset, gorm.Statement.Limit, hpage, h0]
    have hlim : (rowsQuery filter).limit = some filter.Limit := by
      simp [rowsQuery, gorm.Statement.Limit]
    have hnn : filter.Limit ≥ 0 := le_trans (Int.ofNat_nonneg _) hlen
    have hpageAll : postgres.page (rowsQuery filter)
        (postgres.orderRows [orderClause filter.Sort_] sel)
        = postgres.orderRows [orderClause filter.Sort_] sel := by
      simp only [postgres.page, hoff, hlim, lt_self_iff_false, if_false, hnn, if_true]
      apply List.take_of_length_le
      rw [(postgres.orderRows_perm _ _).length_eq]
      omega
    rw [hpageAll]
    exact postgres.orderRows_perm _ _
  · intro hs
    simp [hs]
  · intro sort page limit
    rw [Fetch_database,
      selectRows_search { filter with Sort_ := sort, Page := page, Limit := limit } table hplain]

/-- Instance of C22 (amended): the search string `lg` selects the row `LG TV`
of the two rows of the table. -/
theorem C22_search_filter_witness :
    ((NewProductRepository postgres.database).Fetch
        { Search := str "lg", Sort_ := str "cheapest", Page := 1, Limit := 10 }
        fixture.catalogue).1.2.1 = 1 :=
  (C22_search_filter { Search := str "lg", Sort_ := str "cheapest", Page := 1, Limit := 10 }
    fixture.catalogue (by decide)).2.1.trans (by decide)

end repository

end Erajaya
